import Mathlib

/-!
# bengine colliders: axis-aligned boxes and hitscanners

A shallow embedding of `bengine::coordinate_2d`, `bengine::basic_collider_2d`,
`bengine::fast_vector_2d` and `bengine::hitscanner_2d`
(`bengine_coordinate_2d.hpp`, `bengine_colliders.hpp`, `bengine_fast_vector_2d.hpp`,
`bengine_helpers.hpp`), of `math_helper::map_value_to_range` and the two searches of
`search_algorithms`, of `greatest_common_divisor`, of the 8-bit `bitwise_manipulator` and of
`matrix_helper::rotate_matrix` (`bengine_helpers.hpp`), and of the collider generation and the
render sweep of `raycaster` (`main.cpp`).

Numbers: a C++ `double` is read in two ways.  In the first it is an element of a linearly
ordered field, with exact arithmetic: the box operations are written over an arbitrary such
field (so they run on `ℚ`); the vector and the hitscanner need `cos`, `sin`, `sqrt`, `floor`
and `π` and are written over `ℝ`.  The theorems over this reading state stored sums and
products, comparisons and control flow, which are the same with rounded operations.  In the
second (`namespace binary64`) it is a finite IEEE 754 binary64 number `m * 2^e`, and every
operation rounds to nearest, ties to even, with gradual underflow; `std::sqrt` is computed,
correctly rounded, and `std::cos`, `std::sin` and `std::atan2` are parameters (`libm`).
Infinities, NaN and the sign of zero are not represented, so this reading is used on inputs
whose results stay finite; the theorems over it evaluate the code where the rounding decides
the outcome.  Mutating member functions return the new object.
-/

namespace bengine

/-! ## coordinate_2d -/

/-- The class `coordinate_2d<type>`: the two private fields. -/
structure coordinate_2d (α : Type) where
  x_pos : α
  y_pos : α
deriving DecidableEq, Repr

namespace coordinate_2d

variable {α : Type} [LinearOrderedField α]

/-- Accessor `get_x_pos`. -/
def get_x_pos (self : coordinate_2d α) : α := self.x_pos

/-- Accessor `get_y_pos`. -/
def get_y_pos (self : coordinate_2d α) : α := self.y_pos

/-- Setter `set_x_pos`. -/
def set_x_pos (self : coordinate_2d α) (x_pos : α) : coordinate_2d α :=
  { self with x_pos := x_pos }

/-- Setter `set_y_pos`. -/
def set_y_pos (self : coordinate_2d α) (y_pos : α) : coordinate_2d α :=
  { self with y_pos := y_pos }

/-- Member `translate_horizontally`: `x_pos += x_comp`. -/
def translate_horizontally (self : coordinate_2d α) (x_comp : α) : coordinate_2d α :=
  { self with x_pos := self.x_pos + x_comp }

/-- Member `translate_vertically`: `y_pos += y_comp`. -/
def translate_vertically (self : coordinate_2d α) (y_comp : α) : coordinate_2d α :=
  { self with y_pos := self.y_pos + y_comp }

end coordinate_2d

/-! ## basic_collider_2d -/

/-- The enum `basic_collider_2d::fix_mode`. -/
inductive fix_mode where
  | MOVE_SELF
  | MOVE_OTHER
  | MOVE_BOTH
deriving DecidableEq, Repr

/-- The class `basic_collider_2d`: a centre and two half-extents. -/
structure basic_collider_2d (α : Type) where
  position : coordinate_2d α
  width_2 : α
  height_2 : α
deriving DecidableEq, Repr

namespace basic_collider_2d

variable {α : Type} [LinearOrderedField α]

/-- The default constructor: centre `(0, 0)`, both half-extents `0`. -/
def default : basic_collider_2d α := ⟨⟨0, 0⟩, 0, 0⟩

def get_x_pos (self : basic_collider_2d α) : α := self.position.get_x_pos

def get_y_pos (self : basic_collider_2d α) : α := self.position.get_y_pos

def get_width_2 (self : basic_collider_2d α) : α := self.width_2

def get_height_2 (self : basic_collider_2d α) : α := self.height_2

def get_left_x (self : basic_collider_2d α) : α := self.position.get_x_pos - self.width_2

def get_right_x (self : basic_collider_2d α) : α := self.position.get_x_pos + self.width_2

def get_top_y (self : basic_collider_2d α) : α := self.position.get_y_pos + self.height_2

def get_bottom_y (self : basic_collider_2d α) : α := self.position.get_y_pos - self.height_2

def set_x_pos (self : basic_collider_2d α) (x_pos : α) : basic_collider_2d α :=
  { self with position := self.position.set_x_pos x_pos }

def set_y_pos (self : basic_collider_2d α) (y_pos : α) : basic_collider_2d α :=
  { self with position := self.position.set_y_pos y_pos }

/-- Member `set_width_2`: a negative argument shifts the centre and is stored negated. -/
def set_width_2 (self : basic_collider_2d α) (width_2 : α) : basic_collider_2d α :=
  if width_2 ≥ 0 then { self with width_2 := width_2 }
  else { self with position := self.position.translate_horizontally width_2,
                   width_2 := -width_2 }

/-- Member `set_height_2`: a negative argument shifts the centre and is stored negated. -/
def set_height_2 (self : basic_collider_2d α) (height_2 : α) : basic_collider_2d α :=
  if height_2 ≥ 0 then { self with height_2 := height_2 }
  else { self with position := self.position.translate_vertically height_2,
                   height_2 := -height_2 }

def set_width (self : basic_collider_2d α) (width : α) : basic_collider_2d α :=
  self.set_width_2 (width / 2)

def set_height (self : basic_collider_2d α) (height : α) : basic_collider_2d α :=
  self.set_height_2 (height / 2)

/-- The constructor `basic_collider_2d(x, y, width, height)`: four setters on the default
object. -/
def new (x y width height : α) : basic_collider_2d α :=
  ((((default : basic_collider_2d α).set_x_pos x).set_y_pos y).set_width width).set_height height

/-- Member `detect_collision`: not separated along either axis. -/
def detect_collision (self other : basic_collider_2d α) : Bool :=
  !(decide (self.get_right_x < other.get_left_x) || decide (self.get_left_x > other.get_right_x)
    || decide (self.get_top_y < other.get_bottom_y)
    || decide (self.get_bottom_y > other.get_top_y))

/-- The locals `smallest_overlap`, `x_vector`, `y_vector` of `fix_collision`. -/
structure fix_locals (α : Type) where
  smallest_overlap : α
  x_vector : α
  y_vector : α
deriving DecidableEq, Repr

/-- Lines 141 to 162 of `fix_collision`: the three overlaps, the initial candidate
`right - other.left`, then the three strict comparisons in source order. -/
def fix_collision_locals (self other : basic_collider_2d α) : fix_locals α :=
  let top_overlap := self.get_top_y - other.get_bottom_y
  let left_overlap := other.get_right_x - self.get_left_x
  let bottom_overlap := other.get_top_y - self.get_bottom_y
  let s0 : fix_locals α :=
    ⟨self.get_right_x - other.get_left_x, -(self.get_right_x - other.get_left_x), 0⟩
  let s1 : fix_locals α :=
    if top_overlap < s0.smallest_overlap then ⟨top_overlap, 0, -top_overlap⟩ else s0
  let s2 : fix_locals α :=
    if left_overlap < s1.smallest_overlap then ⟨left_overlap, left_overlap, 0⟩ else s1
  let s3 : fix_locals α :=
    if bottom_overlap < s2.smallest_overlap then ⟨bottom_overlap, 0, bottom_overlap⟩ else s2
  s3

/-- The result of `fix_collision`: the returned flag and the two colliders afterwards
(`self` is `this`, `other` is passed by non-const reference). -/
structure fix_result (α : Type) where
  ret : Bool
  self : basic_collider_2d α
  other : basic_collider_2d α
deriving DecidableEq, Repr

/-- Member `fix_collision(other, fix_mode, do_initial_collision_check)`. -/
def fix_collision (self other : basic_collider_2d α) (mode : fix_mode)
    (do_initial_collision_check : Bool) : fix_result α :=
  if do_initial_collision_check && !self.detect_collision other then ⟨false, self, other⟩
  else
    let l := fix_collision_locals self other
    match mode with
    | fix_mode.MOVE_SELF =>
      let p1 := self.position.translate_horizontally l.x_vector
      let p2 := p1.translate_vertically l.y_vector
      ⟨true, { self with position := p2 }, other⟩
    | fix_mode.MOVE_OTHER =>
      let o1 := other.set_x_pos (other.get_x_pos - l.x_vector)
      let o2 := o1.set_y_pos (o1.get_y_pos - l.y_vector)
      ⟨true, self, o2⟩
    | fix_mode.MOVE_BOTH =>
      let p1 := self.position.translate_horizontally (l.x_vector / 2)
      let p2 := p1.translate_vertically (l.y_vector / 2)
      let o1 := other.set_x_pos (other.get_x_pos - l.x_vector / 2)
      let o2 := o1.set_y_pos (o1.get_y_pos - l.y_vector / 2)
      ⟨true, { self with position := p2 }, o2⟩

end basic_collider_2d

/-! ## math_helper and the angle constants -/

noncomputable section

/-- The macro `C_PI` (the literal `3.14159265358979323846`), read as the real `π`. -/
def C_PI : ℝ := Real.pi

/-- The macro `C_PI_2` (the literal `1.57079632679489661923`), read as `π / 2`. -/
def C_PI_2 : ℝ := Real.pi / 2

/-- The macro `C_3PI_2` (the literal `4.71238898038468985769`), read as `3π / 2`. -/
def C_3PI_2 : ℝ := 3 * Real.pi / 2

/-- The macro `C_2PI` (the literal `6.28318530717958647693`), read as `2π`. -/
def C_2PI : ℝ := 2 * Real.pi

/-- The macro `U_180_PI` (the literal `57.2957795130823208770`), read as `180 / π`. -/
def U_180_PI : ℝ := 180 / Real.pi

/-- The compiler macro `__DBL_MAX__`, the largest finite `double`: `(2 - 2^(-52)) * 2^1023`. -/
def DBL_MAX : ℝ := 2 ^ 1024 - 2 ^ 971

namespace math_helper

/-- The two-argument `normalize_value_to_range(input_value, maximum_value)`. -/
def normalize_value_to_range (input_value maximum_value : ℝ) : ℝ :=
  input_value - (⌊input_value / maximum_value⌋ : ℝ) * maximum_value

def normalize_degree_angle (angle : ℝ) : ℝ := normalize_value_to_range angle 360

def normalize_radian_angle (angle : ℝ) : ℝ := normalize_value_to_range angle C_2PI

def normalize_angle (angle : ℝ) (use_radians : Bool) : ℝ :=
  if use_radians then normalize_radian_angle angle else normalize_degree_angle angle

end math_helper

/-- Member `coordinate_2d<double>::get_euclidean_distance_to` (the non-integral branch). -/
def coordinate_2d.get_euclidean_distance_to (self other : coordinate_2d ℝ) : ℝ :=
  Real.sqrt ((self.x_pos - other.get_x_pos) * (self.x_pos - other.get_x_pos)
    + (self.y_pos - other.get_y_pos) * (self.y_pos - other.get_y_pos))

/-! ## fast_vector_2d -/

/-- The class `fast_vector_2d<double>`: the four private fields.  The static flag
`suppress_updates` is an explicit argument of the members that read it. -/
structure fast_vector_2d where
  x_comp : ℝ
  y_comp : ℝ
  angle : ℝ
  magnitude : ℝ

namespace fast_vector_2d

/-- The in-class initialisers: `x_comp = 1`, `y_comp = 0`, `angle = 0`, `magnitude = 1`. -/
def default : fast_vector_2d := ⟨1, 0, 0, 1⟩

/-- Member `update_cartesian_values` (the non-integral branch). -/
def update_cartesian_values (suppress_updates : Bool) (self : fast_vector_2d) : fast_vector_2d :=
  if suppress_updates then self
  else { self with x_comp := self.magnitude * Real.cos self.angle,
                   y_comp := self.magnitude * Real.sin self.angle }

def get_x_comp (self : fast_vector_2d) : ℝ := self.x_comp

def get_y_comp (self : fast_vector_2d) : ℝ := self.y_comp

def get_magnitude (self : fast_vector_2d) : ℝ := self.magnitude

def get_angle (self : fast_vector_2d) (use_radians : Bool) : ℝ :=
  if use_radians then self.angle else self.angle * U_180_PI

def set_magnitude (suppress_updates : Bool) (self : fast_vector_2d) (magnitude : ℝ) :
    fast_vector_2d :=
  update_cartesian_values suppress_updates { self with magnitude := magnitude }

def set_angle (suppress_updates : Bool) (self : fast_vector_2d) (angle : ℝ) (use_radians : Bool) :
    fast_vector_2d :=
  update_cartesian_values suppress_updates
    { self with angle := math_helper.normalize_angle angle use_radians }

/-- The constructor `fast_vector_2d(magnitude, angle, use_radians)`. -/
def new_polar (suppress_updates : Bool) (magnitude angle : ℝ) (use_radians : Bool) :
    fast_vector_2d :=
  update_cartesian_values suppress_updates
    (set_angle suppress_updates (set_magnitude suppress_updates default magnitude)
      angle use_radians)

end fast_vector_2d

/-! ## hitscanner_2d -/

/-- The class `hitscanner_2d`: origin, direction and range vector, infinite-range flag. -/
structure hitscanner_2d where
  position : coordinate_2d ℝ
  vector : fast_vector_2d
  infinite_range : Bool

namespace hitscanner_2d

/-- The default constructor: origin `(0, 0)`, vector `fast_vector_2d<double>(1, 0, true)`,
finite range. -/
def default (suppress_updates : Bool) : hitscanner_2d :=
  ⟨⟨0, 0⟩, fast_vector_2d.new_polar suppress_updates 1 0 true, false⟩

def get_x_pos (self : hitscanner_2d) : ℝ := self.position.get_x_pos

def get_y_pos (self : hitscanner_2d) : ℝ := self.position.get_y_pos

def get_angle (self : hitscanner_2d) : ℝ := self.vector.get_angle true

def get_range (self : hitscanner_2d) : ℝ := self.vector.get_magnitude

def has_infinite_range (self : hitscanner_2d) : Bool := self.infinite_range

def set_x_pos (self : hitscanner_2d) (x_pos : ℝ) : hitscanner_2d :=
  { self with position := self.position.set_x_pos x_pos }

def set_y_pos (self : hitscanner_2d) (y_pos : ℝ) : hitscanner_2d :=
  { self with position := self.position.set_y_pos y_pos }

def set_angle (suppress_updates : Bool) (self : hitscanner_2d) (angle : ℝ) : hitscanner_2d :=
  { self with vector := self.vector.set_angle suppress_updates angle true }

def set_range (suppress_updates : Bool) (self : hitscanner_2d) (range : ℝ) : hitscanner_2d :=
  { self with vector := self.vector.set_magnitude suppress_updates |range| }

def make_range_infinite (self : hitscanner_2d) (have_infinite_range : Bool) : hitscanner_2d :=
  { self with infinite_range := have_infinite_range }

/-- The constructor `hitscanner_2d(x_pos, y_pos, angle, range, have_infinite_range)`. -/
def new (suppress_updates : Bool) (x_pos y_pos angle range : ℝ) (have_infinite_range : Bool) :
    hitscanner_2d :=
  (((((default suppress_updates).set_x_pos x_pos).set_y_pos y_pos).set_angle suppress_updates
    angle).set_range suppress_updates range).make_range_infinite have_infinite_range

/-- Private member `do_range_check`. -/
def do_range_check (self : hitscanner_2d) (position : coordinate_2d ℝ) :
    Option (coordinate_2d ℝ) :=
  if self.has_infinite_range
      ∨ self.position.get_euclidean_distance_to position ≤ |self.vector.get_magnitude| then
    some position
  else none

/-- Member `get_hit(const basic_collider_2d &collider)`, statement by statement. -/
def get_hit (self : hitscanner_2d) (collider : basic_collider_2d ℝ) :
    Option (coordinate_2d ℝ) :=
  if self.get_x_pos ≥ collider.get_left_x ∧ self.get_x_pos ≤ collider.get_right_x
      ∧ self.get_y_pos ≥ collider.get_top_y ∧ self.get_y_pos ≤ collider.get_bottom_y then
    some self.position
  else if self.vector.get_magnitude = 0 ∧ ¬ self.has_infinite_range then none
  else if (self.get_angle ≤ C_PI ∧ self.get_y_pos > collider.get_top_y)
      ∨ (self.get_angle ≥ C_PI ∧ self.get_y_pos < collider.get_bottom_y)
      ∨ ((self.get_angle ≤ C_PI_2 ∨ self.get_angle ≥ C_3PI_2)
          ∧ self.get_x_pos > collider.get_right_x)
      ∨ ((self.get_angle ≥ C_PI_2 ∧ self.get_angle ≤ C_3PI_2)
          ∧ self.get_x_pos < collider.get_left_x)
      ∨ (self.get_angle = 0 ∧ self.get_y_pos < collider.get_bottom_y) then
    none
  else if self.vector.get_x_comp = 0 then
    self.do_range_check
      ⟨self.get_x_pos, if self.get_angle < C_PI then collider.get_bottom_y else collider.get_top_y⟩
  else if self.vector.get_y_comp = 0 then
    self.do_range_check
      ⟨if self.get_angle < C_PI_2 ∨ self.get_angle > C_3PI_2 then collider.get_left_x
        else collider.get_right_x, self.get_y_pos⟩
  else
    let slope := self.vector.get_y_comp / self.vector.get_x_comp
    let x_difference :=
      if self.get_angle < C_PI_2 ∨ self.get_angle > C_3PI_2 then
        collider.get_left_x - self.get_x_pos
      else collider.get_right_x - self.get_x_pos
    let y_difference :=
      if self.get_angle < C_PI then collider.get_bottom_y - self.get_y_pos
      else collider.get_top_y - self.get_y_pos
    let guess_pos := self.get_y_pos + slope * x_difference
    if guess_pos ≥ collider.get_bottom_y ∧ guess_pos ≤ collider.get_top_y then
      self.do_range_check ⟨self.get_x_pos + x_difference, guess_pos⟩
    else
      let guess_pos := self.get_x_pos + y_difference / slope
      if guess_pos ≥ collider.get_left_x ∧ guess_pos ≤ collider.get_right_x then
        self.do_range_check ⟨guess_pos, self.get_y_pos + y_difference⟩
      else none

/-- The loop state of the vector overload of `get_hit`: `output` and `output_distance`. -/
structure scan_state where
  output : Option (coordinate_2d ℝ)
  output_distance : ℝ

/-- The body of the `for` loop of `get_hit(const std::vector<basic_collider_2d> &colliders)`,
run over the colliders in index order. -/
def get_hit_loop (self : hitscanner_2d) : List (basic_collider_2d ℝ) → scan_state → scan_state
  | [], st => st
  | collider :: rest, st =>
    match self.get_hit collider with
    | none => get_hit_loop self rest st
    | some scan =>
      let current_distance := scan.get_euclidean_distance_to self.position
      if current_distance < st.output_distance then
        get_hit_loop self rest ⟨some scan, current_distance⟩
      else get_hit_loop self rest st

/-- Member `get_hit(const std::vector<basic_collider_2d> &colliders)`. -/
def get_hit_colliders (self : hitscanner_2d) (colliders : List (basic_collider_2d ℝ)) :
    Option (coordinate_2d ℝ) :=
  (get_hit_loop self colliders ⟨none, DBL_MAX⟩).output

end hitscanner_2d

end

/-! ## Reference notions used in the statements -/

namespace basic_collider_2d

variable {α : Type} [LinearOrderedField α]

/-- The closed rectangle `[left, right] x [bottom, top]` of a collider, as a predicate on
points. -/
def closed_box (c : basic_collider_2d α) (p : coordinate_2d α) : Prop :=
  c.get_left_x ≤ p.x_pos ∧ p.x_pos ≤ c.get_right_x
    ∧ c.get_bottom_y ≤ p.y_pos ∧ p.y_pos ≤ c.get_top_y

/-- The candidate `pl = A.right - B.left` (push left). -/
def push_left (A B : basic_collider_2d α) : α := A.get_right_x - B.get_left_x

/-- The candidate `pd = A.top - B.bottom` (push down). -/
def push_down (A B : basic_collider_2d α) : α := A.get_top_y - B.get_bottom_y

/-- The candidate `pr = B.right - A.left` (push right). -/
def push_right (A B : basic_collider_2d α) : α := B.get_right_x - A.get_left_x

/-- The candidate `pu = B.top - A.bottom` (push up). -/
def push_up (A B : basic_collider_2d α) : α := B.get_top_y - A.get_bottom_y

/-- The penetration depth `s = min(pl, pd, pr, pu)`. -/
def penetration (A B : basic_collider_2d α) : α :=
  min (min (push_left A B) (push_down A B)) (min (push_right A B) (push_up A B))

/-- The displacement as the specification words it: `(-pl, 0)` if `pl = s`, else `(0, -pd)`
if `pd = s`, else `(pr, 0)` if `pr = s`, else `(0, pu)`. -/
def displacement_by_rule (A B : basic_collider_2d α) : α × α :=
  if push_left A B = penetration A B then (-push_left A B, 0)
  else if push_down A B = penetration A B then (0, -push_down A B)
  else if push_right A B = penetration A B then (push_right A B, 0)
  else (0, push_up A B)

end basic_collider_2d

noncomputable section

namespace fast_vector_2d

/-- The relation between the polar and the cartesian fields that `set_angle` and
`set_magnitude` establish when updates are not suppressed: the angle is normalised into
`[0, 2π)` and the components are `magnitude * cos angle` and `magnitude * sin angle`. -/
def consistent (v : fast_vector_2d) : Prop :=
  0 ≤ v.angle ∧ v.angle < C_2PI
    ∧ v.x_comp = v.magnitude * Real.cos v.angle ∧ v.y_comp = v.magnitude * Real.sin v.angle

end fast_vector_2d

namespace hitscanner_2d

/-- The point of the forward ray at parameter `t`: origin plus `t` times the unit vector of the
stored angle. -/
def ray_point (self : hitscanner_2d) (t : ℝ) : coordinate_2d ℝ :=
  ⟨self.position.x_pos + t * Real.cos self.vector.angle,
   self.position.y_pos + t * Real.sin self.vector.angle⟩

/-- The forward ray from the origin at the hitscanner angle, as a predicate on points. -/
def on_ray (self : hitscanner_2d) (p : coordinate_2d ℝ) : Prop :=
  ∃ t : ℝ, 0 ≤ t ∧ p = self.ray_point t

/-- Within range: the range is infinite, or the Euclidean distance from the origin is at most
the range. -/
def in_range (self : hitscanner_2d) (p : coordinate_2d ℝ) : Prop :=
  self.infinite_range = true ∨ self.position.get_euclidean_distance_to p ≤ self.get_range

/-- The contract of a single cast for a result `r`: `r` is a hit exactly when some point of the
forward ray lies in the closed box within range, and a hit is a point of the ray in the box,
within range, nearest to the origin among the points of the ray in the box. -/
def first_hit_spec (self : hitscanner_2d) (C : basic_collider_2d ℝ)
    (r : Option (coordinate_2d ℝ)) : Prop :=
  ((∃ p, r = some p) ↔ ∃ q, self.on_ray q ∧ C.closed_box q ∧ self.in_range q)
  ∧ ∀ p, r = some p →
      self.on_ray p ∧ C.closed_box p ∧ self.in_range p
      ∧ ∀ q, self.on_ray q → C.closed_box q →
          self.position.get_euclidean_distance_to p ≤ self.position.get_euclidean_distance_to q

/-- The naive reference for the vector overload of `get_hit`, written from the specification:
among the hits of the single-collider `get_hit`, in list order, the one nearest to the
origin, the earliest one on ties (`List.argmin` returns the first minimal element). -/
def get_hit_naive (self : hitscanner_2d) (colliders : List (basic_collider_2d ℝ)) :
    Option (coordinate_2d ℝ) :=
  List.argmin (fun p : coordinate_2d ℝ => p.get_euclidean_distance_to self.position)
    (colliders.filterMap self.get_hit)

/-- The loop invariant of the vector overload: `output_distance` is the distance of `output`,
or still `DBL_MAX` while there is no output. -/
def scan_inv (self : hitscanner_2d) (st : scan_state) : Prop :=
  match st.output with
  | none => st.output_distance = DBL_MAX
  | some b => st.output_distance = b.get_euclidean_distance_to self.position

end hitscanner_2d

end

/-! ## Further members: translations, assignment, copies, and the half-extent invariant -/

namespace basic_collider_2d

variable {α : Type} [LinearOrderedField α]

/-- Member `translate_horizontally` of the collider: forwards to the centre. -/
def translate_horizontally (self : basic_collider_2d α) (amount : α) : basic_collider_2d α :=
  { self with position := self.position.translate_horizontally amount }

/-- Member `translate_vertically` of the collider: forwards to the centre. -/
def translate_vertically (self : basic_collider_2d α) (amount : α) : basic_collider_2d α :=
  { self with position := self.position.translate_vertically amount }

/-- The assignment `operator=`: the centre is rebuilt from the getters of `rhs`, the two
half-extents are copied. -/
def assign (_self rhs : basic_collider_2d α) : basic_collider_2d α :=
  ⟨⟨rhs.get_x_pos, rhs.get_y_pos⟩, rhs.get_width_2, rhs.get_height_2⟩

/-- The copy constructor: `*this = rhs` on a fresh object. -/
def copy (rhs : basic_collider_2d α) : basic_collider_2d α :=
  (default : basic_collider_2d α).assign rhs

/-- The invariant of the data model: both half-extents are non-negative. -/
def half_extents_nonneg (c : basic_collider_2d α) : Prop :=
  0 ≤ c.width_2 ∧ 0 ≤ c.height_2

end basic_collider_2d

noncomputable section

namespace fast_vector_2d

/-- The assignment `operator=` of the vector: the four fields are read through the getters
of `rhs`. -/
def assign (_self rhs : fast_vector_2d) : fast_vector_2d :=
  ⟨rhs.get_x_comp, rhs.get_y_comp, rhs.get_angle true, rhs.get_magnitude⟩

/-- The copy constructor of the vector: `*this = vector` on a fresh object. -/
def copy (rhs : fast_vector_2d) : fast_vector_2d :=
  default.assign rhs

end fast_vector_2d

namespace hitscanner_2d

/-- Getter `get_position`. -/
def get_position (self : hitscanner_2d) : coordinate_2d ℝ := self.position

/-- Getter `get_vector`: returns the vector by value. -/
def get_vector (self : hitscanner_2d) : fast_vector_2d := fast_vector_2d.copy self.vector

/-- Setter `set_position`. -/
def set_position (self : hitscanner_2d) (position : coordinate_2d ℝ) : hitscanner_2d :=
  { self with position := position }

/-- Setter `set_vector`: `set_angle(vector.get_angle(true))`, then
`set_range(vector.get_magnitude())`. -/
def set_vector (suppress_updates : Bool) (self : hitscanner_2d) (vector : fast_vector_2d) :
    hitscanner_2d :=
  (self.set_angle suppress_updates (vector.get_angle true)).set_range suppress_updates
    vector.get_magnitude

/-- Member `toggle_infinite_range`. -/
def toggle_infinite_range (self : hitscanner_2d) : hitscanner_2d :=
  { self with infinite_range := !self.infinite_range }

/-- The assignment `operator=` of the hitscanner. -/
def assign (self rhs : hitscanner_2d) : hitscanner_2d :=
  ⟨rhs.get_position, self.vector.assign rhs.get_vector, rhs.has_infinite_range⟩

/-- The copy constructor of the hitscanner: `*this = rhs` on a fresh object. -/
def copy (suppress_updates : Bool) (rhs : hitscanner_2d) : hitscanner_2d :=
  (default suppress_updates).assign rhs

end hitscanner_2d

end

/-! ## Further members: the cartesian setters, and `get_hit` with its steps taken apart -/

noncomputable section

/-- The C library function `std::atan2(y, x)`: the angle in `(-π, π]` of the point `(x, y)`,
`0` at the origin; read as the argument of the complex number `x + y i`. -/
def atan2 (y x : ℝ) : ℝ := Complex.arg ⟨x, y⟩

namespace fast_vector_2d

/-- Member `update_polar_values` (the non-integral branch). -/
def update_polar_values (suppress_updates : Bool) (self : fast_vector_2d) : fast_vector_2d :=
  if suppress_updates then self
  else
    { self with
        magnitude := Real.sqrt (self.x_comp * self.x_comp + self.y_comp * self.y_comp),
        angle := atan2 self.y_comp self.x_comp }

/-- Setter `set_x_comp`. -/
def set_x_comp (suppress_updates : Bool) (self : fast_vector_2d) (x_comp : ℝ) :
    fast_vector_2d :=
  update_polar_values suppress_updates { self with x_comp := x_comp }

/-- Setter `set_y_comp`. -/
def set_y_comp (suppress_updates : Bool) (self : fast_vector_2d) (y_comp : ℝ) :
    fast_vector_2d :=
  update_polar_values suppress_updates { self with y_comp := y_comp }

/-- The constructor `fast_vector_2d(x_comp, y_comp)`. -/
def new_cartesian (suppress_updates : Bool) (x_comp y_comp : ℝ) : fast_vector_2d :=
  update_polar_values suppress_updates
    (set_y_comp suppress_updates (set_x_comp suppress_updates default x_comp) y_comp)

/-- The invariant read from the specification: the magnitude is the square root of the sum
of the squared components and the angle is `atan2(y_comp, x_comp)`. -/
def cartesian_form_agrees (v : fast_vector_2d) : Prop :=
  v.magnitude = Real.sqrt (v.x_comp * v.x_comp + v.y_comp * v.y_comp)
    ∧ v.angle = atan2 v.y_comp v.x_comp

end fast_vector_2d

/-- A division of `double`s that reports a zero divisor instead of dividing. -/
def checked_div (a b : ℝ) : Option ℝ := if b = 0 then none else some (a / b)

namespace hitscanner_2d

/-- The five-condition culling test of `get_hit` (the condition of the `if` on line 278). -/
def culled (self : hitscanner_2d) (collider : basic_collider_2d ℝ) : Prop :=
  (self.get_angle ≤ C_PI ∧ self.get_y_pos > collider.get_top_y)
    ∨ (self.get_angle ≥ C_PI ∧ self.get_y_pos < collider.get_bottom_y)
    ∨ ((self.get_angle ≤ C_PI_2 ∨ self.get_angle ≥ C_3PI_2)
        ∧ self.get_x_pos > collider.get_right_x)
    ∨ ((self.get_angle ≥ C_PI_2 ∧ self.get_angle ≤ C_3PI_2)
        ∧ self.get_x_pos < collider.get_left_x)
    ∨ (self.get_angle = 0 ∧ self.get_y_pos < collider.get_bottom_y)

/-- The inside test of `get_hit` (the condition of the `if` on line 269). -/
def inside_test (self : hitscanner_2d) (collider : basic_collider_2d ℝ) : Prop :=
  self.get_x_pos ≥ collider.get_left_x ∧ self.get_x_pos ≤ collider.get_right_x
    ∧ self.get_y_pos ≥ collider.get_top_y ∧ self.get_y_pos ≤ collider.get_bottom_y

instance culled_decidable (self : hitscanner_2d) (collider : basic_collider_2d ℝ) :
    Decidable (self.culled collider) := by
  unfold culled
  exact inferInstance

instance inside_test_decidable (self : hitscanner_2d) (collider : basic_collider_2d ℝ) :
    Decidable (self.inside_test collider) := by
  unfold inside_test
  exact inferInstance

/-- The body of `get_hit` with the culling test (lines 276 to 280) taken out: inside test,
zero-range test, axis-aligned branches, general projection, range gate. -/
def get_hit_without_culling (self : hitscanner_2d) (collider : basic_collider_2d ℝ) :
    Option (coordinate_2d ℝ) :=
  if self.get_x_pos ≥ collider.get_left_x ∧ self.get_x_pos ≤ collider.get_right_x
      ∧ self.get_y_pos ≥ collider.get_top_y ∧ self.get_y_pos ≤ collider.get_bottom_y then
    some self.position
  else if self.vector.get_magnitude = 0 ∧ ¬ self.has_infinite_range then none
  else if self.vector.get_x_comp = 0 then
    self.do_range_check
      ⟨self.get_x_pos, if self.get_angle < C_PI then collider.get_bottom_y else collider.get_top_y⟩
  else if self.vector.get_y_comp = 0 then
    self.do_range_check
      ⟨if self.get_angle < C_PI_2 ∨ self.get_angle > C_3PI_2 then collider.get_left_x
        else collider.get_right_x, self.get_y_pos⟩
  else
    let slope := self.vector.get_y_comp / self.vector.get_x_comp
    let x_difference :=
      if self.get_angle < C_PI_2 ∨ self.get_angle > C_3PI_2 then
        collider.get_left_x - self.get_x_pos
      else collider.get_right_x - self.get_x_pos
    let y_difference :=
      if self.get_angle < C_PI then collider.get_bottom_y - self.get_y_pos
      else collider.get_top_y - self.get_y_pos
    let guess_pos := self.get_y_pos + slope * x_difference
    if guess_pos ≥ collider.get_bottom_y ∧ guess_pos ≤ collider.get_top_y then
      self.do_range_check ⟨self.get_x_pos + x_difference, guess_pos⟩
    else
      let guess_pos := self.get_x_pos + y_difference / slope
      if guess_pos ≥ collider.get_left_x ∧ guess_pos ≤ collider.get_right_x then
        self.do_range_check ⟨guess_pos, self.get_y_pos + y_difference⟩
      else none

/-- Member `get_hit(const basic_collider_2d &collider)` with its two divisions made through
`checked_div`: the outer `none` stands for a division by zero, `some r` for the normal return
of `r`. -/
def get_hit_div_checked (self : hitscanner_2d) (collider : basic_collider_2d ℝ) :
    Option (Option (coordinate_2d ℝ)) :=
  if self.get_x_pos ≥ collider.get_left_x ∧ self.get_x_pos ≤ collider.get_right_x
      ∧ self.get_y_pos ≥ collider.get_top_y ∧ self.get_y_pos ≤ collider.get_bottom_y then
    some (some self.position)
  else if self.vector.get_magnitude = 0 ∧ ¬ self.has_infinite_range then some none
  else if (self.get_angle ≤ C_PI ∧ self.get_y_pos > collider.get_top_y)
      ∨ (self.get_angle ≥ C_PI ∧ self.get_y_pos < collider.get_bottom_y)
      ∨ ((self.get_angle ≤ C_PI_2 ∨ self.get_angle ≥ C_3PI_2)
          ∧ self.get_x_pos > collider.get_right_x)
      ∨ ((self.get_angle ≥ C_PI_2 ∧ self.get_angle ≤ C_3PI_2)
          ∧ self.get_x_pos < collider.get_left_x)
      ∨ (self.get_angle = 0 ∧ self.get_y_pos < collider.get_bottom_y) then
    some none
  else if self.vector.get_x_comp = 0 then
    some (self.do_range_check
      ⟨self.get_x_pos,
        if self.get_angle < C_PI then collider.get_bottom_y else collider.get_top_y⟩)
  else if self.vector.get_y_comp = 0 then
    some (self.do_range_check
      ⟨if self.get_angle < C_PI_2 ∨ self.get_angle > C_3PI_2 then collider.get_left_x
        else collider.get_right_x, self.get_y_pos⟩)
  else
    match checked_div self.vector.get_y_comp self.vector.get_x_comp with
    | none => none
    | some slope =>
      let x_difference :=
        if self.get_angle < C_PI_2 ∨ self.get_angle > C_3PI_2 then
          collider.get_left_x - self.get_x_pos
        else collider.get_right_x - self.get_x_pos
      let y_difference :=
        if self.get_angle < C_PI then collider.get_bottom_y - self.get_y_pos
        else collider.get_top_y - self.get_y_pos
      let guess_pos := self.get_y_pos + slope * x_difference
      if guess_pos ≥ collider.get_bottom_y ∧ guess_pos ≤ collider.get_top_y then
        some (self.do_range_check ⟨self.get_x_pos + x_difference, guess_pos⟩)
      else
        match checked_div y_difference slope with
        | none => none
        | some quotient =>
          let guess_pos := self.get_x_pos + quotient
          if guess_pos ≥ collider.get_left_x ∧ guess_pos ≤ collider.get_right_x then
            some (self.do_range_check ⟨guess_pos, self.get_y_pos + y_difference⟩)
          else some none

end hitscanner_2d

end

/-! ## math_helper::map_value_to_range, search_algorithms -/

/-- The least value of the type `int` (32 bits). -/
def INT_MIN : ℤ := -2 ^ 31

/-- The greatest value of the type `int` (32 bits). -/
def INT_MAX : ℤ := 2 ^ 31 - 1

/-- A value of the type `int`: `none` stands for a value outside the type, where the
conversion or the signed operation that produced it is undefined. -/
def int_checked (n : ℤ) : Option ℤ := if INT_MIN ≤ n ∧ n ≤ INT_MAX then some n else none

/-- The conversion `static_cast<int>` of a `double`: truncation toward zero, undefined
(`none`) when the truncated value does not fit an `int`. -/
def static_cast_int {α : Type} [LinearOrderedField α] [FloorRing α] (x : α) : Option ℤ :=
  int_checked (if 0 ≤ x then ⌊x⌋ else ⌈x⌉)

namespace math_helper

/-- The instance `map_value_to_range<double, int>`: the difference of the `int`s is converted
to `double`, multiplied with the difference of the `double`s and divided as `double`, the
quotient is converted to `int` and added to the output minimum. -/
def map_value_to_range {α : Type} [LinearOrderedField α] [FloorRing α]
    (input_value input_range_minimum input_range_maximum : α)
    (output_range_minimum output_range_maximum : ℤ) : Option ℤ :=
  match int_checked (output_range_maximum - output_range_minimum) with
  | none => none
  | some difference =>
    match static_cast_int ((input_value - input_range_minimum) * (difference : α)
        / (input_range_maximum - input_range_minimum)) with
    | none => none
    | some converted => int_checked (output_range_minimum + converted)

end math_helper

/-- The exception thrown by `std::vector::at` for an index outside the vector. -/
inductive exception where
  | out_of_range
  deriving DecidableEq

/-- The default upper bound `__UINT64_MAX__` of the searches. -/
def UINT64_MAX : ℕ := 2 ^ 64 - 1

namespace search_algorithms

variable {α : Type} [LinearOrder α]

/-- The `for` loop of `linear_search`, from `index` on; `list.at(index)` throws outside the
list. -/
def linear_search_loop (list : List α) (target : α) (end_index : ℕ) (index : ℕ) :
    Except exception (Option ℕ) :=
  if index ≤ end_index then
    match list[index]? with
    | none => Except.error exception.out_of_range
    | some x =>
      if x = target then Except.ok (some index)
      else linear_search_loop list target end_index (index + 1)
  else Except.ok none
termination_by end_index + 1 - index
decreasing_by omega

/-- The function `linear_search(list, target, lower_bounds, upper_bounds)`. -/
def linear_search (list : List α) (target : α) (lower_bounds upper_bounds : ℕ) :
    Except exception (Option ℕ) :=
  if list.length = 0 then Except.ok none
  else
    let start := if lower_bounds ≥ list.length then list.length - 1 else lower_bounds
    let end_index := if upper_bounds ≥ list.length then list.length - 1 else upper_bounds
    linear_search_loop list target end_index start

/-- The `while` loop of `binary_search` on `std::size_t` indices (arithmetic modulo `2^64`);
the result is `none` when the fuel runs out. -/
def binary_search_loop (list : List α) (target : α) :
    ℕ → ℕ → ℕ → Option (Except exception (Option ℕ))
  | 0, _, _ => none
  | fuel + 1, start, end_index =>
    if start ≤ end_index then
      let index := (start + (end_index - start) / 2) % 2 ^ 64
      match list[index]? with
      | none => some (Except.error exception.out_of_range)
      | some x =>
        if x = target then some (Except.ok (some index))
        else if x < target then
          binary_search_loop list target fuel ((index + 1) % 2 ^ 64) end_index
        else
          binary_search_loop list target fuel start ((index + 2 ^ 64 - 1) % 2 ^ 64)
    else some (Except.ok none)

/-- The function `binary_search(list, target, lower_bounds, upper_bounds)`, run with the
given fuel for its loop. -/
def binary_search (list : List α) (target : α) (lower_bounds upper_bounds : ℕ) (fuel : ℕ) :
    Option (Except exception (Option ℕ)) :=
  if list.length = 0 then some (Except.ok none)
  else
    let start := if lower_bounds > list.length then list.length - 1 else lower_bounds
    let end_index := if upper_bounds > list.length then list.length - 1 else upper_bounds
    binary_search_loop list target fuel start end_index

end search_algorithms

/-! ## The raycaster: the render sweep -/

namespace raycaster

noncomputable section

/-- One iteration of the loop of `raycaster::render`: the offset from the heading, the result
of `get_hit` appended to `raycast_collisions`, and the first argument of the `fill_rectangle`
call of the iteration, which is `raycast_collisions.size()` after the `emplace_back` (`none`
when the iteration has no hit and continues before the call). -/
structure sweep_query where
  angle : ℝ
  hit : Option (coordinate_2d ℝ)
  column : Option ℕ

/-- The `for` loop of `raycaster::render`, from the offset `angle` on: while
`angle <= fov / 2` the hitscanner is turned to `original + angle`, `get_hit(colliders)` is
appended to the collisions, an iteration with a hit draws its rectangle at the column
`raycast_collisions.size()`, and `angle` grows by `fov / width`.  The other arguments of the
drawing call are left out.  The result is `none` when the fuel runs out. -/
def render_loop (suppress_updates : Bool) (colliders : List (basic_collider_2d ℝ))
    (fov : ℝ) (width : ℤ) (original_hitscanner_angle : ℝ) :
    ℕ → hitscanner_2d → ℝ → List sweep_query → Option (List sweep_query)
  | 0, _, _, _ => none
  | fuel + 1, hitscanner, angle, raycast_collisions =>
    if angle ≤ fov / 2 then
      let hitscanner := hitscanner.set_angle suppress_updates (original_hitscanner_angle + angle)
      render_loop suppress_updates colliders fov width original_hitscanner_angle fuel
        hitscanner (angle + fov / (width : ℝ))
        (raycast_collisions ++ [⟨angle, hitscanner.get_hit_colliders colliders,
          if (hitscanner.get_hit_colliders colliders).isSome then
            some (raycast_collisions.length + 1)
          else none⟩])
    else some raycast_collisions

/-- The sweep of `raycaster::render`: the queries issued, in order. -/
def render (suppress_updates : Bool) (hitscanner : hitscanner_2d)
    (colliders : List (basic_collider_2d ℝ)) (fov : ℝ) (width : ℤ) (fuel : ℕ) :
    Option (List sweep_query) :=
  render_loop suppress_updates colliders fov width hitscanner.get_angle fuel hitscanner
    (-fov / 2) []

end

/-! ## Reference notions for the sweep -/

/-- The query the sweep issues at step `k` (counted from `0`): the offset
`-fov / 2 + k * (fov / width)`, the result of `get_hit(colliders)` of the hitscanner turned by
that offset, and the column `k + 1` at which a hit is drawn. -/
noncomputable def sweep_query_at (s : Bool) (hs : hitscanner_2d)
    (colliders : List (basic_collider_2d ℝ)) (fov : ℝ) (N : ℕ) (k : ℕ) : sweep_query :=
  ⟨-fov / 2 + k * (fov / N),
    (hs.set_angle s (hs.get_angle + (-fov / 2 + k * (fov / N)))).get_hit_colliders colliders,
    if ((hs.set_angle s (hs.get_angle + (-fov / 2 + k * (fov / N)))).get_hit_colliders
        colliders).isSome then some (k + 1) else none⟩

/-! ## The raycaster: the collider generation (mesh merging) -/

/-- The number `longest_row_cols` computed while the input grid is copied. -/
def longest_row_cols (grid : List (List ℕ)) : ℕ :=
  grid.foldl (fun longest row => if row.length > longest then row.length else longest) 0

/-- The member `grid` after the copy: every row of the input followed by zeros up to the
length of the longest row. -/
def copy_grid (grid : List (List ℕ)) : List (List ℕ) :=
  grid.map (fun row => row ++ List.replicate (longest_row_cols grid - row.length) 0)

/-- The cell `grid.at(row).at(col)`, read as `0` outside the grid. -/
def grid_at (grid : List (List ℕ)) (row col : ℕ) : ℕ := (grid.getD row []).getD col 0

/-- The assignment `visit_grid[row][col] = true`. -/
def set_visited (visit_grid : ℕ → ℕ → Bool) (row col : ℕ) : ℕ → ℕ → Bool :=
  fun r c => if r = row ∧ c = col then true else visit_grid r c

/-- The visit grid before the merging loop: true exactly on the cells that are `0`. -/
def initial_visit_grid (grid : List (List ℕ)) : ℕ → ℕ → Bool :=
  fun r c => decide (grid_at grid r c = 0)

/-- The innermost search loop: advance `col_start` in the row `row_start` to the next
unvisited cell; the result is the new `col_start` and `found_unvisited_cell`. -/
def find_in_row (cols : ℕ) (visit_grid : ℕ → ℕ → Bool) (row_start : ℕ) (col_start : ℕ) :
    ℕ × Bool :=
  if col_start < cols then
    if !visit_grid row_start col_start then (col_start, true)
    else find_in_row cols visit_grid row_start (col_start + 1)
  else (col_start, false)
termination_by cols - col_start

/-- The search loop over the rows: the next unvisited cell from `(row_start, col_start)` on in
reading order; the result is `row_start`, `col_start` and `found_unvisited_cell`. -/
def find_unvisited (rows cols : ℕ) (visit_grid : ℕ → ℕ → Bool) (row_start col_start : ℕ) :
    ℕ × ℕ × Bool :=
  if row_start < rows then
    if (find_in_row cols visit_grid row_start col_start).2 then
      (row_start, (find_in_row cols visit_grid row_start col_start).1, true)
    else find_unvisited rows cols visit_grid (row_start + 1) 0
  else (row_start, col_start, false)
termination_by rows - row_start

/-- The loop that grows the mesh to the right in the row `row_end`, marking the cells it
takes; the result is the visit grid and `col_end`. -/
def extend_right (cols : ℕ) (row_end : ℕ) (visit_grid : ℕ → ℕ → Bool) (col_end : ℕ) :
    (ℕ → ℕ → Bool) × ℕ :=
  if col_end < cols then
    if visit_grid row_end col_end then (visit_grid, col_end)
    else extend_right cols row_end (set_visited visit_grid row_end col_end) (col_end + 1)
  else (visit_grid, col_end)
termination_by cols - col_end

/-- The check `valid_row` of the row `row_end` from the column `col` up to `col_end`. -/
def valid_row (visit_grid : ℕ → ℕ → Bool) (row_end col_end : ℕ) (col : ℕ) : Bool :=
  if col < col_end then
    if visit_grid row_end col then false
    else valid_row visit_grid row_end col_end (col + 1)
  else true
termination_by col_end - col

/-- The loop that marks the row `row_end` as visited from the column `i` up to `col_end`. -/
def mark_row (row_end col_end : ℕ) (visit_grid : ℕ → ℕ → Bool) (i : ℕ) : ℕ → ℕ → Bool :=
  if i < col_end then mark_row row_end col_end (set_visited visit_grid row_end i) (i + 1)
  else visit_grid
termination_by col_end - i

/-- The loop that grows the mesh downwards with the width found; the result is the visit
grid and `row_end`. -/
def extend_down (rows col_start col_end : ℕ) (visit_grid : ℕ → ℕ → Bool) (row_end : ℕ) :
    (ℕ → ℕ → Bool) × ℕ :=
  if row_end < rows - 1 then
    if !valid_row visit_grid (row_end + 1) col_end col_start then (visit_grid, row_end + 1 - 1)
    else
      extend_down rows col_start col_end
        (mark_row (row_end + 1) col_end visit_grid col_start) (row_end + 1)
  else (visit_grid, row_end)
termination_by rows - 1 - row_end

variable (α : Type) [LinearOrderedField α]

/-- The collider added for the mesh with the corners `(row_start, col_start)` and
`(row_end, col_end)`. -/
def mesh_collider (row_start col_start row_end col_end : ℕ) : basic_collider_2d α :=
  basic_collider_2d.new
    ((col_start : α) + ((col_end - col_start : ℕ) : α) / 2)
    ((row_start : α) + ((row_end - row_start + 1 : ℕ) : α) / 2)
    ((col_end - col_start : ℕ) : α)
    ((row_end - row_start + 1 : ℕ) : α)

/-- The merging loop `while (row_start < rows && col_start < cols)`; the result is `none`
when the fuel runs out. -/
def merge_loop (rows cols : ℕ) :
    ℕ → (ℕ → ℕ → Bool) → ℕ → ℕ → List (basic_collider_2d α) →
      Option (List (basic_collider_2d α))
  | 0, _, _, _, _ => none
  | fuel + 1, visit_grid, row_start, col_start, colliders =>
    if row_start < rows ∧ col_start < cols then
      let found := find_unvisited rows cols visit_grid row_start col_start
      if !found.2.2 then some colliders
      else
        let row_start := found.1
        let col_start := found.2.1
        let right := extend_right cols row_start visit_grid col_start
        let col_end := right.2
        let down := extend_down rows col_start col_end right.1 row_start
        let row_end := down.2
        merge_loop rows cols fuel down.1 row_start col_start
          (colliders ++ [mesh_collider α row_start col_start row_end col_end])
    else some colliders

/-- The colliders built by the constructor `raycaster(grid)`: the four colliders of the
default box for an empty grid, the result of the merging loop otherwise. -/
def generate_colliders (grid : List (List ℕ)) (fuel : ℕ) :
    Option (List (basic_collider_2d α)) :=
  if grid = [] then
    some [basic_collider_2d.new 8 (1 / 2) 16 1, basic_collider_2d.new (1 / 2) (17 / 2) 1 15,
      basic_collider_2d.new (31 / 2) (17 / 2) 1 15, basic_collider_2d.new 8 (31 / 2) 14 1]
  else
    merge_loop α (copy_grid grid).length ((copy_grid grid).getD 0 []).length fuel
      (initial_visit_grid (copy_grid grid)) 0 0 []

end raycaster

/-- The cell in row `row` and column `col` lies in the rectangle of the collider: the unit
square `[col, col + 1] x [row, row + 1]` is inside the box. -/
def cell_in_collider {α : Type} [LinearOrderedField α] (collider : basic_collider_2d α)
    (row col : ℕ) : Prop :=
  collider.get_left_x ≤ (col : α) ∧ (col : α) + 1 ≤ collider.get_right_x
    ∧ collider.get_bottom_y ≤ (row : α) ∧ (row : α) + 1 ≤ collider.get_top_y

instance cell_in_collider_decidable {α : Type} [LinearOrderedField α]
    (collider : basic_collider_2d α) (row col : ℕ) :
    Decidable (cell_in_collider collider row col) := by
  unfold cell_in_collider
  exact inferInstance

namespace raycaster

/-- The order in which the search visits the cells: `(r, c)` comes before `(r', c')`. -/
def before (r c r' c' : ℕ) : Prop := r < r' ∨ (r = r' ∧ c < c')

end raycaster

/-! ## math_helper::greatest_common_divisor -/

namespace math_helper

/-- The `while (a > 0 && b > 0)` loop of `greatest_common_divisor` on `int`s; `%` is the
remainder of the truncated division.  The result is the pair `(a, b)` at the exit. -/
def greatest_common_divisor_loop (a b : ℤ) : ℤ × ℤ :=
  if a > 0 ∧ b > 0 then
    if a > b then greatest_common_divisor_loop (a.tmod b) b
    else greatest_common_divisor_loop a (b.tmod a)
  else (a, b)
termination_by (a + b).toNat
decreasing_by
  · rename_i h _
    have h1 := Int.tmod_lt_of_pos a h.2
    omega
  · rename_i h _
    have h1 := Int.tmod_lt_of_pos b h.1
    omega

/-- The function `greatest_common_divisor<int>(num1, num2)`. -/
def greatest_common_divisor (num1 num2 : ℤ) : ℤ :=
  if num1 = 0 ∨ num2 = 0 then 1
  else
    let r := greatest_common_divisor_loop num1 num2
    if r.1 = 0 then r.2 else r.1

end math_helper

/-! ## bitwise_manipulator on 8-bit unsigned values -/

namespace bitwise_manipulator

/-- The expression `x << count` on the promoted `int`: undefined (`none`) for a negative
count or a count of 32 or more. -/
def shift_left (x : ℕ) (count : ℤ) : Option ℕ :=
  if 0 ≤ count ∧ count < 32 then some (x <<< count.toNat) else none

/-- The expression `x >> count` on the promoted `int`: undefined (`none`) for a count of 32 or
more. -/
def shift_right (x : ℕ) (count : ℕ) : Option ℕ :=
  if count < 32 then some (x >>> count) else none

/-- The function `bit_range_to_value<unsigned char>`: `2^bit_range - 1` converted to
`unsigned char` (undefined above 255), shifted, converted again. -/
def bit_range_to_value (starting_bit bit_range : ℕ) : Option ℕ :=
  if 2 ^ bit_range - 1 < 256 then
    (shift_left (2 ^ bit_range - 1) starting_bit).map (fun shifted => shifted % 256)
  else none

/-- The function `activate_bits(input, bits)`: `input | bits`. -/
def activate_bits (input bits : ℕ) : ℕ := input ||| bits

/-- The function `deactivate_bits(input, bits)`: `input & (bits ^ (2^8 - 1))`. -/
def deactivate_bits (input bits : ℕ) : ℕ := input &&& (bits ^^^ ((2 ^ 8 - 1) % 256))

/-- The overload `deactivate_bits(input, starting_bit, bit_range)`. -/
def deactivate_bits_range (input starting_bit bit_range : ℕ) : Option ℕ :=
  (bit_range_to_value starting_bit bit_range).map (fun bits => deactivate_bits input bits)

/-- The function `get_subvalue<unsigned char>(value, subvalue_start, subvalue_range)`:
`max_bitshift` is `sizeof(value) * 8 - 1 - subvalue_range` computed in `size_t` and stored in
an `unsigned char`; the shifted value is converted to `unsigned char` before it is shifted
back. -/
def get_subvalue (value subvalue_start subvalue_range : ℕ) : Option ℕ :=
  let max_bitshift : ℕ := (2 ^ 64 + 1 * 8 - 1 - subvalue_range) % 2 ^ 64 % 256
  match shift_left value ((max_bitshift : ℤ) - (subvalue_start : ℤ)) with
  | none => none
  | some shifted => (shift_right (shifted % 256) max_bitshift).map (fun r => r % 256)

/-- The function `set_subvalue<unsigned char>(value, subvalue, subvalue_start,
subvalue_range)`. -/
def set_subvalue (value subvalue subvalue_start subvalue_range : ℕ) : Option ℕ :=
  match deactivate_bits_range value subvalue_start subvalue_range,
      shift_left subvalue subvalue_start with
  | some cleared, some shifted => some (activate_bits cleared (shifted % 256))
  | _, _ => none

end bitwise_manipulator

/-! ## matrix_helper -/

namespace matrix_helper

variable {α : Type}

/-- The access `list.at(index)` of a `std::vector`. -/
def vector_at (list : List α) (index : ℕ) : Except exception α :=
  match list[index]? with
  | some x => Except.ok x
  | none => Except.error exception.out_of_range

/-- The function `is_rectangular`: every row from the second on is as long as the first. -/
def is_rectangular (input : List (List α)) : Bool :=
  (List.range' 1 (input.length - 1)).all
    (fun i => decide ((input.getD 0 []).length = (input.getD i []).length))

/-- One row of the output of `rotate_matrix`: the entries `matrix.at(row).at(col)` for the
given rows, in order. -/
def rotate_matrix_row (matrix : List (List α)) (col : ℕ) :
    List ℕ → Except exception (List α)
  | [] => Except.ok []
  | row :: rows =>
    match vector_at matrix row with
    | Except.error e => Except.error e
    | Except.ok r =>
      match vector_at r col with
      | Except.error e => Except.error e
      | Except.ok x =>
        match rotate_matrix_row matrix col rows with
        | Except.error e => Except.error e
        | Except.ok rest => Except.ok (x :: rest)

/-- The outer loop of `rotate_matrix`: one output row for each of the given columns, in
order, the rows of the matrix being read in the order `rows`. -/
def rotate_matrix_rows (matrix : List (List α)) (rows : List ℕ) :
    List ℕ → Except exception (List (List α))
  | [] => Except.ok []
  | col :: cols =>
    match rotate_matrix_row matrix col rows with
    | Except.error e => Except.error e
    | Except.ok line =>
      match rotate_matrix_rows matrix rows cols with
      | Except.error e => Except.error e
      | Except.ok rest => Except.ok (line :: rest)

/-- The function `rotate_matrix(matrix, rotate_ccw, check_input)`: counter-clockwise the
columns are taken from the last to the first and the rows from the first to the last,
clockwise the columns from the first to the last and the rows from the last to the first. -/
def rotate_matrix (matrix : List (List α)) (rotate_ccw check_input : Bool) :
    Except exception (List (List α)) :=
  if check_input && is_rectangular matrix then Except.ok matrix
  else
    match vector_at matrix 0 with
    | Except.error e => Except.error e
    | Except.ok first =>
      if rotate_ccw then
        rotate_matrix_rows matrix (List.range matrix.length) (List.range first.length).reverse
      else
        rotate_matrix_rows matrix (List.range matrix.length).reverse (List.range first.length)

end matrix_helper

/-! ## coordinate_2d::rotate_about_pivot -/

noncomputable section

namespace coordinate_2d

/-- Member `rotate_about_pivot(pivot, angle)`: the two assignments in source order, the second
one reading the `x_pos` the first one has written. -/
def rotate_about_pivot (self pivot : coordinate_2d ℝ) (angle : ℝ) : coordinate_2d ℝ :=
  let sin := Real.sin angle
  let cos := Real.cos angle
  let self1 : coordinate_2d ℝ :=
    { self with
      x_pos := (self.x_pos - pivot.get_x_pos) * cos - (self.y_pos - pivot.get_y_pos) * sin
        + pivot.get_x_pos }
  { self1 with
    y_pos := (self1.x_pos - pivot.get_x_pos) * sin + (self1.y_pos - pivot.get_y_pos) * cos
      + pivot.get_y_pos }

/-- The image of `P` under the rotation by `t` about `Q`, as the specification writes it. -/
def rotation_image (P Q : coordinate_2d ℝ) (t : ℝ) : coordinate_2d ℝ :=
  ⟨(P.x_pos - Q.x_pos) * Real.cos t - (P.y_pos - Q.y_pos) * Real.sin t + Q.x_pos,
    (P.x_pos - Q.x_pos) * Real.sin t + (P.y_pos - Q.y_pos) * Real.cos t + Q.y_pos⟩

end coordinate_2d

namespace fast_vector_2d

/-- The cartesian and the polar form agree: `x_comp = magnitude * cos(angle)` and
`y_comp = magnitude * sin(angle)`. -/
def forms_agree (v : fast_vector_2d) : Prop :=
  v.x_comp = v.magnitude * Real.cos v.angle ∧ v.y_comp = v.magnitude * Real.sin v.angle

end fast_vector_2d

end

/-! ## IEEE 754 binary64: the same classes with rounded operations -/

namespace binary64

/-- One step of the binary search for the number of digits: when `n` has more than `k`
digits, drop the lowest `k` and count them. -/
def bit_length_step (p : ℕ × ℕ) (k : ℕ) : ℕ × ℕ :=
  if p.1 >>> k = 0 then p else (p.1 >>> k, p.2 + k)

/-- The number of binary digits of `n` (`0` for `0`), for `n < 2 ^ 8192`. -/
def bit_length (n : ℕ) : ℕ :=
  if n = 0 then 0
  else
    ([4096, 2048, 1024, 512, 256, 128, 64, 32, 16, 8, 4, 2, 1].foldl bit_length_step (n, 0)).2 + 1

/-- A finite value of the C++ type `double` (IEEE 754 binary64): the number `m * 2 ^ e`.
The values that occur are kept in the normal form of `round_to_double`. -/
structure double where
  m : ℤ
  e : ℤ
deriving DecidableEq

/-- The integer `n / 2 ^ s` rounded to the nearest integer, ties to the even one. -/
def round_shift (n s : ℕ) : ℕ :=
  if s = 0 then n
  else
    let q := n >>> s
    let r := n % (1 <<< s)
    let half := 1 <<< (s - 1)
    if r < half then q
    else if half < r then q + 1
    else if q % 2 = 0 then q else q + 1

/-- The `double` nearest to `n * 2 ^ e` (round to nearest, ties to even): 53 significant
binary digits, and no digit below `2 ^ (-1074)` (gradual underflow).  The exponent is not
bounded above: overflow to infinity is not represented. -/
def round_to_double (n : ℤ) (e : ℤ) : double :=
  let a := n.natAbs
  let len : ℤ := bit_length a
  let s : ℤ := if len - 53 ≤ -1074 - e then -1074 - e else len - 53
  if s ≤ 0 then
    if a = 0 then ⟨0, 0⟩ else ⟨n * ((1 <<< (-s).toNat : ℕ) : ℤ), e + s⟩
  else
    let q := round_shift a s.toNat
    if q = 0 then ⟨0, 0⟩
    else if q = 2 ^ 53 then ⟨n.sign * 2 ^ 52, e + s + 1⟩
    else ⟨n.sign * q, e + s⟩

/-- The integer `a / 2 ^ e`, for an exponent `e` not above the exponent of `a`. -/
def scaled (a : double) (e : ℤ) : ℤ := a.m * ((1 <<< (a.e - e).toNat : ℕ) : ℤ)

/-- The `double` nearest to the quotient `(p / q) * 2 ^ e`, for `q > 0`: the quotient is
computed to 64 digits and more, with one more digit that records a non-zero remainder. -/
def round_quotient (p : ℤ) (q : ℕ) (e : ℤ) : double :=
  let k := bit_length q + 64
  let n := (p.natAbs <<< k) / q
  let sticky := if (p.natAbs <<< k) % q = 0 then 0 else 1
  round_to_double (p.sign * ((2 * n + sticky : ℕ) : ℤ)) (e - k - 1)

/-- Conversion of an integer to `double`. -/
def of_int (n : ℤ) : double := round_to_double n 0

/-- The `double` a decimal literal of value `p / q` denotes: the nearest one. -/
def of_rat (p : ℤ) (q : ℕ) : double := round_quotient p q 0

def add (a b : double) : double :=
  let e := if a.e ≤ b.e then a.e else b.e
  round_to_double (scaled a e + scaled b e) e

def neg (a : double) : double := ⟨-a.m, a.e⟩

def sub (a b : double) : double := add a (neg b)

def mul (a b : double) : double := round_to_double (a.m * b.m) (a.e + b.e)

/-- Division; a zero divisor (infinity or NaN in IEEE 754) is not represented and gives `0`. -/
def div (a b : double) : double :=
  if b.m = 0 then ⟨0, 0⟩ else round_quotient (a.m * b.m.sign) b.m.natAbs (a.e - b.e)

def lt (a b : double) : Bool :=
  let e := if a.e ≤ b.e then a.e else b.e
  decide (scaled a e < scaled b e)

def le (a b : double) : Bool :=
  let e := if a.e ≤ b.e then a.e else b.e
  decide (scaled a e ≤ scaled b e)

/-- The C function `std::fabs`. -/
def fabs (a : double) : double := ⟨|a.m|, a.e⟩

/-- The C function `std::floor`. -/
def floor (a : double) : double :=
  if 0 ≤ a.e then a else round_to_double (a.m / ((1 <<< (-a.e).toNat : ℕ) : ℤ)) 0

instance : Add double := ⟨add⟩
instance : Sub double := ⟨sub⟩
instance : Neg double := ⟨neg⟩
instance : Mul double := ⟨mul⟩
instance : Div double := ⟨div⟩
instance : LT double := ⟨fun a b => lt a b = true⟩
instance : LE double := ⟨fun a b => le a b = true⟩
instance (a b : double) : Decidable (a < b) := inferInstanceAs (Decidable (lt a b = true))
instance (a b : double) : Decidable (a ≤ b) := inferInstanceAs (Decidable (le a b = true))
instance (n : ℕ) : OfNat double n := ⟨of_int n⟩

/-- One step of the digit-by-digit square root: the digit `2 ^ k` is kept when the square
stays within `n`. -/
def isqrt_loop (n : ℕ) : ℕ → ℕ → ℕ
  | 0, r => r
  | k + 1, r => if (r + 1 <<< k) * (r + 1 <<< k) ≤ n then isqrt_loop n k (r + 1 <<< k)
      else isqrt_loop n k r

/-- The integer square root of `n`, rounded down. -/
def isqrt (n : ℕ) : ℕ := isqrt_loop n (bit_length n / 2 + 1) 0

/-- The C function `std::sqrt` (correctly rounded); a negative argument (NaN in IEEE 754) is
not represented and gives `0`. -/
def sqrt (a : double) : double :=
  if a.m ≤ 0 then ⟨0, 0⟩
  else
    let k : ℕ := 128 + (a.e % 2).toNat
    let n := a.m.natAbs <<< k
    let r := isqrt n
    let sticky := if r * r = n then 0 else 1
    round_to_double ((2 * r + sticky : ℕ) : ℤ) ((a.e - k) / 2 - 1)

/-- The conversion `static_cast<int>` of a `double`: truncation toward zero, undefined
(`none`) when the truncated value does not fit an `int`. -/
def static_cast_int (a : double) : Option ℤ :=
  int_checked (if 0 ≤ a.e then a.m * ((1 <<< a.e.toNat : ℕ) : ℤ)
    else a.m.sign * ((a.m.natAbs >>> (-a.e).toNat : ℕ) : ℤ))

/-- The macro `C_PI`: the `double` of the literal `3.14159265358979323846`. -/
def C_PI : double := of_rat 314159265358979323846 (10 ^ 20)

/-- The macro `C_PI_2`: the `double` of the literal `1.57079632679489661923`. -/
def C_PI_2 : double := of_rat 157079632679489661923 (10 ^ 20)

/-- The macro `C_3PI_2`: the `double` of the literal `4.71238898038468985769`. -/
def C_3PI_2 : double := of_rat 471238898038468985769 (10 ^ 20)

/-- The macro `C_2PI`: the `double` of the literal `6.28318530717958647693`. -/
def C_2PI : double := of_rat 628318530717958647693 (10 ^ 20)

/-- The macro `U_180_PI`: the `double` of the literal `57.2957795130823208770`. -/
def U_180_PI : double := of_rat 572957795130823208770 (10 ^ 19)

/-- The functions of the C mathematical library whose rounding the language does not fix:
`std::cos`, `std::sin` and `std::atan2` on `double`. -/
structure libm where
  cos : double → double
  sin : double → double
  atan2 : double → double → double

namespace math_helper

/-- The two-argument `normalize_value_to_range(input_value, maximum_value)`. -/
def normalize_value_to_range (input_value maximum_value : double) : double :=
  input_value - floor (input_value / maximum_value) * maximum_value

def normalize_degree_angle (angle : double) : double := normalize_value_to_range angle 360

def normalize_radian_angle (angle : double) : double := normalize_value_to_range angle C_2PI

def normalize_angle (angle : double) (use_radians : Bool) : double :=
  if use_radians then normalize_radian_angle angle else normalize_degree_angle angle

/-- The instance `map_value_to_range<double, int>`: the difference of the `int`s is converted
to `double`, multiplied and divided as `double`, the quotient is converted to `int` and added
to the output minimum. -/
def map_value_to_range (input_value input_range_minimum input_range_maximum : double)
    (output_range_minimum output_range_maximum : ℤ) : Option ℤ :=
  match int_checked (output_range_maximum - output_range_minimum) with
  | none => none
  | some difference =>
    match static_cast_int ((input_value - input_range_minimum) * of_int difference
        / (input_range_maximum - input_range_minimum)) with
    | none => none
    | some converted => int_checked (output_range_minimum + converted)

end math_helper

/-- The class `coordinate_2d<double>`: the two private fields. -/
structure coordinate_2d where
  x_pos : double
  y_pos : double
deriving DecidableEq

namespace coordinate_2d

def get_x_pos (self : coordinate_2d) : double := self.x_pos

def get_y_pos (self : coordinate_2d) : double := self.y_pos

def set_x_pos (self : coordinate_2d) (x_pos : double) : coordinate_2d :=
  { self with x_pos := x_pos }

def set_y_pos (self : coordinate_2d) (y_pos : double) : coordinate_2d :=
  { self with y_pos := y_pos }

/-- Member `translate_horizontally`: `x_pos += x_comp`. -/
def translate_horizontally (self : coordinate_2d) (x_comp : double) : coordinate_2d :=
  { self with x_pos := self.x_pos + x_comp }

/-- Member `translate_vertically`: `y_pos += y_comp`. -/
def translate_vertically (self : coordinate_2d) (y_comp : double) : coordinate_2d :=
  { self with y_pos := self.y_pos + y_comp }

/-- Member `get_euclidean_distance_to` (the non-integral branch). -/
def get_euclidean_distance_to (self other : coordinate_2d) : double :=
  sqrt ((self.x_pos - other.get_x_pos) * (self.x_pos - other.get_x_pos)
    + (self.y_pos - other.get_y_pos) * (self.y_pos - other.get_y_pos))

end coordinate_2d

/-- The class `basic_collider_2d`: a centre and two half-extents. -/
structure basic_collider_2d where
  position : coordinate_2d
  width_2 : double
  height_2 : double
deriving DecidableEq

namespace basic_collider_2d

/-- The default constructor: centre `(0, 0)`, both half-extents `0`. -/
def default : basic_collider_2d := ⟨⟨0, 0⟩, 0, 0⟩

def get_x_pos (self : basic_collider_2d) : double := self.position.get_x_pos

def get_y_pos (self : basic_collider_2d) : double := self.position.get_y_pos

def get_left_x (self : basic_collider_2d) : double := self.position.get_x_pos - self.width_2

def get_right_x (self : basic_collider_2d) : double := self.position.get_x_pos + self.width_2

def get_top_y (self : basic_collider_2d) : double := self.position.get_y_pos + self.height_2

def get_bottom_y (self : basic_collider_2d) : double := self.position.get_y_pos - self.height_2

def set_x_pos (self : basic_collider_2d) (x_pos : double) : basic_collider_2d :=
  { self with position := self.position.set_x_pos x_pos }

def set_y_pos (self : basic_collider_2d) (y_pos : double) : basic_collider_2d :=
  { self with position := self.position.set_y_pos y_pos }

/-- Member `set_width_2`: a negative argument shifts the centre and is stored negated. -/
def set_width_2 (self : basic_collider_2d) (width_2 : double) : basic_collider_2d :=
  if width_2 ≥ 0 then { self with width_2 := width_2 }
  else { self with position := self.position.translate_horizontally width_2,
                   width_2 := -width_2 }

/-- Member `set_height_2`: a negative argument shifts the centre and is stored negated. -/
def set_height_2 (self : basic_collider_2d) (height_2 : double) : basic_collider_2d :=
  if height_2 ≥ 0 then { self with height_2 := height_2 }
  else { self with position := self.position.translate_vertically height_2,
                   height_2 := -height_2 }

def set_width (self : basic_collider_2d) (width : double) : basic_collider_2d :=
  self.set_width_2 (width / 2)

def set_height (self : basic_collider_2d) (height : double) : basic_collider_2d :=
  self.set_height_2 (height / 2)

/-- The constructor `basic_collider_2d(x, y, width, height)`: four setters on the default
object. -/
def new (x y width height : double) : basic_collider_2d :=
  (((default.set_x_pos x).set_y_pos y).set_width width).set_height height

/-- Member `detect_collision`: not separated along either axis. -/
def detect_collision (self other : basic_collider_2d) : Bool :=
  !(decide (self.get_right_x < other.get_left_x) || decide (self.get_left_x > other.get_right_x)
    || decide (self.get_top_y < other.get_bottom_y)
    || decide (self.get_bottom_y > other.get_top_y))

/-- The locals `smallest_overlap`, `x_vector`, `y_vector` of `fix_collision`. -/
structure fix_locals where
  smallest_overlap : double
  x_vector : double
  y_vector : double
deriving DecidableEq

/-- Lines 141 to 162 of `fix_collision`: the three overlaps, the initial candidate
`right - other.left`, then the three strict comparisons in source order. -/
def fix_collision_locals (self other : basic_collider_2d) : fix_locals :=
  let top_overlap := self.get_top_y - other.get_bottom_y
  let left_overlap := other.get_right_x - self.get_left_x
  let bottom_overlap := other.get_top_y - self.get_bottom_y
  let s0 : fix_locals :=
    ⟨self.get_right_x - other.get_left_x, -(self.get_right_x - other.get_left_x), 0⟩
  let s1 : fix_locals :=
    if top_overlap < s0.smallest_overlap then ⟨top_overlap, 0, -top_overlap⟩ else s0
  let s2 : fix_locals :=
    if left_overlap < s1.smallest_overlap then ⟨left_overlap, left_overlap, 0⟩ else s1
  let s3 : fix_locals :=
    if bottom_overlap < s2.smallest_overlap then ⟨bottom_overlap, 0, bottom_overlap⟩ else s2
  s3

/-- The result of `fix_collision`: the returned flag and the two colliders afterwards. -/
structure fix_result where
  ret : Bool
  self : basic_collider_2d
  other : basic_collider_2d
deriving DecidableEq

/-- Member `fix_collision(other, fix_mode, do_initial_collision_check)`. -/
def fix_collision (self other : basic_collider_2d) (mode : fix_mode)
    (do_initial_collision_check : Bool) : fix_result :=
  if do_initial_collision_check && !self.detect_collision other then ⟨false, self, other⟩
  else
    let l := fix_collision_locals self other
    match mode with
    | fix_mode.MOVE_SELF =>
      let p1 := self.position.translate_horizontally l.x_vector
      let p2 := p1.translate_vertically l.y_vector
      ⟨true, { self with position := p2 }, other⟩
    | fix_mode.MOVE_OTHER =>
      let o1 := other.set_x_pos (other.get_x_pos - l.x_vector)
      let o2 := o1.set_y_pos (o1.get_y_pos - l.y_vector)
      ⟨true, self, o2⟩
    | fix_mode.MOVE_BOTH =>
      let p1 := self.position.translate_horizontally (l.x_vector / 2)
      let p2 := p1.translate_vertically (l.y_vector / 2)
      let o1 := other.set_x_pos (other.get_x_pos - l.x_vector / 2)
      let o2 := o1.set_y_pos (o1.get_y_pos - l.y_vector / 2)
      ⟨true, { self with position := p2 }, o2⟩

end basic_collider_2d

/-- The class `fast_vector_2d<double>`: the four private fields.  The static flag
`suppress_updates` and the mathematical library are explicit arguments of the members that
use them. -/
structure fast_vector_2d where
  x_comp : double
  y_comp : double
  angle : double
  magnitude : double
deriving DecidableEq

namespace fast_vector_2d

/-- The in-class initialisers: `x_comp = 1`, `y_comp = 0`, `angle = 0`, `magnitude = 1`. -/
def default : fast_vector_2d := ⟨1, 0, 0, 1⟩

/-- Member `update_cartesian_values` (the non-integral branch). -/
def update_cartesian_values (M : libm) (suppress_updates : Bool) (self : fast_vector_2d) :
    fast_vector_2d :=
  if suppress_updates then self
  else { self with x_comp := self.magnitude * M.cos self.angle,
                   y_comp := self.magnitude * M.sin self.angle }

/-- Member `update_polar_values` (the non-integral branch). -/
def update_polar_values (M : libm) (suppress_updates : Bool) (self : fast_vector_2d) :
    fast_vector_2d :=
  if suppress_updates then self
  else
    { self with
        magnitude := sqrt (self.x_comp * self.x_comp + self.y_comp * self.y_comp),
        angle := M.atan2 self.y_comp self.x_comp }

def get_x_comp (self : fast_vector_2d) : double := self.x_comp

def get_y_comp (self : fast_vector_2d) : double := self.y_comp

def get_magnitude (self : fast_vector_2d) : double := self.magnitude

def get_angle (self : fast_vector_2d) (use_radians : Bool) : double :=
  if use_radians then self.angle else self.angle * U_180_PI

def set_x_comp (M : libm) (suppress_updates : Bool) (self : fast_vector_2d) (x_comp : double) :
    fast_vector_2d :=
  update_polar_values M suppress_updates { self with x_comp := x_comp }

def set_y_comp (M : libm) (suppress_updates : Bool) (self : fast_vector_2d) (y_comp : double) :
    fast_vector_2d :=
  update_polar_values M suppress_updates { self with y_comp := y_comp }

def set_magnitude (M : libm) (suppress_updates : Bool) (self : fast_vector_2d)
    (magnitude : double) : fast_vector_2d :=
  update_cartesian_values M suppress_updates { self with magnitude := magnitude }

def set_angle (M : libm) (suppress_updates : Bool) (self : fast_vector_2d) (angle : double)
    (use_radians : Bool) : fast_vector_2d :=
  update_cartesian_values M suppress_updates
    { self with angle := math_helper.normalize_angle angle use_radians }

/-- The constructor `fast_vector_2d(x_comp, y_comp)`. -/
def new_cartesian (M : libm) (suppress_updates : Bool) (x_comp y_comp : double) :
    fast_vector_2d :=
  update_polar_values M suppress_updates
    (set_y_comp M suppress_updates (set_x_comp M suppress_updates default x_comp) y_comp)

/-- The constructor `fast_vector_2d(magnitude, angle, use_radians)`. -/
def new_polar (M : libm) (suppress_updates : Bool) (magnitude angle : double)
    (use_radians : Bool) : fast_vector_2d :=
  update_cartesian_values M suppress_updates
    (set_angle M suppress_updates (set_magnitude M suppress_updates default magnitude)
      angle use_radians)

end fast_vector_2d

/-- The class `hitscanner_2d`: origin, direction and range vector, infinite-range flag. -/
structure hitscanner_2d where
  position : coordinate_2d
  vector : fast_vector_2d
  infinite_range : Bool
deriving DecidableEq

namespace hitscanner_2d

/-- The default constructor: origin `(0, 0)`, vector `fast_vector_2d<double>(1, 0, true)`,
finite range. -/
def default (M : libm) (suppress_updates : Bool) : hitscanner_2d :=
  ⟨⟨0, 0⟩, fast_vector_2d.new_polar M suppress_updates 1 0 true, false⟩

def get_x_pos (self : hitscanner_2d) : double := self.position.get_x_pos

def get_y_pos (self : hitscanner_2d) : double := self.position.get_y_pos

def get_angle (self : hitscanner_2d) : double := self.vector.get_angle true

def get_range (self : hitscanner_2d) : double := self.vector.get_magnitude

def has_infinite_range (self : hitscanner_2d) : Bool := self.infinite_range

def set_x_pos (self : hitscanner_2d) (x_pos : double) : hitscanner_2d :=
  { self with position := self.position.set_x_pos x_pos }

def set_y_pos (self : hitscanner_2d) (y_pos : double) : hitscanner_2d :=
  { self with position := self.position.set_y_pos y_pos }

def set_angle (M : libm) (suppress_updates : Bool) (self : hitscanner_2d) (angle : double) :
    hitscanner_2d :=
  { self with vector := self.vector.set_angle M suppress_updates angle true }

def set_range (M : libm) (suppress_updates : Bool) (self : hitscanner_2d) (range : double) :
    hitscanner_2d :=
  { self with vector := self.vector.set_magnitude M suppress_updates (fabs range) }

def make_range_infinite (self : hitscanner_2d) (have_infinite_range : Bool) : hitscanner_2d :=
  { self with infinite_range := have_infinite_range }

/-- The constructor `hitscanner_2d(x_pos, y_pos, angle, range, have_infinite_range)`. -/
def new (M : libm) (suppress_updates : Bool) (x_pos y_pos angle range : double)
    (have_infinite_range : Bool) : hitscanner_2d :=
  (((((default M suppress_updates).set_x_pos x_pos).set_y_pos y_pos).set_angle M
    suppress_updates angle).set_range M suppress_updates range).make_range_infinite
      have_infinite_range

/-- Private member `do_range_check`. -/
def do_range_check (self : hitscanner_2d) (position : coordinate_2d) : Option coordinate_2d :=
  if self.has_infinite_range
      || decide (self.position.get_euclidean_distance_to position
          ≤ fabs self.vector.get_magnitude) then
    some position
  else none

/-- The five-condition culling test of `get_hit` (the condition of the `if` on line 278). -/
def culled (self : hitscanner_2d) (collider : basic_collider_2d) : Bool :=
  decide ((self.get_angle ≤ C_PI ∧ self.get_y_pos > collider.get_top_y)
    ∨ (self.get_angle ≥ C_PI ∧ self.get_y_pos < collider.get_bottom_y)
    ∨ ((self.get_angle ≤ C_PI_2 ∨ self.get_angle ≥ C_3PI_2)
        ∧ self.get_x_pos > collider.get_right_x)
    ∨ ((self.get_angle ≥ C_PI_2 ∧ self.get_angle ≤ C_3PI_2)
        ∧ self.get_x_pos < collider.get_left_x)
    ∨ (self.get_angle = 0 ∧ self.get_y_pos < collider.get_bottom_y))

/-- Member `get_hit(const basic_collider_2d &collider)`, statement by statement. -/
def get_hit (self : hitscanner_2d) (collider : basic_collider_2d) : Option coordinate_2d :=
  if self.get_x_pos ≥ collider.get_left_x ∧ self.get_x_pos ≤ collider.get_right_x
      ∧ self.get_y_pos ≥ collider.get_top_y ∧ self.get_y_pos ≤ collider.get_bottom_y then
    some self.position
  else if self.vector.get_magnitude = 0 ∧ ¬ self.has_infinite_range then none
  else if self.culled collider then none
  else if self.vector.get_x_comp = 0 then
    self.do_range_check
      ⟨self.get_x_pos, if self.get_angle < C_PI then collider.get_bottom_y else collider.get_top_y⟩
  else if self.vector.get_y_comp = 0 then
    self.do_range_check
      ⟨if self.get_angle < C_PI_2 ∨ self.get_angle > C_3PI_2 then collider.get_left_x
        else collider.get_right_x, self.get_y_pos⟩
  else
    let slope := self.vector.get_y_comp / self.vector.get_x_comp
    let x_difference :=
      if self.get_angle < C_PI_2 ∨ self.get_angle > C_3PI_2 then
        collider.get_left_x - self.get_x_pos
      else collider.get_right_x - self.get_x_pos
    let y_difference :=
      if self.get_angle < C_PI then collider.get_bottom_y - self.get_y_pos
      else collider.get_top_y - self.get_y_pos
    let guess_pos := self.get_y_pos + slope * x_difference
    if guess_pos ≥ collider.get_bottom_y ∧ guess_pos ≤ collider.get_top_y then
      self.do_range_check ⟨self.get_x_pos + x_difference, guess_pos⟩
    else
      let guess_pos := self.get_x_pos + y_difference / slope
      if guess_pos ≥ collider.get_left_x ∧ guess_pos ≤ collider.get_right_x then
        self.do_range_check ⟨guess_pos, self.get_y_pos + y_difference⟩
      else none

end hitscanner_2d

namespace raycaster

/-- The offsets at which the `for` loop of `raycaster::render` issues its queries: the loop
variable `angle` starts at `-fov / 2`, grows by `fov / width` and runs while
`angle <= fov / 2`.  The result is `none` when the fuel runs out. -/
def render_offsets_loop (fov : double) (width : ℤ) : ℕ → double → List double →
    Option (List double)
  | 0, _, _ => none
  | fuel + 1, angle, offsets =>
    if angle ≤ fov / 2 then
      render_offsets_loop fov width fuel (angle + fov / of_int width) (offsets ++ [angle])
    else some offsets

def render_offsets (fov : double) (width : ℤ) (fuel : ℕ) : Option (List double) :=
  render_offsets_loop fov width fuel (-fov / 2) []

end raycaster

noncomputable section

/-- The value of a `double` as a real number. -/
def double.to_real (a : double) : ℝ := (a.m : ℝ) * (2 : ℝ) ^ a.e

/-- The point of the plane a `coordinate_2d<double>` denotes. -/
def coordinate_2d.to_real (p : coordinate_2d) : bengine.coordinate_2d ℝ :=
  ⟨p.x_pos.to_real, p.y_pos.to_real⟩

/-- The collider with the same centre and half-extents, as real numbers. -/
def basic_collider_2d.to_real (c : basic_collider_2d) : bengine.basic_collider_2d ℝ :=
  ⟨c.position.to_real, c.width_2.to_real, c.height_2.to_real⟩

/-- The vector with the same four fields, as real numbers. -/
def fast_vector_2d.to_real (v : fast_vector_2d) : bengine.fast_vector_2d :=
  ⟨v.x_comp.to_real, v.y_comp.to_real, v.angle.to_real, v.magnitude.to_real⟩

/-- The hitscanner with the same origin, vector and flag, as real numbers. -/
def hitscanner_2d.to_real (h : hitscanner_2d) : bengine.hitscanner_2d :=
  ⟨h.position.to_real, h.vector.to_real, h.infinite_range⟩

end

end binary64

/-! ## Theorems: basic_collider_2d -/

namespace basic_collider_2d
variable {α : Type} [LinearOrderedField α]

lemma detect_collision_iff (A B : basic_collider_2d α) :
    A.detect_collision B = true ↔
      (B.get_left_x ≤ A.get_right_x ∧ A.get_left_x ≤ B.get_right_x
        ∧ B.get_bottom_y ≤ A.get_top_y ∧ A.get_bottom_y ≤ B.get_top_y) := by
  simp [detect_collision, and_assoc]

lemma detect_collision_eq_false_iff (A B : basic_collider_2d α) :
    A.detect_collision B = false ↔
      (A.get_right_x < B.get_left_x ∨ B.get_right_x < A.get_left_x
        ∨ A.get_top_y < B.get_bottom_y ∨ B.get_top_y < A.get_bottom_y) := by
  rw [← Bool.not_eq_true, detect_collision_iff]
  simp only [not_and_or, not_le, or_assoc]

lemma min4_of_first {a b c d : α} (h1 : a ≤ b) (h2 : a ≤ c) (h3 : a ≤ d) :
    min (min a b) (min c d) = a := by
  rw [min_eq_left h1, min_eq_left (le_min h2 h3)]

lemma min4_of_second {a b c d : α} (h1 : b ≤ a) (h2 : b ≤ c) (h3 : b ≤ d) :
    min (min a b) (min c d) = b := by
  rw [min_eq_right h1, min_eq_left (le_min h2 h3)]

lemma min4_of_third {a b c d : α} (h1 : c ≤ a) (h2 : c ≤ b) (h3 : c ≤ d) :
    min (min a b) (min c d) = c := by
  rw [min_eq_left h3, min_eq_right (le_min h1 h2)]

lemma min4_of_fourth {a b c d : α} (h1 : d ≤ a) (h2 : d ≤ b) (h3 : d ≤ c) :
    min (min a b) (min c d) = d := by
  rw [min_eq_right h3, min_eq_right (le_min h1 h2)]

/-- The four numbers case analysis behind `fix_collision`: the three strict comparisons end
on the first candidate that attains the minimum. -/
lemma select_cases (pl pd pr pu : α) :
    (pl ≤ pd ∧ pl ≤ pr ∧ pl ≤ pu) ∨ (pd < pl ∧ pd ≤ pr ∧ pd ≤ pu)
      ∨ (pr < pl ∧ pr < pd ∧ pr ≤ pu) ∨ (pu < pl ∧ pu < pd ∧ pu < pr) := by
  rcases le_or_lt pl pd with h1 | h1 <;> rcases le_or_lt pl pr with h2 | h2 <;>
  rcases le_or_lt pl pu with h3 | h3 <;> rcases le_or_lt pd pr with h4 | h4 <;>
  rcases le_or_lt pd pu with h5 | h5 <;> rcases le_or_lt pr pu with h6 | h6 <;>
  first
  | exact Or.inl ⟨h1, h2, h3⟩
  | exact Or.inr (Or.inl ⟨h1, h4, h5⟩)
  | exact Or.inr (Or.inr (Or.inl ⟨h2, h4, h6⟩))
  | exact Or.inr (Or.inr (Or.inr ⟨h3, h5, h6⟩))
  | (exfalso; linarith)

/-- What the locals of `fix_collision` hold in each of the four cases. -/
lemma fix_collision_locals_cases (A B : basic_collider_2d α) :
    (push_left A B ≤ push_down A B ∧ push_left A B ≤ push_right A B
        ∧ push_left A B ≤ push_up A B
        ∧ fix_collision_locals A B = ⟨push_left A B, -push_left A B, 0⟩)
    ∨ (push_down A B < push_left A B ∧ push_down A B ≤ push_right A B
        ∧ push_down A B ≤ push_up A B
        ∧ fix_collision_locals A B = ⟨push_down A B, 0, -push_down A B⟩)
    ∨ (push_right A B < push_left A B ∧ push_right A B < push_down A B
        ∧ push_right A B ≤ push_up A B
        ∧ fix_collision_locals A B = ⟨push_right A B, push_right A B, 0⟩)
    ∨ (push_up A B < push_left A B ∧ push_up A B < push_down A B
        ∧ push_up A B < push_right A B
        ∧ fix_collision_locals A B = ⟨push_up A B, 0, push_up A B⟩) := by
  simp only [fix_collision_locals, push_left, push_down, push_right, push_up]
  generalize A.get_right_x - B.get_left_x = pl
  generalize A.get_top_y - B.get_bottom_y = pd
  generalize B.get_right_x - A.get_left_x = pr
  generalize B.get_top_y - A.get_bottom_y = pu
  rcases select_cases pl pd pr pu with ⟨h1, h2, h3⟩ | ⟨h1, h2, h3⟩ | ⟨h1, h2, h3⟩ | ⟨h1, h2, h3⟩
  · refine Or.inl ⟨h1, h2, h3, ?_⟩
    rw [if_neg (not_lt.mpr h1)]
    dsimp only
    rw [if_neg (not_lt.mpr h2)]
    dsimp only
    rw [if_neg (not_lt.mpr h3)]
  · refine Or.inr (Or.inl ⟨h1, h2, h3, ?_⟩)
    rw [if_pos h1]
    dsimp only
    rw [if_neg (not_lt.mpr h2)]
    dsimp only
    rw [if_neg (not_lt.mpr h3)]
  · refine Or.inr (Or.inr (Or.inl ⟨h1, h2, h3, ?_⟩))
    by_cases h : pd < pl
    · rw [if_pos h]
      dsimp only
      rw [if_pos h2]
      dsimp only
      rw [if_neg (not_lt.mpr h3)]
    · rw [if_neg h]
      dsimp only
      rw [if_pos h1]
      dsimp only
      rw [if_neg (not_lt.mpr h3)]
  · refine Or.inr (Or.inr (Or.inr ⟨h1, h2, h3, ?_⟩))
    by_cases h : pd < pl <;> by_cases h4 : pr < pd <;> by_cases h5 : pr < pl <;>
      simp only [h, h4, h5, h1, h2, h3, if_true, if_false]

/-- What the rule of the specification gives in each of the four cases. -/
lemma displacement_by_rule_cases (A B : basic_collider_2d α) :
    (push_left A B ≤ push_down A B → push_left A B ≤ push_right A B
        → push_left A B ≤ push_up A B
        → penetration A B = push_left A B ∧ displacement_by_rule A B = (-push_left A B, 0))
    ∧ (push_down A B < push_left A B → push_down A B ≤ push_right A B
        → push_down A B ≤ push_up A B
        → penetration A B = push_down A B ∧ displacement_by_rule A B = (0, -push_down A B))
    ∧ (push_right A B < push_left A B → push_right A B < push_down A B
        → push_right A B ≤ push_up A B
        → penetration A B = push_right A B ∧ displacement_by_rule A B = (push_right A B, 0))
    ∧ (push_up A B < push_left A B → push_up A B < push_down A B
        → push_up A B < push_right A B
        → penetration A B = push_up A B ∧ displacement_by_rule A B = (0, push_up A B)) := by
  refine ⟨?_, ?_, ?_, ?_⟩
  · intro h1 h2 h3
    have hs : penetration A B = push_left A B := min4_of_first h1 h2 h3
    refine ⟨hs, ?_⟩
    rw [displacement_by_rule, hs, if_pos rfl]
  · intro h1 h2 h3
    have hs : penetration A B = push_down A B := min4_of_second h1.le h2 h3
    refine ⟨hs, ?_⟩
    rw [displacement_by_rule, hs, if_neg (ne_of_gt h1), if_pos rfl]
  · intro h1 h2 h3
    have hs : penetration A B = push_right A B := min4_of_third h1.le h2.le h3
    refine ⟨hs, ?_⟩
    rw [displacement_by_rule, hs, if_neg (ne_of_gt h1), if_neg (ne_of_gt h2), if_pos rfl]
  · intro h1 h2 h3
    have hs : penetration A B = push_up A B := min4_of_fourth h1.le h2.le h3.le
    refine ⟨hs, ?_⟩
    rw [displacement_by_rule, hs, if_neg (ne_of_gt h1), if_neg (ne_of_gt h2),
      if_neg (ne_of_gt h3)]

/-- The locals of `fix_collision` hold the minimum of the four candidates. -/
lemma fix_collision_locals_smallest (A B : basic_collider_2d α) :
    (fix_collision_locals A B).smallest_overlap = penetration A B := by
  obtain ⟨r1, r2, r3, r4⟩ := displacement_by_rule_cases A B
  rcases fix_collision_locals_cases A B with ⟨h1, h2, h3, e⟩ | ⟨h1, h2, h3, e⟩ |
    ⟨h1, h2, h3, e⟩ | ⟨h1, h2, h3, e⟩
  · rw [e, (r1 h1 h2 h3).1]
  · rw [e, (r2 h1 h2 h3).1]
  · rw [e, (r3 h1 h2 h3).1]
  · rw [e, (r4 h1 h2 h3).1]

/-- The locals of `fix_collision` hold the displacement the rule describes. -/
lemma fix_collision_locals_vector (A B : basic_collider_2d α) :
    ((fix_collision_locals A B).x_vector, (fix_collision_locals A B).y_vector)
      = displacement_by_rule A B := by
  obtain ⟨r1, r2, r3, r4⟩ := displacement_by_rule_cases A B
  rcases fix_collision_locals_cases A B with ⟨h1, h2, h3, e⟩ | ⟨h1, h2, h3, e⟩ |
    ⟨h1, h2, h3, e⟩ | ⟨h1, h2, h3, e⟩
  · rw [e, (r1 h1 h2 h3).2]
  · rw [e, (r2 h1 h2 h3).2]
  · rw [e, (r3 h1 h2 h3).2]
  · rw [e, (r4 h1 h2 h3).2]

lemma fix_collision_of_check_fails (A B : basic_collider_2d α) (mode : fix_mode)
    (h : A.detect_collision B = false) : A.fix_collision B mode true = ⟨false, A, B⟩ := by
  simp [fix_collision, h]

lemma fix_collision_move_self (A B : basic_collider_2d α) (chk : Bool)
    (h : ¬ (chk = true ∧ A.detect_collision B = false)) :
    A.fix_collision B fix_mode.MOVE_SELF chk =
      ⟨true, ⟨⟨A.position.x_pos + (fix_collision_locals A B).x_vector,
               A.position.y_pos + (fix_collision_locals A B).y_vector⟩, A.width_2, A.height_2⟩,
        B⟩ := by
  cases chk <;> cases hd : A.detect_collision B <;>
    simp_all [fix_collision, coordinate_2d.translate_horizontally,
      coordinate_2d.translate_vertically]

lemma fix_collision_move_other (A B : basic_collider_2d α) (chk : Bool)
    (h : ¬ (chk = true ∧ A.detect_collision B = false)) :
    A.fix_collision B fix_mode.MOVE_OTHER chk =
      ⟨true, A, ⟨⟨B.position.x_pos - (fix_collision_locals A B).x_vector,
               B.position.y_pos - (fix_collision_locals A B).y_vector⟩, B.width_2, B.height_2⟩⟩ := by
  cases chk <;> cases hd : A.detect_collision B <;>
    simp_all [fix_collision, set_x_pos, set_y_pos, get_x_pos, get_y_pos,
      coordinate_2d.set_x_pos, coordinate_2d.set_y_pos, coordinate_2d.get_x_pos,
      coordinate_2d.get_y_pos]

lemma fix_collision_move_both (A B : basic_collider_2d α) (chk : Bool)
    (h : ¬ (chk = true ∧ A.detect_collision B = false)) :
    A.fix_collision B fix_mode.MOVE_BOTH chk =
      ⟨true, ⟨⟨A.position.x_pos + (fix_collision_locals A B).x_vector / 2,
               A.position.y_pos + (fix_collision_locals A B).y_vector / 2⟩, A.width_2, A.height_2⟩,
        ⟨⟨B.position.x_pos - (fix_collision_locals A B).x_vector / 2,
               B.position.y_pos - (fix_collision_locals A B).y_vector / 2⟩, B.width_2, B.height_2⟩⟩ := by
  cases chk <;> cases hd : A.detect_collision B <;>
    simp_all [fix_collision, set_x_pos, set_y_pos, get_x_pos, get_y_pos,
      coordinate_2d.set_x_pos, coordinate_2d.set_y_pos, coordinate_2d.get_x_pos,
      coordinate_2d.get_y_pos, coordinate_2d.translate_horizontally,
      coordinate_2d.translate_vertically]

/-- Overlapping boxes have four non-negative candidates. -/
lemma penetration_nonneg (A B : basic_collider_2d α) (h : A.detect_collision B = true) :
    0 ≤ penetration A B := by
  obtain ⟨h1, h2, h3, h4⟩ := (detect_collision_iff A B).mp h
  simp only [penetration, push_left, push_down, push_right, push_up]
  refine le_min (le_min ?_ ?_) (le_min ?_ ?_) <;> linarith

/-- C4: `detect_collision` is symmetric: `A.detect_collision(B) = B.detect_collision(A)` for
all colliders `A` and `B`. -/
theorem detect_collision_symm (A B : basic_collider_2d α) :
    A.detect_collision B = B.detect_collision A := by
  rw [Bool.eq_iff_iff, detect_collision_iff, detect_collision_iff]
  constructor <;> rintro ⟨h1, h2, h3, h4⟩ <;> exact ⟨h2, h1, h4, h3⟩

/-- C5: for colliders with non-negative half-extents, `detect_collision` is true exactly when
the two closed rectangles have a common point; in particular boxes whose facing edges are
equal (`A.right = B.left`, vertical spans meeting) count as overlapping. -/
theorem detect_collision_iff_common_point (A B : basic_collider_2d α)
    (hAw : 0 ≤ A.width_2) (hAh : 0 ≤ A.height_2) (hBw : 0 ≤ B.width_2) (hBh : 0 ≤ B.height_2) :
    (A.detect_collision B = true ↔ ∃ p : coordinate_2d α, A.closed_box p ∧ B.closed_box p)
    ∧ (A.get_right_x = B.get_left_x → B.get_bottom_y ≤ A.get_top_y
        → A.get_bottom_y ≤ B.get_top_y → A.detect_collision B = true) := by
  have hA1 : A.get_left_x ≤ A.get_right_x := by
    simp only [get_left_x, get_right_x]; linarith
  have hA2 : A.get_bottom_y ≤ A.get_top_y := by
    simp only [get_bottom_y, get_top_y]; linarith
  have hB1 : B.get_left_x ≤ B.get_right_x := by
    simp only [get_left_x, get_right_x]; linarith
  have hB2 : B.get_bottom_y ≤ B.get_top_y := by
    simp only [get_bottom_y, get_top_y]; linarith
  refine ⟨?_, ?_⟩
  · rw [detect_collision_iff]
    constructor
    · rintro ⟨h1, h2, h3, h4⟩
      refine ⟨⟨max A.get_left_x B.get_left_x, max A.get_bottom_y B.get_bottom_y⟩, ?_, ?_⟩
      · exact ⟨le_max_left _ _, max_le hA1 h1, le_max_left _ _, max_le hA2 h3⟩
      · exact ⟨le_max_right _ _, max_le h2 hB1, le_max_right _ _, max_le h4 hB2⟩
    · rintro ⟨p, ⟨a1, a2, a3, a4⟩, ⟨b1, b2, b3, b4⟩⟩
      exact ⟨b1.trans a2, a1.trans b2, b3.trans a4, a3.trans b4⟩
  · intro he h3 h4
    rw [detect_collision_iff]
    exact ⟨he.ge, by linarith, h3, h4⟩

end basic_collider_2d

/-- Witness for C5 on `basic_collider_2d(0, 0, 2, 2)` and `basic_collider_2d(2, 0, 2, 2)`, whose
facing edges coincide at `x = 1`. -/
theorem detect_collision_iff_common_point_witness :
    (((basic_collider_2d.new 0 0 2 2 : basic_collider_2d ℚ).detect_collision
          (basic_collider_2d.new 2 0 2 2) = true
        ↔ ∃ p : coordinate_2d ℚ, (basic_collider_2d.new 0 0 2 2).closed_box p
            ∧ (basic_collider_2d.new 2 0 2 2).closed_box p)
      ∧ ((basic_collider_2d.new 0 0 2 2 : basic_collider_2d ℚ).get_right_x
            = (basic_collider_2d.new 2 0 2 2 : basic_collider_2d ℚ).get_left_x
          → (basic_collider_2d.new 2 0 2 2 : basic_collider_2d ℚ).get_bottom_y
              ≤ (basic_collider_2d.new 0 0 2 2 : basic_collider_2d ℚ).get_top_y
          → (basic_collider_2d.new 0 0 2 2 : basic_collider_2d ℚ).get_bottom_y
              ≤ (basic_collider_2d.new 2 0 2 2 : basic_collider_2d ℚ).get_top_y
          → (basic_collider_2d.new 0 0 2 2 : basic_collider_2d ℚ).detect_collision
              (basic_collider_2d.new 2 0 2 2) = true)) :=
  basic_collider_2d.detect_collision_iff_common_point _ _
    (by norm_num [basic_collider_2d.new, basic_collider_2d.default, basic_collider_2d.set_x_pos, basic_collider_2d.set_y_pos, basic_collider_2d.set_width, basic_collider_2d.set_height, basic_collider_2d.set_width_2, basic_collider_2d.set_height_2])
    (by norm_num [basic_collider_2d.new, basic_collider_2d.default, basic_collider_2d.set_x_pos, basic_collider_2d.set_y_pos, basic_collider_2d.set_width, basic_collider_2d.set_height, basic_collider_2d.set_width_2, basic_collider_2d.set_height_2])
    (by norm_num [basic_collider_2d.new, basic_collider_2d.default, basic_collider_2d.set_x_pos, basic_collider_2d.set_y_pos, basic_collider_2d.set_width, basic_collider_2d.set_height, basic_collider_2d.set_width_2, basic_collider_2d.set_height_2])
    (by norm_num [basic_collider_2d.new, basic_collider_2d.default, basic_collider_2d.set_x_pos, basic_collider_2d.set_y_pos, basic_collider_2d.set_width, basic_collider_2d.set_height, basic_collider_2d.set_width_2, basic_collider_2d.set_height_2])

namespace basic_collider_2d
variable {α : Type} [LinearOrderedField α]

/-- C7: for overlapping colliders the locals of `fix_collision` hold `s = min(pl, pd, pr, pu)`
and the displacement `(-pl, 0)` if `pl = s`, else `(0, -pd)` if `pd = s`, else `(pr, 0)` if
`pr = s`, else `(0, pu)`; in `MOVE_SELF` mode the centre of `A` moves by exactly that
displacement (with or without the initial check). -/
theorem fix_collision_selects_by_rule (A B : basic_collider_2d α)
    (h : A.detect_collision B = true) :
    (fix_collision_locals A B).smallest_overlap = penetration A B
    ∧ ((fix_collision_locals A B).x_vector, (fix_collision_locals A B).y_vector)
        = displacement_by_rule A B
    ∧ ∀ chk : Bool, (A.fix_collision B fix_mode.MOVE_SELF chk).self.position
        = ⟨A.position.x_pos + (displacement_by_rule A B).1,
           A.position.y_pos + (displacement_by_rule A B).2⟩ := by
  refine ⟨fix_collision_locals_smallest A B, fix_collision_locals_vector A B, ?_⟩
  intro chk
  rw [fix_collision_move_self A B chk (by simp [h]), ← fix_collision_locals_vector A B]

/-- C8: `fix_collision` returns false exactly when the initial check is requested and the
boxes do not overlap; in that case both colliders are returned unchanged; in every other
case it returns true. -/
theorem fix_collision_ret_false_iff (A B : basic_collider_2d α) (mode : fix_mode)
    (chk : Bool) :
    ((A.fix_collision B mode chk).ret = false ↔ (chk = true ∧ A.detect_collision B = false))
    ∧ ((A.fix_collision B mode chk).ret = false
        → (A.fix_collision B mode chk).self = A ∧ (A.fix_collision B mode chk).other = B)
    ∧ (¬ (chk = true ∧ A.detect_collision B = false)
        → (A.fix_collision B mode chk).ret = true) := by
  by_cases hc : chk = true ∧ A.detect_collision B = false
  · obtain ⟨h1, h2⟩ := hc
    subst h1
    rw [fix_collision_of_check_fails A B mode h2]
    simp [h2]
  · cases mode
    · rw [fix_collision_move_self A B chk hc]; simp [hc]
    · rw [fix_collision_move_other A B chk hc]; simp [hc]
    · rw [fix_collision_move_both A B chk hc]; simp [hc]

/-- C9: when `fix_collision` performs a resolution with displacement
`d = (x_vector, y_vector)`: in `MOVE_SELF` mode `other` is unchanged and the centre of `self`
moves by `d`; in `MOVE_OTHER` mode `self` is unchanged and the centre of `other` moves by
`-d`; the half-extents of both boxes are unchanged in every mode. -/
theorem fix_collision_frame (A B : basic_collider_2d α) (mode : fix_mode) (chk : Bool)
    (h : ¬ (chk = true ∧ A.detect_collision B = false)) :
    (mode = fix_mode.MOVE_SELF →
      (A.fix_collision B mode chk).other = B
      ∧ (A.fix_collision B mode chk).self.position
          = ⟨A.position.x_pos + (fix_collision_locals A B).x_vector,
             A.position.y_pos + (fix_collision_locals A B).y_vector⟩)
    ∧ (mode = fix_mode.MOVE_OTHER →
      (A.fix_collision B mode chk).self = A
      ∧ (A.fix_collision B mode chk).other.position
          = ⟨B.position.x_pos + -(fix_collision_locals A B).x_vector,
             B.position.y_pos + -(fix_collision_locals A B).y_vector⟩)
    ∧ (A.fix_collision B mode chk).self.width_2 = A.width_2
    ∧ (A.fix_collision B mode chk).self.height_2 = A.height_2
    ∧ (A.fix_collision B mode chk).other.width_2 = B.width_2
    ∧ (A.fix_collision B mode chk).other.height_2 = B.height_2 := by
  cases mode
  · rw [fix_collision_move_self A B chk h]
    simp
  · rw [fix_collision_move_other A B chk h]
    simp [sub_eq_add_neg]
  · rw [fix_collision_move_both A B chk h]
    simp

end basic_collider_2d

/-! ## Theorems: hitscanner_2d -/

open Real

lemma normalize_radian_angle_zero : math_helper.normalize_radian_angle 0 = 0 := by
  simp [math_helper.normalize_radian_angle, math_helper.normalize_value_to_range]

namespace fast_vector_2d
lemma update_cartesian_values_false (v : fast_vector_2d) :
    update_cartesian_values false v =
      ⟨v.magnitude * Real.cos v.angle, v.magnitude * Real.sin v.angle, v.angle, v.magnitude⟩ := by
  simp only [update_cartesian_values, Bool.false_eq_true, if_false]

lemma new_polar_one_zero : new_polar false 1 0 true = ⟨1, 0, 0, 1⟩ := by
  simp only [new_polar, set_angle, set_magnitude, update_cartesian_values_false, default,
    math_helper.normalize_angle, if_true, normalize_radian_angle_zero, Real.cos_zero,
    Real.sin_zero, mul_one, mul_zero]
end fast_vector_2d

namespace hitscanner_2d

/-- The object the five-argument constructor builds when updates are not suppressed. -/
lemma new_eq (x y angle range : ℝ) (inf : Bool) :
    new false x y angle range inf =
      ⟨⟨x, y⟩,
       ⟨|range| * Real.cos (math_helper.normalize_radian_angle angle),
        |range| * Real.sin (math_helper.normalize_radian_angle angle),
        math_helper.normalize_radian_angle angle, |range|⟩, inf⟩ := by
  simp only [new, default, set_x_pos, set_y_pos, set_angle, set_range, make_range_infinite,
    fast_vector_2d.new_polar_one_zero, fast_vector_2d.set_angle, fast_vector_2d.set_magnitude,
    fast_vector_2d.update_cartesian_values_false,
    coordinate_2d.set_x_pos, coordinate_2d.set_y_pos, math_helper.normalize_angle, if_true]
lemma dist_ray_point (self : hitscanner_2d) (t : ℝ) (ht : 0 ≤ t) :
    self.position.get_euclidean_distance_to (self.ray_point t) = t := by
  simp only [coordinate_2d.get_euclidean_distance_to, ray_point, coordinate_2d.get_x_pos,
    coordinate_2d.get_y_pos]
  have h : (self.position.x_pos - (self.position.x_pos + t * Real.cos self.vector.angle))
        * (self.position.x_pos - (self.position.x_pos + t * Real.cos self.vector.angle))
      + (self.position.y_pos - (self.position.y_pos + t * Real.sin self.vector.angle))
        * (self.position.y_pos - (self.position.y_pos + t * Real.sin self.vector.angle))
      = t * t := by
    have := Real.cos_sq_add_sin_sq self.vector.angle
    nlinarith [this]
  rw [h, Real.sqrt_mul_self ht]

lemma first_hit_spec_none (self : hitscanner_2d) (C : basic_collider_2d ℝ)
    (h : ∀ t : ℝ, 0 ≤ t → ¬ C.closed_box (self.ray_point t)) :
    first_hit_spec self C none := by
  refine ⟨⟨?_, ?_⟩, ?_⟩
  · rintro ⟨p, hp⟩
    cases hp
  · rintro ⟨q, ⟨t, ht, rfl⟩, hq, _⟩
    exact absurd hq (h t ht)
  · intro p hp
    cases hp

lemma first_hit_spec_range_check (self : hitscanner_2d) (C : basic_collider_2d ℝ)
    (hm : 0 ≤ self.vector.magnitude) (t0 : ℝ) (ht0 : 0 ≤ t0)
    (hbox : C.closed_box (self.ray_point t0))
    (hmin : ∀ t : ℝ, 0 ≤ t → C.closed_box (self.ray_point t) → t0 ≤ t) :
    first_hit_spec self C (self.do_range_check (self.ray_point t0)) := by
  have hd := dist_ray_point self t0 ht0
  by_cases hr : self.in_range (self.ray_point t0)
  · have he : self.do_range_check (self.ray_point t0) = some (self.ray_point t0) := by
      simp only [do_range_check, has_infinite_range, fast_vector_2d.get_magnitude,
        abs_of_nonneg hm]
      simp only [in_range, get_range, fast_vector_2d.get_magnitude] at hr
      rw [if_pos hr]
    rw [he]
    refine ⟨⟨fun _ => ⟨_, ⟨t0, ht0, rfl⟩, hbox, hr⟩, fun _ => ⟨_, rfl⟩⟩, ?_⟩
    intro p hp
    cases hp
    refine ⟨⟨t0, ht0, rfl⟩, hbox, hr, ?_⟩
    rintro q ⟨t, ht, rfl⟩ hq
    rw [hd, dist_ray_point self t ht]
    exact hmin t ht hq
  · have he : self.do_range_check (self.ray_point t0) = none := by
      simp only [do_range_check, has_infinite_range, fast_vector_2d.get_magnitude,
        abs_of_nonneg hm]
      simp only [in_range, get_range, fast_vector_2d.get_magnitude] at hr
      rw [if_neg hr]
    rw [he]
    refine ⟨⟨?_, ?_⟩, ?_⟩
    · rintro ⟨p, hp⟩
      cases hp
    · rintro ⟨q, ⟨t, ht, rfl⟩, hq, hqr⟩
      exfalso
      apply hr
      rcases hqr with hinf | hle
      · exact Or.inl hinf
      · right
        rw [dist_ray_point self t ht] at hle
        rw [hd]
        exact (hmin t ht hq).trans hle
    · intro p hp
      cases hp

/-- Interval form of membership in a box along a ray, and what follows for the first point. -/
lemma slab_core (inbox : ℝ → Prop) (n1 f1 n2 f2 : ℝ)
    (hin : ∀ t, inbox t ↔ (n1 ≤ t ∧ t ≤ f1) ∧ (n2 ≤ t ∧ t ≤ f2))
    (h1 : n1 ≤ f1) (h2 : n2 ≤ f2) (hout : ¬ inbox 0) :
    ((f1 < 0 ∨ f2 < 0) → ∀ t : ℝ, 0 ≤ t → ¬ inbox t)
    ∧ (¬ (f1 < 0 ∨ f2 < 0) → (n2 ≤ n1 ∧ n1 ≤ f2) →
        0 ≤ n1 ∧ inbox n1 ∧ ∀ t : ℝ, 0 ≤ t → inbox t → n1 ≤ t)
    ∧ (¬ (f1 < 0 ∨ f2 < 0) → ¬ (n2 ≤ n1 ∧ n1 ≤ f2) → (n1 ≤ n2 ∧ n2 ≤ f1) →
        0 ≤ n2 ∧ inbox n2 ∧ ∀ t : ℝ, 0 ≤ t → inbox t → n2 ≤ t)
    ∧ (¬ (f1 < 0 ∨ f2 < 0) → ¬ (n2 ≤ n1 ∧ n1 ≤ f2) → ¬ (n1 ≤ n2 ∧ n2 ≤ f1) →
        ∀ t : ℝ, 0 ≤ t → ¬ inbox t) := by
  rw [hin 0] at hout
  refine ⟨?_, ?_, ?_, ?_⟩
  · rintro (h | h) t ht hb <;> rw [hin t] at hb <;> linarith [hb.1.2, hb.2.2]
  · intro hc ⟨ha, hb⟩
    rw [not_or, not_lt, not_lt] at hc
    refine ⟨?_, ?_, ?_⟩
    · by_contra hneg
      rw [not_le] at hneg
      exact hout ⟨⟨hneg.le, hc.1⟩, ⟨by linarith, hc.2⟩⟩
    · rw [hin n1]
      exact ⟨⟨le_refl _, h1⟩, ⟨ha, hb⟩⟩
    · intro t _ hb
      rw [hin t] at hb
      exact hb.1.1
  · intro hc hg1 ⟨ha, hb⟩
    rw [not_or, not_lt, not_lt] at hc
    refine ⟨?_, ?_, ?_⟩
    · by_contra hneg
      rw [not_le] at hneg
      exact hout ⟨⟨by linarith, hc.1⟩, ⟨hneg.le, hc.2⟩⟩
    · rw [hin n2]
      exact ⟨⟨ha, hb⟩, ⟨le_refl _, h2⟩⟩
    · intro t _ hb
      rw [hin t] at hb
      exact hb.2.1
  · intro _ hg1 hg2 t _ hb
    rw [hin t] at hb
    obtain ⟨⟨a1, a2⟩, ⟨b1, b2⟩⟩ := hb
    rcases le_total n2 n1 with h | h
    · exact hg1 ⟨h, by linarith⟩
    · exact hg2 ⟨h, by linarith⟩

lemma slab_pos {c : ℝ} (hc : 0 < c) (a x t : ℝ) :
    (a ≤ x + t * c ↔ (a - x) / c ≤ t) ∧ (x + t * c ≤ a ↔ t ≤ (a - x) / c) := by
  constructor
  · rw [div_le_iff₀ hc]
    constructor <;> intro h <;> linarith
  · rw [le_div_iff₀ hc]
    constructor <;> intro h <;> linarith

lemma slab_neg {c : ℝ} (hc : c < 0) (a x t : ℝ) :
    (a ≤ x + t * c ↔ t ≤ (a - x) / c) ∧ (x + t * c ≤ a ↔ (a - x) / c ≤ t) := by
  constructor
  · rw [le_div_iff_of_neg hc]
    constructor <;> intro h <;> linarith
  · rw [div_le_iff_of_neg hc]
    constructor <;> intro h <;> linarith

lemma far_pos {c : ℝ} (hc : 0 < c) (a x : ℝ) : (a - x) / c < 0 ↔ a < x := by
  rw [div_lt_iff₀ hc]
  constructor <;> intro h <;> linarith

lemma far_neg {c : ℝ} (hc : c < 0) (a x : ℝ) : (a - x) / c < 0 ↔ x < a := by
  rw [div_lt_iff_of_neg hc]
  constructor <;> intro h <;> linarith

/-- The general (non axis-aligned) branch of `get_hit`, for the vertical edge `nx` and the
horizontal edge `ny` the code selects: with the box read as two intervals of the ray
parameter, the two guesses return the first point of the box on the ray. -/
lemma general_branch (self : hitscanner_2d) (C : basic_collider_2d ℝ)
    (hw : 0 ≤ C.width_2) (hh : 0 ≤ C.height_2)
    (hx : self.vector.x_comp = self.vector.magnitude * Real.cos self.vector.angle)
    (hy : self.vector.y_comp = self.vector.magnitude * Real.sin self.vector.angle)
    (hm : 0 < self.vector.magnitude) (hout : ¬ C.closed_box self.position)
    (hc : Real.cos self.vector.angle ≠ 0) (hs : Real.sin self.vector.angle ≠ 0)
    (nx fx ny fy : ℝ)
    (hX : ∀ t : ℝ, (C.get_left_x ≤ self.position.x_pos + t * Real.cos self.vector.angle
          ∧ self.position.x_pos + t * Real.cos self.vector.angle ≤ C.get_right_x)
        ↔ ((nx - self.position.x_pos) / Real.cos self.vector.angle ≤ t
          ∧ t ≤ (fx - self.position.x_pos) / Real.cos self.vector.angle))
    (hY : ∀ t : ℝ, (C.get_bottom_y ≤ self.position.y_pos + t * Real.sin self.vector.angle
          ∧ self.position.y_pos + t * Real.sin self.vector.angle ≤ C.get_top_y)
        ↔ ((ny - self.position.y_pos) / Real.sin self.vector.angle ≤ t
          ∧ t ≤ (fy - self.position.y_pos) / Real.sin self.vector.angle))
    (cull : Prop) [Decidable cull]
    (hcull : cull ↔ ((fx - self.position.x_pos) / Real.cos self.vector.angle < 0
        ∨ (fy - self.position.y_pos) / Real.sin self.vector.angle < 0)) :
    first_hit_spec self C
      (if cull then none
       else if self.position.y_pos
              + self.vector.y_comp / self.vector.x_comp * (nx - self.position.x_pos)
                ≥ C.get_bottom_y
            ∧ self.position.y_pos
              + self.vector.y_comp / self.vector.x_comp * (nx - self.position.x_pos)
                ≤ C.get_top_y then
         self.do_range_check
           ⟨self.position.x_pos + (nx - self.position.x_pos),
            self.position.y_pos
              + self.vector.y_comp / self.vector.x_comp * (nx - self.position.x_pos)⟩
       else if self.position.x_pos
              + (ny - self.position.y_pos) / (self.vector.y_comp / self.vector.x_comp)
                ≥ C.get_left_x
            ∧ self.position.x_pos
              + (ny - self.position.y_pos) / (self.vector.y_comp / self.vector.x_comp)
                ≤ C.get_right_x then
         self.do_range_check
           ⟨self.position.x_pos
              + (ny - self.position.y_pos) / (self.vector.y_comp / self.vector.x_comp),
            self.position.y_pos + (ny - self.position.y_pos)⟩
       else none) := by
  have hmz : self.vector.magnitude ≠ 0 := hm.ne'
  have hLR : C.get_left_x ≤ C.get_right_x := by
    simp only [basic_collider_2d.get_left_x, basic_collider_2d.get_right_x]; linarith
  have hBT : C.get_bottom_y ≤ C.get_top_y := by
    simp only [basic_collider_2d.get_bottom_y, basic_collider_2d.get_top_y]; linarith
  -- the two guesses are the points of the ray at the parameters `n1` and `n2`
  have hp1 : (⟨self.position.x_pos + (nx - self.position.x_pos),
      self.position.y_pos
        + self.vector.y_comp / self.vector.x_comp * (nx - self.position.x_pos)⟩
        : coordinate_2d ℝ)
      = self.ray_point ((nx - self.position.x_pos) / Real.cos self.vector.angle) := by
    rw [hx, hy, ray_point, coordinate_2d.mk.injEq]
    constructor
    · field_simp
    · field_simp
      ring
  have hp2 : (⟨self.position.x_pos
        + (ny - self.position.y_pos) / (self.vector.y_comp / self.vector.x_comp),
      self.position.y_pos + (ny - self.position.y_pos)⟩ : coordinate_2d ℝ)
      = self.ray_point ((ny - self.position.y_pos) / Real.sin self.vector.angle) := by
    rw [hx, hy, ray_point, coordinate_2d.mk.injEq]
    constructor
    · field_simp
      ring
    · field_simp
  have hg1 : self.position.y_pos
        + self.vector.y_comp / self.vector.x_comp * (nx - self.position.x_pos)
      = self.position.y_pos
        + (nx - self.position.x_pos) / Real.cos self.vector.angle
          * Real.sin self.vector.angle := by
    rw [hx, hy]
    field_simp
    ring
  have hg2 : self.position.x_pos
        + (ny - self.position.y_pos) / (self.vector.y_comp / self.vector.x_comp)
      = self.position.x_pos
        + (ny - self.position.y_pos) / Real.sin self.vector.angle
          * Real.cos self.vector.angle := by
    rw [hx, hy]
    field_simp
    ring
  -- the box along the ray, as two intervals of the parameter
  have hin : ∀ t : ℝ, C.closed_box (self.ray_point t) ↔
      (((nx - self.position.x_pos) / Real.cos self.vector.angle ≤ t
          ∧ t ≤ (fx - self.position.x_pos) / Real.cos self.vector.angle)
        ∧ ((ny - self.position.y_pos) / Real.sin self.vector.angle ≤ t
          ∧ t ≤ (fy - self.position.y_pos) / Real.sin self.vector.angle)) := by
    intro t
    rw [← hX t, ← hY t]
    simp only [basic_collider_2d.closed_box, ray_point, and_assoc]
  have hout0 : ¬ C.closed_box (self.ray_point 0) := by
    have : self.ray_point 0 = self.position := by
      simp [ray_point]
    rw [this]; exact hout
  have h1 : (nx - self.position.x_pos) / Real.cos self.vector.angle
      ≤ (fx - self.position.x_pos) / Real.cos self.vector.angle := by
    have := (hX ((C.get_left_x - self.position.x_pos) / Real.cos self.vector.angle)).mp
      (by rw [div_mul_cancel₀ _ hc]; constructor <;> linarith)
    exact this.1.trans this.2
  have h2 : (ny - self.position.y_pos) / Real.sin self.vector.angle
      ≤ (fy - self.position.y_pos) / Real.sin self.vector.angle := by
    have := (hY ((C.get_bottom_y - self.position.y_pos) / Real.sin self.vector.angle)).mp
      (by rw [div_mul_cancel₀ _ hs]; constructor <;> linarith)
    exact this.1.trans this.2
  obtain ⟨k1, k2, k3, k4⟩ := slab_core _ _ _ _ _ hin h1 h2 hout0
  by_cases hcu : cull
  · rw [if_pos hcu]
    exact first_hit_spec_none self C (k1 (hcull.mp hcu))
  · rw [if_neg hcu]
    have hcu2 := fun h => hcu (hcull.mpr h)
    rw [hp1, hp2, hg1, hg2]
    have e1 := hY ((nx - self.position.x_pos) / Real.cos self.vector.angle)
    have e2 := hX ((ny - self.position.y_pos) / Real.sin self.vector.angle)
    simp only [ge_iff_le]
    by_cases hc1 : C.get_bottom_y ≤ self.position.y_pos
          + (nx - self.position.x_pos) / Real.cos self.vector.angle
            * Real.sin self.vector.angle
        ∧ self.position.y_pos
          + (nx - self.position.x_pos) / Real.cos self.vector.angle
            * Real.sin self.vector.angle ≤ C.get_top_y
    · rw [if_pos hc1]
      obtain ⟨r1, r2, r3⟩ := k2 hcu2 (e1.mp hc1)
      exact first_hit_spec_range_check self C hm.le _ r1 r2 r3
    · rw [if_neg hc1]
      have hc1t := fun h => hc1 (e1.mpr h)
      by_cases hc2 : C.get_left_x ≤ self.position.x_pos
            + (ny - self.position.y_pos) / Real.sin self.vector.angle
              * Real.cos self.vector.angle
          ∧ self.position.x_pos
            + (ny - self.position.y_pos) / Real.sin self.vector.angle
              * Real.cos self.vector.angle ≤ C.get_right_x
      · rw [if_pos hc2]
        obtain ⟨r1, r2, r3⟩ := k3 hcu2 hc1t (e2.mp hc2)
        exact first_hit_spec_range_check self C hm.le _ r1 r2 r3
      · rw [if_neg hc2]
        have hc2t := fun h => hc2 (e2.mpr h)
        exact first_hit_spec_none self C (k4 hcu2 hc1t hc2t)

/-- An axis-aligned branch of `get_hit`: culled rays miss the box, the others reach it first
at the parameter `t0`. -/
lemma axis_branch (self : hitscanner_2d) (C : basic_collider_2d ℝ)
    (hm : 0 ≤ self.vector.magnitude) (cull : Prop) [Decidable cull] (t0 : ℝ)
    (P : coordinate_2d ℝ)
    (hcull : cull → ∀ t : ℝ, 0 ≤ t → ¬ C.closed_box (self.ray_point t))
    (hhit : ¬ cull → 0 ≤ t0 ∧ P = self.ray_point t0 ∧ C.closed_box (self.ray_point t0)
      ∧ ∀ t : ℝ, 0 ≤ t → C.closed_box (self.ray_point t) → t0 ≤ t) :
    first_hit_spec self C (if cull then none else self.do_range_check P) := by
  by_cases h : cull
  · rw [if_pos h]
    exact first_hit_spec_none self C (hcull h)
  · rw [if_neg h]
    obtain ⟨r0, r1, r2, r3⟩ := hhit h
    rw [r1]
    exact first_hit_spec_range_check self C hm t0 r0 r2 r3

lemma sin_neg_of_mem (θ : ℝ) (h0 : Real.pi < θ) (h1 : θ < 2 * Real.pi) : Real.sin θ < 0 := by
  have h : Real.sin (θ - 2 * Real.pi) < 0 :=
    Real.sin_neg_of_neg_of_neg_pi_lt (by linarith) (by linarith)
  rwa [Real.sin_sub_two_pi] at h

lemma cos_pos_of_mem (θ : ℝ) (h0 : 3 * Real.pi / 2 < θ) (h1 : θ < 2 * Real.pi) :
    0 < Real.cos θ := by
  have h : 0 < Real.cos (θ - 2 * Real.pi) :=
    Real.cos_pos_of_mem_Ioo ⟨by linarith, by linarith⟩
  rwa [Real.cos_sub_two_pi] at h

lemma get_hit_spec_q1 (self : hitscanner_2d) (C : basic_collider_2d ℝ)
    (hw : 0 ≤ C.width_2) (hh : 0 ≤ C.height_2) (hv : self.vector.consistent)
    (hm : 0 < self.vector.magnitude) (hout : ¬ C.closed_box self.position)
    (h0 : 0 < self.vector.angle) (h1 : self.vector.angle < Real.pi / 2) :
    first_hit_spec self C (self.get_hit C) := by
  obtain ⟨_, _, hx, hy⟩ := hv
  have hπ := Real.pi_pos
  have hLR : C.get_left_x ≤ C.get_right_x := by
    simp only [basic_collider_2d.get_left_x, basic_collider_2d.get_right_x]; linarith
  have hBT : C.get_bottom_y ≤ C.get_top_y := by
    simp only [basic_collider_2d.get_bottom_y, basic_collider_2d.get_top_y]; linarith
  have hins : ¬ (self.position.x_pos ≥ C.get_left_x ∧ self.position.x_pos ≤ C.get_right_x
      ∧ self.position.y_pos ≥ C.get_top_y ∧ self.position.y_pos ≤ C.get_bottom_y) := by
    rintro ⟨h1, h2, h3, h4⟩
    exact hout ⟨h1, h2, by linarith, by linarith⟩
  have hmz : ¬ (self.vector.magnitude = 0) := hm.ne'
  have hc : 0 < Real.cos self.vector.angle := Real.cos_pos_of_mem_Ioo ⟨by linarith, h1⟩
  have hs : 0 < Real.sin self.vector.angle := Real.sin_pos_of_pos_of_lt_pi h0 (by linarith)
  have hxc : ¬ (self.vector.x_comp = 0) := by rw [hx]; exact mul_ne_zero hm.ne' hc.ne'
  have hyc : ¬ (self.vector.y_comp = 0) := by rw [hy]; exact mul_ne_zero hm.ne' hs.ne'
  have a1 : self.vector.angle ≤ C_PI := by unfold C_PI; linarith
  have a2 : ¬ (self.vector.angle ≥ C_PI) := by intro h; unfold C_PI at h; linarith
  have a3 : self.vector.angle ≤ C_PI_2 := by unfold C_PI_2; linarith
  have a4 : ¬ (self.vector.angle ≥ C_3PI_2) := by intro h; unfold C_3PI_2 at h; linarith
  have a5 : ¬ (self.vector.angle ≥ C_PI_2) := by intro h; unfold C_PI_2 at h; linarith
  have a6 : self.vector.angle ≤ C_3PI_2 := by unfold C_3PI_2; linarith
  have a7 : ¬ (self.vector.angle = 0) := by intro h; linarith
  have a8 : self.vector.angle < C_PI := by unfold C_PI; linarith
  have a9 : self.vector.angle < C_PI_2 := by unfold C_PI_2; linarith
  have a10 : ¬ (self.vector.angle > C_3PI_2) := by intro h; unfold C_3PI_2 at h; linarith
  simp only [get_hit, get_angle, fast_vector_2d.get_angle, if_true, get_x_pos, get_y_pos,
    fast_vector_2d.get_magnitude, fast_vector_2d.get_x_comp, fast_vector_2d.get_y_comp,
    coordinate_2d.get_x_pos, coordinate_2d.get_y_pos,
    eq_true a1, eq_false a2, eq_true a3, eq_false a4, eq_false a5, eq_true a6, eq_false a7, eq_true a8, eq_true a9, eq_false a10,
    eq_false hins, eq_false hmz, eq_false hxc, eq_false hyc, true_and, and_true, false_and,
    and_false, true_or, or_true, false_or, or_false, if_false, not_true_eq_false,
    not_false_eq_true]
  have hX : ∀ t : ℝ, (C.get_left_x ≤ self.position.x_pos + t * Real.cos self.vector.angle
        ∧ self.position.x_pos + t * Real.cos self.vector.angle ≤ C.get_right_x)
      ↔ ((C.get_left_x - self.position.x_pos) / Real.cos self.vector.angle ≤ t
        ∧ t ≤ (C.get_right_x - self.position.x_pos) / Real.cos self.vector.angle) := by
    intro t
    exact and_congr (slab_pos hc _ _ t).1 (slab_pos hc _ _ t).2
  have hY : ∀ t : ℝ, (C.get_bottom_y ≤ self.position.y_pos + t * Real.sin self.vector.angle
        ∧ self.position.y_pos + t * Real.sin self.vector.angle ≤ C.get_top_y)
      ↔ ((C.get_bottom_y - self.position.y_pos) / Real.sin self.vector.angle ≤ t
        ∧ t ≤ (C.get_top_y - self.position.y_pos) / Real.sin self.vector.angle) := by
    intro t
    exact and_congr (slab_pos hs _ _ t).1 (slab_pos hs _ _ t).2
  refine general_branch self C hw hh hx hy hm hout hc.ne' hs.ne' C.get_left_x C.get_right_x
    C.get_bottom_y C.get_top_y hX hY _ ?_
  rw [far_pos hc, far_pos hs]
  exact or_comm

lemma get_hit_spec_q2 (self : hitscanner_2d) (C : basic_collider_2d ℝ)
    (hw : 0 ≤ C.width_2) (hh : 0 ≤ C.height_2) (hv : self.vector.consistent)
    (hm : 0 < self.vector.magnitude) (hout : ¬ C.closed_box self.position)
    (h0 : Real.pi / 2 < self.vector.angle) (h1 : self.vector.angle < Real.pi) :
    first_hit_spec self C (self.get_hit C) := by
  obtain ⟨_, _, hx, hy⟩ := hv
  have hπ := Real.pi_pos
  have hLR : C.get_left_x ≤ C.get_right_x := by
    simp only [basic_collider_2d.get_left_x, basic_collider_2d.get_right_x]; linarith
  have hBT : C.get_bottom_y ≤ C.get_top_y := by
    simp only [basic_collider_2d.get_bottom_y, basic_collider_2d.get_top_y]; linarith
  have hins : ¬ (self.position.x_pos ≥ C.get_left_x ∧ self.position.x_pos ≤ C.get_right_x
      ∧ self.position.y_pos ≥ C.get_top_y ∧ self.position.y_pos ≤ C.get_bottom_y) := by
    rintro ⟨h1, h2, h3, h4⟩
    exact hout ⟨h1, h2, by linarith, by linarith⟩
  have hmz : ¬ (self.vector.magnitude = 0) := hm.ne'
  have hc : Real.cos self.vector.angle < 0 := Real.cos_neg_of_pi_div_two_lt_of_lt h0 (by linarith)
  have hs : 0 < Real.sin self.vector.angle := Real.sin_pos_of_pos_of_lt_pi (by linarith) h1
  have hxc : ¬ (self.vector.x_comp = 0) := by rw [hx]; exact mul_ne_zero hm.ne' hc.ne
  have hyc : ¬ (self.vector.y_comp = 0) := by rw [hy]; exact mul_ne_zero hm.ne' hs.ne'
  have a1 : self.vector.angle ≤ C_PI := by unfold C_PI; linarith
  have a2 : ¬ (self.vector.angle ≥ C_PI) := by intro h; unfold C_PI at h; linarith
  have a3 : ¬ (self.vector.angle ≤ C_PI_2) := by intro h; unfold C_PI_2 at h; linarith
  have a4 : ¬ (self.vector.angle ≥ C_3PI_2) := by intro h; unfold C_3PI_2 at h; linarith
  have a5 : self.vector.angle ≥ C_PI_2 := by unfold C_PI_2; linarith
  have a6 : self.vector.angle ≤ C_3PI_2 := by unfold C_3PI_2; linarith
  have a7 : ¬ (self.vector.angle = 0) := by intro h; linarith
  have a8 : self.vector.angle < C_PI := by unfold C_PI; linarith
  have a9 : ¬ (self.vector.angle < C_PI_2) := by intro h; unfold C_PI_2 at h; linarith
  have a10 : ¬ (self.vector.angle > C_3PI_2) := by intro h; unfold C_3PI_2 at h; linarith
  simp only [get_hit, get_angle, fast_vector_2d.get_angle, if_true, get_x_pos, get_y_pos,
    fast_vector_2d.get_magnitude, fast_vector_2d.get_x_comp, fast_vector_2d.get_y_comp,
    coordinate_2d.get_x_pos, coordinate_2d.get_y_pos,
    eq_true a1, eq_false a2, eq_false a3, eq_false a4, eq_true a5, eq_true a6, eq_false a7, eq_true a8, eq_false a9, eq_false a10,
    eq_false hins, eq_false hmz, eq_false hxc, eq_false hyc, true_and, and_true, false_and,
    and_false, true_or, or_true, false_or, or_false, if_false, not_true_eq_false,
    not_false_eq_true]
  have hX : ∀ t : ℝ, (C.get_left_x ≤ self.position.x_pos + t * Real.cos self.vector.angle
        ∧ self.position.x_pos + t * Real.cos self.vector.angle ≤ C.get_right_x)
      ↔ ((C.get_right_x - self.position.x_pos) / Real.cos self.vector.angle ≤ t
        ∧ t ≤ (C.get_left_x - self.position.x_pos) / Real.cos self.vector.angle) := by
    intro t
    rw [and_comm]
    exact and_congr (slab_neg hc _ _ t).2 (slab_neg hc _ _ t).1
  have hY : ∀ t : ℝ, (C.get_bottom_y ≤ self.position.y_pos + t * Real.sin self.vector.angle
        ∧ self.position.y_pos + t * Real.sin self.vector.angle ≤ C.get_top_y)
      ↔ ((C.get_bottom_y - self.position.y_pos) / Real.sin self.vector.angle ≤ t
        ∧ t ≤ (C.get_top_y - self.position.y_pos) / Real.sin self.vector.angle) := by
    intro t
    exact and_congr (slab_pos hs _ _ t).1 (slab_pos hs _ _ t).2
  refine general_branch self C hw hh hx hy hm hout hc.ne hs.ne' C.get_right_x C.get_left_x
    C.get_bottom_y C.get_top_y hX hY _ ?_
  rw [far_neg hc, far_pos hs]
  exact or_comm

lemma get_hit_spec_q3 (self : hitscanner_2d) (C : basic_collider_2d ℝ)
    (hw : 0 ≤ C.width_2) (hh : 0 ≤ C.height_2) (hv : self.vector.consistent)
    (hm : 0 < self.vector.magnitude) (hout : ¬ C.closed_box self.position)
    (h0 : Real.pi < self.vector.angle) (h1 : self.vector.angle < 3 * Real.pi / 2) :
    first_hit_spec self C (self.get_hit C) := by
  obtain ⟨_, _, hx, hy⟩ := hv
  have hπ := Real.pi_pos
  have hLR : C.get_left_x ≤ C.get_right_x := by
    simp only [basic_collider_2d.get_left_x, basic_collider_2d.get_right_x]; linarith
  have hBT : C.get_bottom_y ≤ C.get_top_y := by
    simp only [basic_collider_2d.get_bottom_y, basic_collider_2d.get_top_y]; linarith
  have hins : ¬ (self.position.x_pos ≥ C.get_left_x ∧ self.position.x_pos ≤ C.get_right_x
      ∧ self.position.y_pos ≥ C.get_top_y ∧ self.position.y_pos ≤ C.get_bottom_y) := by
    rintro ⟨h1, h2, h3, h4⟩
    exact hout ⟨h1, h2, by linarith, by linarith⟩
  have hmz : ¬ (self.vector.magnitude = 0) := hm.ne'
  have hc : Real.cos self.vector.angle < 0 := Real.cos_neg_of_pi_div_two_lt_of_lt (by linarith) (by linarith)
  have hs : Real.sin self.vector.angle < 0 := sin_neg_of_mem self.vector.angle (by linarith) (by linarith)
  have hxc : ¬ (self.vector.x_comp = 0) := by rw [hx]; exact mul_ne_zero hm.ne' hc.ne
  have hyc : ¬ (self.vector.y_comp = 0) := by rw [hy]; exact mul_ne_zero hm.ne' hs.ne
  have a1 : ¬ (self.vector.angle ≤ C_PI) := by intro h; unfold C_PI at h; linarith
  have a2 : self.vector.angle ≥ C_PI := by unfold C_PI; linarith
  have a3 : ¬ (self.vector.angle ≤ C_PI_2) := by intro h; unfold C_PI_2 at h; linarith
  have a4 : ¬ (self.vector.angle ≥ C_3PI_2) := by intro h; unfold C_3PI_2 at h; linarith
  have a5 : self.vector.angle ≥ C_PI_2 := by unfold C_PI_2; linarith
  have a6 : self.vector.angle ≤ C_3PI_2 := by unfold C_3PI_2; linarith
  have a7 : ¬ (self.vector.angle = 0) := by intro h; linarith
  have a8 : ¬ (self.vector.angle < C_PI) := by intro h; unfold C_PI at h; linarith
  have a9 : ¬ (self.vector.angle < C_PI_2) := by intro h; unfold C_PI_2 at h; linarith
  have a10 : ¬ (self.vector.angle > C_3PI_2) := by intro h; unfold C_3PI_2 at h; linarith
  simp only [get_hit, get_angle, fast_vector_2d.get_angle, if_true, get_x_pos, get_y_pos,
    fast_vector_2d.get_magnitude, fast_vector_2d.get_x_comp, fast_vector_2d.get_y_comp,
    coordinate_2d.get_x_pos, coordinate_2d.get_y_pos,
    eq_false a1, eq_true a2, eq_false a3, eq_false a4, eq_true a5, eq_true a6, eq_false a7, eq_false a8, eq_false a9, eq_false a10,
    eq_false hins, eq_false hmz, eq_false hxc, eq_false hyc, true_and, and_true, false_and,
    and_false, true_or, or_true, false_or, or_false, if_false, not_true_eq_false,
    not_false_eq_true]
  have hX : ∀ t : ℝ, (C.get_left_x ≤ self.position.x_pos + t * Real.cos self.vector.angle
        ∧ self.position.x_pos + t * Real.cos self.vector.angle ≤ C.get_right_x)
      ↔ ((C.get_right_x - self.position.x_pos) / Real.cos self.vector.angle ≤ t
        ∧ t ≤ (C.get_left_x - self.position.x_pos) / Real.cos self.vector.angle) := by
    intro t
    rw [and_comm]
    exact and_congr (slab_neg hc _ _ t).2 (slab_neg hc _ _ t).1
  have hY : ∀ t : ℝ, (C.get_bottom_y ≤ self.position.y_pos + t * Real.sin self.vector.angle
        ∧ self.position.y_pos + t * Real.sin self.vector.angle ≤ C.get_top_y)
      ↔ ((C.get_top_y - self.position.y_pos) / Real.sin self.vector.angle ≤ t
        ∧ t ≤ (C.get_bottom_y - self.position.y_pos) / Real.sin self.vector.angle) := by
    intro t
    rw [and_comm]
    exact and_congr (slab_neg hs _ _ t).2 (slab_neg hs _ _ t).1
  refine general_branch self C hw hh hx hy hm hout hc.ne hs.ne C.get_right_x C.get_left_x
    C.get_top_y C.get_bottom_y hX hY _ ?_
  rw [far_neg hc, far_neg hs]
  exact or_comm

lemma get_hit_spec_q4 (self : hitscanner_2d) (C : basic_collider_2d ℝ)
    (hw : 0 ≤ C.width_2) (hh : 0 ≤ C.height_2) (hv : self.vector.consistent)
    (hm : 0 < self.vector.magnitude) (hout : ¬ C.closed_box self.position)
    (h0 : 3 * Real.pi / 2 < self.vector.angle) (h1 : self.vector.angle < 2 * Real.pi) :
    first_hit_spec self C (self.get_hit C) := by
  obtain ⟨_, _, hx, hy⟩ := hv
  have hπ := Real.pi_pos
  have hLR : C.get_left_x ≤ C.get_right_x := by
    simp only [basic_collider_2d.get_left_x, basic_collider_2d.get_right_x]; linarith
  have hBT : C.get_bottom_y ≤ C.get_top_y := by
    simp only [basic_collider_2d.get_bottom_y, basic_collider_2d.get_top_y]; linarith
  have hins : ¬ (self.position.x_pos ≥ C.get_left_x ∧ self.position.x_pos ≤ C.get_right_x
      ∧ self.position.y_pos ≥ C.get_top_y ∧ self.position.y_pos ≤ C.get_bottom_y) := by
    rintro ⟨h1, h2, h3, h4⟩
    exact hout ⟨h1, h2, by linarith, by linarith⟩
  have hmz : ¬ (self.vector.magnitude = 0) := hm.ne'
  have hc : 0 < Real.cos self.vector.angle := cos_pos_of_mem self.vector.angle (by linarith) (by linarith)
  have hs : Real.sin self.vector.angle < 0 := sin_neg_of_mem self.vector.angle (by linarith) (by linarith)
  have hxc : ¬ (self.vector.x_comp = 0) := by rw [hx]; exact mul_ne_zero hm.ne' hc.ne'
  have hyc : ¬ (self.vector.y_comp = 0) := by rw [hy]; exact mul_ne_zero hm.ne' hs.ne
  have a1 : ¬ (self.vector.angle ≤ C_PI) := by intro h; unfold C_PI at h; linarith
  have a2 : self.vector.angle ≥ C_PI := by unfold C_PI; linarith
  have a3 : ¬ (self.vector.angle ≤ C_PI_2) := by intro h; unfold C_PI_2 at h; linarith
  have a4 : self.vector.angle ≥ C_3PI_2 := by unfold C_3PI_2; linarith
  have a5 : self.vector.angle ≥ C_PI_2 := by unfold C_PI_2; linarith
  have a6 : ¬ (self.vector.angle ≤ C_3PI_2) := by intro h; unfold C_3PI_2 at h; linarith
  have a7 : ¬ (self.vector.angle = 0) := by intro h; linarith
  have a8 : ¬ (self.vector.angle < C_PI) := by intro h; unfold C_PI at h; linarith
  have a9 : ¬ (self.vector.angle < C_PI_2) := by intro h; unfold C_PI_2 at h; linarith
  have a10 : self.vector.angle > C_3PI_2 := by unfold C_3PI_2; linarith
  simp only [get_hit, get_angle, fast_vector_2d.get_angle, if_true, get_x_pos, get_y_pos,
    fast_vector_2d.get_magnitude, fast_vector_2d.get_x_comp, fast_vector_2d.get_y_comp,
    coordinate_2d.get_x_pos, coordinate_2d.get_y_pos,
    eq_false a1, eq_true a2, eq_false a3, eq_true a4, eq_true a5, eq_false a6, eq_false a7, eq_false a8, eq_false a9, eq_true a10,
    eq_false hins, eq_false hmz, eq_false hxc, eq_false hyc, true_and, and_true, false_and,
    and_false, true_or, or_true, false_or, or_false, if_false, not_true_eq_false,
    not_false_eq_true]
  have hX : ∀ t : ℝ, (C.get_left_x ≤ self.position.x_pos + t * Real.cos self.vector.angle
        ∧ self.position.x_pos + t * Real.cos self.vector.angle ≤ C.get_right_x)
      ↔ ((C.get_left_x - self.position.x_pos) / Real.cos self.vector.angle ≤ t
        ∧ t ≤ (C.get_right_x - self.position.x_pos) / Real.cos self.vector.angle) := by
    intro t
    exact and_congr (slab_pos hc _ _ t).1 (slab_pos hc _ _ t).2
  have hY : ∀ t : ℝ, (C.get_bottom_y ≤ self.position.y_pos + t * Real.sin self.vector.angle
        ∧ self.position.y_pos + t * Real.sin self.vector.angle ≤ C.get_top_y)
      ↔ ((C.get_top_y - self.position.y_pos) / Real.sin self.vector.angle ≤ t
        ∧ t ≤ (C.get_bottom_y - self.position.y_pos) / Real.sin self.vector.angle) := by
    intro t
    rw [and_comm]
    exact and_congr (slab_neg hs _ _ t).2 (slab_neg hs _ _ t).1
  refine general_branch self C hw hh hx hy hm hout hc.ne' hs.ne C.get_left_x C.get_right_x
    C.get_top_y C.get_bottom_y hX hY _ ?_
  rw [far_pos hc, far_neg hs]
  exact or_comm

lemma get_hit_spec_east (self : hitscanner_2d) (C : basic_collider_2d ℝ)
    (hw : 0 ≤ C.width_2) (hh : 0 ≤ C.height_2) (hv : self.vector.consistent)
    (hm : 0 < self.vector.magnitude) (hout : ¬ C.closed_box self.position)
    (h0 : self.vector.angle = 0) :
    first_hit_spec self C (self.get_hit C) := by
  obtain ⟨_, _, hx, hy⟩ := hv
  have hπ := Real.pi_pos
  have hLR : C.get_left_x ≤ C.get_right_x := by
    simp only [basic_collider_2d.get_left_x, basic_collider_2d.get_right_x]; linarith
  have hBT : C.get_bottom_y ≤ C.get_top_y := by
    simp only [basic_collider_2d.get_bottom_y, basic_collider_2d.get_top_y]; linarith
  have hins : ¬ (self.position.x_pos ≥ C.get_left_x ∧ self.position.x_pos ≤ C.get_right_x
      ∧ self.position.y_pos ≥ C.get_top_y ∧ self.position.y_pos ≤ C.get_bottom_y) := by
    rintro ⟨h1, h2, h3, h4⟩
    exact hout ⟨h1, h2, by linarith, by linarith⟩
  have hmz : ¬ (self.vector.magnitude = 0) := hm.ne'
  have hcos : Real.cos self.vector.angle = 1 := by rw [h0, Real.cos_zero]
  have hsin : Real.sin self.vector.angle = 0 := by rw [h0, Real.sin_zero]
  have hxc : ¬ (self.vector.x_comp = 0) := by
    rw [hx, hcos]
    intro h
    apply hmz
    linarith
  have hyc : self.vector.y_comp = 0 := by rw [hy, hsin, mul_zero]
  have a1 : self.vector.angle ≤ C_PI := by unfold C_PI; linarith
  have a2 : ¬ (self.vector.angle ≥ C_PI) := by intro h; unfold C_PI at h; linarith
  have a3 : self.vector.angle ≤ C_PI_2 := by unfold C_PI_2; linarith
  have a4 : ¬ (self.vector.angle ≥ C_3PI_2) := by intro h; unfold C_3PI_2 at h; linarith
  have a5 : ¬ (self.vector.angle ≥ C_PI_2) := by intro h; unfold C_PI_2 at h; linarith
  have a6 : self.vector.angle ≤ C_3PI_2 := by unfold C_3PI_2; linarith
  have a7 : self.vector.angle = 0 := by linarith
  have a8 : self.vector.angle < C_PI := by unfold C_PI; linarith
  have a9 : self.vector.angle < C_PI_2 := by unfold C_PI_2; linarith
  have a10 : ¬ (self.vector.angle > C_3PI_2) := by intro h; unfold C_3PI_2 at h; linarith
  simp only [get_hit, get_angle, fast_vector_2d.get_angle, if_true, get_x_pos, get_y_pos,
    fast_vector_2d.get_magnitude, fast_vector_2d.get_x_comp, fast_vector_2d.get_y_comp,
    coordinate_2d.get_x_pos, coordinate_2d.get_y_pos,
    eq_true a1, eq_false a2, eq_true a3, eq_false a4, eq_false a5, eq_true a6, eq_true a7, eq_true a8, eq_true a9, eq_false a10,
    eq_false hins, eq_false hmz, eq_false hxc, eq_true hyc, true_and, and_true, false_and,
    and_false, true_or, or_true, false_or, or_false, if_false, not_true_eq_false,
    not_false_eq_true]
  refine axis_branch self C hm.le _ (C.get_left_x - self.position.x_pos) _ ?_ ?_
  · intro hcu t ht hb
    simp only [basic_collider_2d.closed_box, ray_point, hcos, hsin, mul_one, mul_zero,
      add_zero, mul_neg] at hb
    rcases hcu with h | h | h <;> linarith [hb.1, hb.2.1, hb.2.2.1, hb.2.2.2]
  · intro hcu
    simp only [not_or, not_lt, gt_iff_lt] at hcu
    obtain ⟨c1, c2, c3⟩ := hcu
    have hstrict : self.position.x_pos < C.get_left_x := by
      by_contra hcon
      rw [not_lt] at hcon
      exact hout ⟨by linarith, by linarith, by linarith, by linarith⟩
    refine ⟨by linarith, ?_, ?_, ?_⟩
    · rw [ray_point, hcos, hsin]
      congr 1 <;> ring
    · simp only [basic_collider_2d.closed_box, ray_point, hcos, hsin, mul_one, mul_zero,
        add_zero, mul_neg]
      refine ⟨?_, ?_, ?_, ?_⟩ <;> linarith
    · intro t ht hb
      simp only [basic_collider_2d.closed_box, ray_point, hcos, hsin, mul_one, mul_zero,
        add_zero, mul_neg] at hb
      linarith [hb.1, hb.2.1, hb.2.2.1, hb.2.2.2]

lemma get_hit_spec_north (self : hitscanner_2d) (C : basic_collider_2d ℝ)
    (hw : 0 ≤ C.width_2) (hh : 0 ≤ C.height_2) (hv : self.vector.consistent)
    (hm : 0 < self.vector.magnitude) (hout : ¬ C.closed_box self.position)
    (h0 : self.vector.angle = Real.pi / 2) :
    first_hit_spec self C (self.get_hit C) := by
  obtain ⟨_, _, hx, hy⟩ := hv
  have hπ := Real.pi_pos
  have hLR : C.get_left_x ≤ C.get_right_x := by
    simp only [basic_collider_2d.get_left_x, basic_collider_2d.get_right_x]; linarith
  have hBT : C.get_bottom_y ≤ C.get_top_y := by
    simp only [basic_collider_2d.get_bottom_y, basic_collider_2d.get_top_y]; linarith
  have hins : ¬ (self.position.x_pos ≥ C.get_left_x ∧ self.position.x_pos ≤ C.get_right_x
      ∧ self.position.y_pos ≥ C.get_top_y ∧ self.position.y_pos ≤ C.get_bottom_y) := by
    rintro ⟨h1, h2, h3, h4⟩
    exact hout ⟨h1, h2, by linarith, by linarith⟩
  have hmz : ¬ (self.vector.magnitude = 0) := hm.ne'
  have hcos : Real.cos self.vector.angle = 0 := by rw [h0, Real.cos_pi_div_two]
  have hsin : Real.sin self.vector.angle = 1 := by rw [h0, Real.sin_pi_div_two]
  have hxc : self.vector.x_comp = 0 := by rw [hx, hcos, mul_zero]
  have a1 : self.vector.angle ≤ C_PI := by unfold C_PI; linarith
  have a2 : ¬ (self.vector.angle ≥ C_PI) := by intro h; unfold C_PI at h; linarith
  have a3 : self.vector.angle ≤ C_PI_2 := by unfold C_PI_2; linarith
  have a4 : ¬ (self.vector.angle ≥ C_3PI_2) := by intro h; unfold C_3PI_2 at h; linarith
  have a5 : self.vector.angle ≥ C_PI_2 := by unfold C_PI_2; linarith
  have a6 : self.vector.angle ≤ C_3PI_2 := by unfold C_3PI_2; linarith
  have a7 : ¬ (self.vector.angle = 0) := by intro h; linarith
  have a8 : self.vector.angle < C_PI := by unfold C_PI; linarith
  have a9 : ¬ (self.vector.angle < C_PI_2) := by intro h; unfold C_PI_2 at h; linarith
  have a10 : ¬ (self.vector.angle > C_3PI_2) := by intro h; unfold C_3PI_2 at h; linarith
  simp only [get_hit, get_angle, fast_vector_2d.get_angle, if_true, get_x_pos, get_y_pos,
    fast_vector_2d.get_magnitude, fast_vector_2d.get_x_comp, fast_vector_2d.get_y_comp,
    coordinate_2d.get_x_pos, coordinate_2d.get_y_pos,
    eq_true a1, eq_false a2, eq_true a3, eq_false a4, eq_true a5, eq_true a6, eq_false a7, eq_true a8, eq_false a9, eq_false a10,
    eq_false hins, eq_false hmz, eq_true hxc, true_and, and_true, false_and,
    and_false, true_or, or_true, false_or, or_false, if_false, not_true_eq_false,
    not_false_eq_true]
  refine axis_branch self C hm.le _ (C.get_bottom_y - self.position.y_pos) _ ?_ ?_
  · intro hcu t ht hb
    simp only [basic_collider_2d.closed_box, ray_point, hcos, hsin, mul_one, mul_zero,
      add_zero, mul_neg] at hb
    rcases hcu with h | h | h <;> linarith [hb.1, hb.2.1, hb.2.2.1, hb.2.2.2]
  · intro hcu
    simp only [not_or, not_lt, gt_iff_lt] at hcu
    obtain ⟨c1, c2, c3⟩ := hcu
    have hstrict : self.position.y_pos < C.get_bottom_y := by
      by_contra hcon
      rw [not_lt] at hcon
      exact hout ⟨by linarith, by linarith, by linarith, by linarith⟩
    refine ⟨by linarith, ?_, ?_, ?_⟩
    · rw [ray_point, hcos, hsin]
      congr 1 <;> ring
    · simp only [basic_collider_2d.closed_box, ray_point, hcos, hsin, mul_one, mul_zero,
        add_zero, mul_neg]
      refine ⟨?_, ?_, ?_, ?_⟩ <;> linarith
    · intro t ht hb
      simp only [basic_collider_2d.closed_box, ray_point, hcos, hsin, mul_one, mul_zero,
        add_zero, mul_neg] at hb
      linarith [hb.1, hb.2.1, hb.2.2.1, hb.2.2.2]

lemma get_hit_spec_west (self : hitscanner_2d) (C : basic_collider_2d ℝ)
    (hw : 0 ≤ C.width_2) (hh : 0 ≤ C.height_2) (hv : self.vector.consistent)
    (hm : 0 < self.vector.magnitude) (hout : ¬ C.closed_box self.position)
    (h0 : self.vector.angle = Real.pi) :
    first_hit_spec self C (self.get_hit C) := by
  obtain ⟨_, _, hx, hy⟩ := hv
  have hπ := Real.pi_pos
  have hLR : C.get_left_x ≤ C.get_right_x := by
    simp only [basic_collider_2d.get_left_x, basic_collider_2d.get_right_x]; linarith
  have hBT : C.get_bottom_y ≤ C.get_top_y := by
    simp only [basic_collider_2d.get_bottom_y, basic_collider_2d.get_top_y]; linarith
  have hins : ¬ (self.position.x_pos ≥ C.get_left_x ∧ self.position.x_pos ≤ C.get_right_x
      ∧ self.position.y_pos ≥ C.get_top_y ∧ self.position.y_pos ≤ C.get_bottom_y) := by
    rintro ⟨h1, h2, h3, h4⟩
    exact hout ⟨h1, h2, by linarith, by linarith⟩
  have hmz : ¬ (self.vector.magnitude = 0) := hm.ne'
  have hcos : Real.cos self.vector.angle = -1 := by rw [h0, Real.cos_pi]
  have hsin : Real.sin self.vector.angle = 0 := by rw [h0, Real.sin_pi]
  have hxc : ¬ (self.vector.x_comp = 0) := by
    rw [hx, hcos]
    intro h
    apply hmz
    linarith
  have hyc : self.vector.y_comp = 0 := by rw [hy, hsin, mul_zero]
  have a1 : self.vector.angle ≤ C_PI := by unfold C_PI; linarith
  have a2 : self.vector.angle ≥ C_PI := by unfold C_PI; linarith
  have a3 : ¬ (self.vector.angle ≤ C_PI_2) := by intro h; unfold C_PI_2 at h; linarith
  have a4 : ¬ (self.vector.angle ≥ C_3PI_2) := by intro h; unfold C_3PI_2 at h; linarith
  have a5 : self.vector.angle ≥ C_PI_2 := by unfold C_PI_2; linarith
  have a6 : self.vector.angle ≤ C_3PI_2 := by unfold C_3PI_2; linarith
  have a7 : ¬ (self.vector.angle = 0) := by intro h; linarith
  have a8 : ¬ (self.vector.angle < C_PI) := by intro h; unfold C_PI at h; linarith
  have a9 : ¬ (self.vector.angle < C_PI_2) := by intro h; unfold C_PI_2 at h; linarith
  have a10 : ¬ (self.vector.angle > C_3PI_2) := by intro h; unfold C_3PI_2 at h; linarith
  simp only [get_hit, get_angle, fast_vector_2d.get_angle, if_true, get_x_pos, get_y_pos,
    fast_vector_2d.get_magnitude, fast_vector_2d.get_x_comp, fast_vector_2d.get_y_comp,
    coordinate_2d.get_x_pos, coordinate_2d.get_y_pos,
    eq_true a1, eq_true a2, eq_false a3, eq_false a4, eq_true a5, eq_true a6, eq_false a7, eq_false a8, eq_false a9, eq_false a10,
    eq_false hins, eq_false hmz, eq_false hxc, eq_true hyc, true_and, and_true, false_and,
    and_false, true_or, or_true, false_or, or_false, if_false, not_true_eq_false,
    not_false_eq_true]
  refine axis_branch self C hm.le _ (self.position.x_pos - C.get_right_x) _ ?_ ?_
  · intro hcu t ht hb
    simp only [basic_collider_2d.closed_box, ray_point, hcos, hsin, mul_one, mul_zero,
      add_zero, mul_neg] at hb
    rcases hcu with h | h | h <;> linarith [hb.1, hb.2.1, hb.2.2.1, hb.2.2.2]
  · intro hcu
    simp only [not_or, not_lt, gt_iff_lt] at hcu
    obtain ⟨c1, c2, c3⟩ := hcu
    have hstrict : C.get_right_x < self.position.x_pos := by
      by_contra hcon
      rw [not_lt] at hcon
      exact hout ⟨by linarith, by linarith, by linarith, by linarith⟩
    refine ⟨by linarith, ?_, ?_, ?_⟩
    · rw [ray_point, hcos, hsin]
      congr 1 <;> ring
    · simp only [basic_collider_2d.closed_box, ray_point, hcos, hsin, mul_one, mul_zero,
        add_zero, mul_neg]
      refine ⟨?_, ?_, ?_, ?_⟩ <;> linarith
    · intro t ht hb
      simp only [basic_collider_2d.closed_box, ray_point, hcos, hsin, mul_one, mul_zero,
        add_zero, mul_neg] at hb
      linarith [hb.1, hb.2.1, hb.2.2.1, hb.2.2.2]

lemma get_hit_spec_south (self : hitscanner_2d) (C : basic_collider_2d ℝ)
    (hw : 0 ≤ C.width_2) (hh : 0 ≤ C.height_2) (hv : self.vector.consistent)
    (hm : 0 < self.vector.magnitude) (hout : ¬ C.closed_box self.position)
    (h0 : self.vector.angle = 3 * Real.pi / 2) :
    first_hit_spec self C (self.get_hit C) := by
  obtain ⟨_, _, hx, hy⟩ := hv
  have hπ := Real.pi_pos
  have hLR : C.get_left_x ≤ C.get_right_x := by
    simp only [basic_collider_2d.get_left_x, basic_collider_2d.get_right_x]; linarith
  have hBT : C.get_bottom_y ≤ C.get_top_y := by
    simp only [basic_collider_2d.get_bottom_y, basic_collider_2d.get_top_y]; linarith
  have hins : ¬ (self.position.x_pos ≥ C.get_left_x ∧ self.position.x_pos ≤ C.get_right_x
      ∧ self.position.y_pos ≥ C.get_top_y ∧ self.position.y_pos ≤ C.get_bottom_y) := by
    rintro ⟨h1, h2, h3, h4⟩
    exact hout ⟨h1, h2, by linarith, by linarith⟩
  have hmz : ¬ (self.vector.magnitude = 0) := hm.ne'
  have hcos : Real.cos self.vector.angle = 0 := by
    rw [h0, show 3 * Real.pi / 2 = Real.pi + Real.pi / 2 by ring, Real.cos_add_pi_div_two,
      Real.sin_pi, neg_zero]
  have hsin : Real.sin self.vector.angle = -1 := by
    rw [h0, show 3 * Real.pi / 2 = Real.pi + Real.pi / 2 by ring, Real.sin_add_pi_div_two,
      Real.cos_pi]
  have hxc : self.vector.x_comp = 0 := by rw [hx, hcos, mul_zero]
  have a1 : ¬ (self.vector.angle ≤ C_PI) := by intro h; unfold C_PI at h; linarith
  have a2 : self.vector.angle ≥ C_PI := by unfold C_PI; linarith
  have a3 : ¬ (self.vector.angle ≤ C_PI_2) := by intro h; unfold C_PI_2 at h; linarith
  have a4 : self.vector.angle ≥ C_3PI_2 := by unfold C_3PI_2; linarith
  have a5 : self.vector.angle ≥ C_PI_2 := by unfold C_PI_2; linarith
  have a6 : self.vector.angle ≤ C_3PI_2 := by unfold C_3PI_2; linarith
  have a7 : ¬ (self.vector.angle = 0) := by intro h; linarith
  have a8 : ¬ (self.vector.angle < C_PI) := by intro h; unfold C_PI at h; linarith
  have a9 : ¬ (self.vector.angle < C_PI_2) := by intro h; unfold C_PI_2 at h; linarith
  have a10 : ¬ (self.vector.angle > C_3PI_2) := by intro h; unfold C_3PI_2 at h; linarith
  simp only [get_hit, get_angle, fast_vector_2d.get_angle, if_true, get_x_pos, get_y_pos,
    fast_vector_2d.get_magnitude, fast_vector_2d.get_x_comp, fast_vector_2d.get_y_comp,
    coordinate_2d.get_x_pos, coordinate_2d.get_y_pos,
    eq_false a1, eq_true a2, eq_false a3, eq_true a4, eq_true a5, eq_true a6, eq_false a7, eq_false a8, eq_false a9, eq_false a10,
    eq_false hins, eq_false hmz, eq_true hxc, true_and, and_true, false_and,
    and_false, true_or, or_true, false_or, or_false, if_false, not_true_eq_false,
    not_false_eq_true]
  refine axis_branch self C hm.le _ (self.position.y_pos - C.get_top_y) _ ?_ ?_
  · intro hcu t ht hb
    simp only [basic_collider_2d.closed_box, ray_point, hcos, hsin, mul_one, mul_zero,
      add_zero, mul_neg] at hb
    rcases hcu with h | h | h <;> linarith [hb.1, hb.2.1, hb.2.2.1, hb.2.2.2]
  · intro hcu
    simp only [not_or, not_lt, gt_iff_lt] at hcu
    obtain ⟨c1, c2, c3⟩ := hcu
    have hstrict : C.get_top_y < self.position.y_pos := by
      by_contra hcon
      rw [not_lt] at hcon
      exact hout ⟨by linarith, by linarith, by linarith, by linarith⟩
    refine ⟨by linarith, ?_, ?_, ?_⟩
    · rw [ray_point, hcos, hsin]
      congr 1 <;> ring
    · simp only [basic_collider_2d.closed_box, ray_point, hcos, hsin, mul_one, mul_zero,
        add_zero, mul_neg]
      refine ⟨?_, ?_, ?_, ?_⟩ <;> linarith
    · intro t ht hb
      simp only [basic_collider_2d.closed_box, ray_point, hcos, hsin, mul_one, mul_zero,
        add_zero, mul_neg] at hb
      linarith [hb.1, hb.2.1, hb.2.2.1, hb.2.2.2]

/-- The eight positions of an angle of `[0, 2π)` relative to the four axis directions. -/
lemma angle_cases (θ : ℝ) (h0 : 0 ≤ θ) (h1 : θ < 2 * Real.pi) :
    θ = 0 ∨ (0 < θ ∧ θ < Real.pi / 2) ∨ θ = Real.pi / 2
      ∨ (Real.pi / 2 < θ ∧ θ < Real.pi) ∨ θ = Real.pi
      ∨ (Real.pi < θ ∧ θ < 3 * Real.pi / 2) ∨ θ = 3 * Real.pi / 2
      ∨ (3 * Real.pi / 2 < θ ∧ θ < 2 * Real.pi) := by
  rcases h0.eq_or_lt with h | h
  · exact Or.inl h.symm
  rcases lt_trichotomy θ (Real.pi / 2) with h2 | h2 | h2
  · exact Or.inr (Or.inl ⟨h, h2⟩)
  · exact Or.inr (Or.inr (Or.inl h2))
  rcases lt_trichotomy θ Real.pi with h3 | h3 | h3
  · exact Or.inr (Or.inr (Or.inr (Or.inl ⟨h2, h3⟩)))
  · exact Or.inr (Or.inr (Or.inr (Or.inr (Or.inl h3))))
  rcases lt_trichotomy θ (3 * Real.pi / 2) with h4 | h4 | h4
  · exact Or.inr (Or.inr (Or.inr (Or.inr (Or.inr (Or.inl ⟨h3, h4⟩)))))
  · exact Or.inr (Or.inr (Or.inr (Or.inr (Or.inr (Or.inr (Or.inl h4))))))
  · exact Or.inr (Or.inr (Or.inr (Or.inr (Or.inr (Or.inr (Or.inr ⟨h4, h1⟩))))))

/-- For a consistent hitscanner of positive range with origin outside the closed box, `get_hit`
meets the contract `first_hit_spec`. -/
lemma get_hit_first_hit_spec (self : hitscanner_2d) (C : basic_collider_2d ℝ)
    (hw : 0 ≤ C.width_2) (hh : 0 ≤ C.height_2) (hv : self.vector.consistent)
    (hm : 0 < self.vector.magnitude) (hout : ¬ C.closed_box self.position) :
    first_hit_spec self C (self.get_hit C) := by
  have h2 : self.vector.angle < 2 * Real.pi := hv.2.1
  rcases angle_cases self.vector.angle hv.1 h2 with h | ⟨h, h'⟩ | h | ⟨h, h'⟩ | h | ⟨h, h'⟩ | h
    | ⟨h, h'⟩
  · exact get_hit_spec_east self C hw hh hv hm hout h
  · exact get_hit_spec_q1 self C hw hh hv hm hout h h'
  · exact get_hit_spec_north self C hw hh hv hm hout h
  · exact get_hit_spec_q2 self C hw hh hv hm hout h h'
  · exact get_hit_spec_west self C hw hh hv hm hout h
  · exact get_hit_spec_q3 self C hw hh hv hm hout h h'
  · exact get_hit_spec_south self C hw hh hv hm hout h
  · exact get_hit_spec_q4 self C hw hh hv hm hout h h'

lemma get_hit_loop_output (self : hitscanner_2d) (cs : List (basic_collider_2d ℝ)) :
    ∀ st : scan_state, scan_inv self st →
      (∀ c ∈ cs, ∀ p, self.get_hit c = some p →
        p.get_euclidean_distance_to self.position < DBL_MAX) →
      (get_hit_loop self cs st).output =
        List.foldl (List.argAux (fun b c : coordinate_2d ℝ =>
            b.get_euclidean_distance_to self.position
              < c.get_euclidean_distance_to self.position))
          st.output (cs.filterMap self.get_hit) := by
  induction cs with
  | nil => intro st _ _; rfl
  | cons c rest ih =>
    intro st hinv hb
    have hrest : ∀ c ∈ rest, ∀ p, self.get_hit c = some p →
        p.get_euclidean_distance_to self.position < DBL_MAX :=
      fun c hc p hp => hb c (List.mem_cons_of_mem _ hc) p hp
    cases hg : self.get_hit c with
    | none =>
      rw [get_hit_loop, hg, List.filterMap_cons_none hg]
      exact ih st hinv hrest
    | some scan =>
      rw [get_hit_loop, hg, List.filterMap_cons_some hg, List.foldl_cons]
      have hlt := hb c (List.mem_cons_self _ _) scan hg
      dsimp only
      cases ho : st.output with
      | none =>
        have hd : st.output_distance = DBL_MAX := by
          simpa [scan_inv, ho] using hinv
        rw [hd, if_pos hlt, ih _ (by simp [scan_inv]) hrest]
        rfl
      | some b =>
        have hd : st.output_distance = b.get_euclidean_distance_to self.position := by
          simpa [scan_inv, ho] using hinv
        rw [hd]
        by_cases hcmp : scan.get_euclidean_distance_to self.position
            < b.get_euclidean_distance_to self.position
        · rw [if_pos hcmp, ih _ (by simp [scan_inv]) hrest]
          simp [List.argAux, hcmp]
        · rw [if_neg hcmp, ih st hinv hrest, ho]
          simp [List.argAux, hcmp]

/-- The vector overload of `get_hit` agrees with the naive reference on every list whose
single-collider hits all lie at distance below `DBL_MAX`, the initial `output_distance`. -/
lemma get_hit_colliders_eq_naive (self : hitscanner_2d) (cs : List (basic_collider_2d ℝ))
    (hb : ∀ c ∈ cs, ∀ p, self.get_hit c = some p →
      p.get_euclidean_distance_to self.position < DBL_MAX) :
    self.get_hit_colliders cs = self.get_hit_naive cs
    ∧ (self.get_hit_colliders cs = none ↔ ∀ c ∈ cs, self.get_hit c = none) := by
  have h1 : self.get_hit_colliders cs = self.get_hit_naive cs := by
    rw [get_hit_colliders, get_hit_loop_output self cs _ (by simp [scan_inv]) hb]
    rfl
  refine ⟨h1, ?_⟩
  rw [h1, get_hit_naive, List.argmin_eq_none, List.filterMap_eq_nil_iff]

end hitscanner_2d

lemma normalize_radian_angle_mem (a : ℝ) :
    0 ≤ math_helper.normalize_radian_angle a ∧ math_helper.normalize_radian_angle a < C_2PI := by
  have hpos : (0 : ℝ) < 2 * π := by positivity
  simp only [math_helper.normalize_radian_angle, math_helper.normalize_value_to_range, C_2PI]
  have h1 := Int.floor_le (a / (2 * π))
  have h2 := Int.lt_floor_add_one (a / (2 * π))
  rw [le_div_iff₀ hpos] at h1
  rw [div_lt_iff₀ hpos] at h2
  constructor <;> linarith

lemma DBL_MAX_pos : 0 < DBL_MAX := by
  unfold DBL_MAX
  exact sub_pos.mpr (pow_lt_pow_right₀ (by norm_num) (by norm_num))

namespace hitscanner_2d

/-- The constructor leaves the vector consistent when updates are not suppressed. -/
lemma new_consistent (x y angle range : ℝ) (inf : Bool) :
    (new false x y angle range inf).vector.consistent := by
  rw [new_eq]
  exact ⟨(normalize_radian_angle_mem angle).1, (normalize_radian_angle_mem angle).2, rfl, rfl⟩

/-- The constructor with angle `0`, spelled out. -/
lemma new_angle_zero (x y range : ℝ) (inf : Bool) :
    new false x y 0 range inf = ⟨⟨x, y⟩, ⟨|range|, 0, 0, |range|⟩, inf⟩ := by
  rw [new_eq, normalize_radian_angle_zero, Real.cos_zero, Real.sin_zero, mul_one, mul_zero]

end hitscanner_2d

lemma collider_new_eq (x y w h : ℝ) (hw : 0 ≤ w) (hh : 0 ≤ h) :
    (basic_collider_2d.new x y w h : basic_collider_2d ℝ) = ⟨⟨x, y⟩, w / 2, h / 2⟩ := by
  have hw2 : 0 ≤ w / 2 := by positivity
  have hh2 : 0 ≤ h / 2 := by positivity
  simp [basic_collider_2d.new, basic_collider_2d.default, basic_collider_2d.set_x_pos,
    basic_collider_2d.set_y_pos, basic_collider_2d.set_width, basic_collider_2d.set_height,
    basic_collider_2d.set_width_2, basic_collider_2d.set_height_2, coordinate_2d.set_x_pos,
    coordinate_2d.set_y_pos, hw2, hh2]

/-- C1, evaluated: a finite hitscanner of range 0 at `(0, 0)`, strictly inside the box
`[-1, 1] x [-1, 1]` of `basic_collider_2d(0, 0, 2, 2)`, gets no hit. -/
theorem get_hit_inside_returns_none :
    ((basic_collider_2d.new 0 0 2 2 : basic_collider_2d ℝ).get_left_x
        < (hitscanner_2d.new false 0 0 0 0 false).get_x_pos
      ∧ (hitscanner_2d.new false 0 0 0 0 false).get_x_pos
        < (basic_collider_2d.new 0 0 2 2 : basic_collider_2d ℝ).get_right_x
      ∧ (basic_collider_2d.new 0 0 2 2 : basic_collider_2d ℝ).get_bottom_y
        < (hitscanner_2d.new false 0 0 0 0 false).get_y_pos
      ∧ (hitscanner_2d.new false 0 0 0 0 false).get_y_pos
        < (basic_collider_2d.new 0 0 2 2 : basic_collider_2d ℝ).get_top_y)
    ∧ (hitscanner_2d.new false 0 0 0 0 false).get_hit (basic_collider_2d.new 0 0 2 2) = none := by
  rw [hitscanner_2d.new_angle_zero, collider_new_eq 0 0 2 2 (by norm_num) (by norm_num)]
  simp only [hitscanner_2d.get_hit, hitscanner_2d.get_x_pos, hitscanner_2d.get_y_pos,
    basic_collider_2d.get_left_x, basic_collider_2d.get_right_x, basic_collider_2d.get_top_y,
    basic_collider_2d.get_bottom_y, coordinate_2d.get_x_pos, coordinate_2d.get_y_pos,
    fast_vector_2d.get_magnitude, hitscanner_2d.has_infinite_range]
  refine ⟨by norm_num, ?_⟩
  rw [if_neg (by norm_num), if_pos (by norm_num)]

/-- C3, evaluated: for the infinite-range hitscanner at `(0, 0)` heading along `+x` and the
single zero-size collider at `(DBL_MAX, 0)`, the single-collider `get_hit` and the naive
reference return the hit `(DBL_MAX, 0)`, while the vector overload returns none. -/
theorem get_hit_colliders_drops_far_hit :
    (hitscanner_2d.new false 0 0 0 1 true).get_hit (basic_collider_2d.new DBL_MAX 0 0 0)
        = some ⟨DBL_MAX, 0⟩
    ∧ (hitscanner_2d.new false 0 0 0 1 true).get_hit_naive [basic_collider_2d.new DBL_MAX 0 0 0]
        = some ⟨DBL_MAX, 0⟩
    ∧ (hitscanner_2d.new false 0 0 0 1 true).get_hit_colliders
        [basic_collider_2d.new DBL_MAX 0 0 0] = none := by
  have hpos := DBL_MAX_pos
  have hπ := Real.pi_pos
  rw [hitscanner_2d.new_angle_zero, collider_new_eq DBL_MAX 0 0 0 le_rfl le_rfl]
  simp only [abs_one, zero_div]
  have h1 : (⟨⟨0, 0⟩, ⟨1, 0, 0, 1⟩, true⟩ : hitscanner_2d).get_hit
      ⟨⟨DBL_MAX, 0⟩, 0, 0⟩ = some ⟨DBL_MAX, 0⟩ := by
    simp only [hitscanner_2d.get_hit, hitscanner_2d.get_x_pos, hitscanner_2d.get_y_pos,
      hitscanner_2d.get_angle, fast_vector_2d.get_angle, fast_vector_2d.get_x_comp,
      fast_vector_2d.get_y_comp, hitscanner_2d.do_range_check,
      basic_collider_2d.get_left_x, basic_collider_2d.get_right_x, basic_collider_2d.get_top_y,
      basic_collider_2d.get_bottom_y, coordinate_2d.get_x_pos, coordinate_2d.get_y_pos,
      fast_vector_2d.get_magnitude, hitscanner_2d.has_infinite_range, C_PI, C_PI_2, C_3PI_2,
      sub_zero, add_zero, if_true]
    rw [if_neg (by rintro ⟨h, -⟩; exact absurd h (not_le.mpr hpos)),
      if_neg (by rintro ⟨h, -⟩; exact one_ne_zero h),
      if_neg (by
        rintro (⟨-, h⟩ | ⟨-, h⟩ | ⟨-, h⟩ | ⟨⟨h, -⟩, -⟩ | ⟨-, h⟩)
        · exact lt_irrefl _ h
        · exact lt_irrefl _ h
        · exact absurd h (not_lt.mpr hpos.le)
        · exact absurd h (not_le.mpr (half_pos hπ))
        · exact lt_irrefl _ h),
      if_neg one_ne_zero]
    simp only [ite_self, true_or, if_true]
  have hd : (⟨DBL_MAX, 0⟩ : coordinate_2d ℝ).get_euclidean_distance_to ⟨0, 0⟩ = DBL_MAX := by
    simp only [coordinate_2d.get_euclidean_distance_to, coordinate_2d.get_x_pos,
      coordinate_2d.get_y_pos, sub_zero, mul_zero, add_zero]
    exact Real.sqrt_mul_self hpos.le
  refine ⟨h1, ?_, ?_⟩
  · rw [hitscanner_2d.get_hit_naive, List.filterMap_cons_some h1, List.filterMap_nil,
      List.argmin_singleton]
  · rw [hitscanner_2d.get_hit_colliders, hitscanner_2d.get_hit_loop, h1]
    simp only [hd, lt_irrefl, if_false, hitscanner_2d.get_hit_loop]

/-! ## Instances of the conditional theorems on concrete boxes and rays -/

/-- Witness for C7 on the half-extent-one boxes centred at `(0, 0)` and `(1, 0)`. -/
theorem fix_collision_selects_by_rule_witness :
    (⟨⟨0, 0⟩, 1, 1⟩ : basic_collider_2d ℚ).detect_collision (⟨⟨1, 0⟩, 1, 1⟩ : basic_collider_2d ℚ) = true
    ∧ ((basic_collider_2d.fix_collision_locals (⟨⟨0, 0⟩, 1, 1⟩ : basic_collider_2d ℚ) (⟨⟨1, 0⟩, 1, 1⟩ : basic_collider_2d ℚ)).smallest_overlap
        = basic_collider_2d.penetration (⟨⟨0, 0⟩, 1, 1⟩ : basic_collider_2d ℚ) (⟨⟨1, 0⟩, 1, 1⟩ : basic_collider_2d ℚ)
      ∧ ((basic_collider_2d.fix_collision_locals (⟨⟨0, 0⟩, 1, 1⟩ : basic_collider_2d ℚ) (⟨⟨1, 0⟩, 1, 1⟩ : basic_collider_2d ℚ)).x_vector,
          (basic_collider_2d.fix_collision_locals (⟨⟨0, 0⟩, 1, 1⟩ : basic_collider_2d ℚ) (⟨⟨1, 0⟩, 1, 1⟩ : basic_collider_2d ℚ)).y_vector)
          = basic_collider_2d.displacement_by_rule (⟨⟨0, 0⟩, 1, 1⟩ : basic_collider_2d ℚ) (⟨⟨1, 0⟩, 1, 1⟩ : basic_collider_2d ℚ)
      ∧ ∀ chk : Bool, ((⟨⟨0, 0⟩, 1, 1⟩ : basic_collider_2d ℚ).fix_collision (⟨⟨1, 0⟩, 1, 1⟩ : basic_collider_2d ℚ) fix_mode.MOVE_SELF chk).self.position
          = ⟨(⟨⟨0, 0⟩, 1, 1⟩ : basic_collider_2d ℚ).position.x_pos + (basic_collider_2d.displacement_by_rule (⟨⟨0, 0⟩, 1, 1⟩ : basic_collider_2d ℚ) (⟨⟨1, 0⟩, 1, 1⟩ : basic_collider_2d ℚ)).1,
             (⟨⟨0, 0⟩, 1, 1⟩ : basic_collider_2d ℚ).position.y_pos + (basic_collider_2d.displacement_by_rule (⟨⟨0, 0⟩, 1, 1⟩ : basic_collider_2d ℚ) (⟨⟨1, 0⟩, 1, 1⟩ : basic_collider_2d ℚ)).2⟩) :=
  have h : (⟨⟨0, 0⟩, 1, 1⟩ : basic_collider_2d ℚ).detect_collision (⟨⟨1, 0⟩, 1, 1⟩ : basic_collider_2d ℚ) = true := by
    norm_num [basic_collider_2d.detect_collision, basic_collider_2d.get_left_x,
      basic_collider_2d.get_right_x, basic_collider_2d.get_top_y, basic_collider_2d.get_bottom_y,
      coordinate_2d.get_x_pos, coordinate_2d.get_y_pos]
  ⟨h, basic_collider_2d.fix_collision_selects_by_rule _ _ h⟩

/-- Witness for C9 on the half-extent-one boxes centred at `(0, 0)` and `(1, 0)`, in
`MOVE_OTHER` mode with the initial check. -/
theorem fix_collision_frame_witness :
    ¬ (true = true ∧ (⟨⟨0, 0⟩, 1, 1⟩ : basic_collider_2d ℚ).detect_collision (⟨⟨1, 0⟩, 1, 1⟩ : basic_collider_2d ℚ) = false)
    ∧ ((fix_mode.MOVE_OTHER = fix_mode.MOVE_SELF →
        ((⟨⟨0, 0⟩, 1, 1⟩ : basic_collider_2d ℚ).fix_collision (⟨⟨1, 0⟩, 1, 1⟩ : basic_collider_2d ℚ) fix_mode.MOVE_OTHER true).other = (⟨⟨1, 0⟩, 1, 1⟩ : basic_collider_2d ℚ)
        ∧ ((⟨⟨0, 0⟩, 1, 1⟩ : basic_collider_2d ℚ).fix_collision (⟨⟨1, 0⟩, 1, 1⟩ : basic_collider_2d ℚ) fix_mode.MOVE_OTHER true).self.position
            = ⟨(⟨⟨0, 0⟩, 1, 1⟩ : basic_collider_2d ℚ).position.x_pos + (basic_collider_2d.fix_collision_locals (⟨⟨0, 0⟩, 1, 1⟩ : basic_collider_2d ℚ) (⟨⟨1, 0⟩, 1, 1⟩ : basic_collider_2d ℚ)).x_vector,
               (⟨⟨0, 0⟩, 1, 1⟩ : basic_collider_2d ℚ).position.y_pos + (basic_collider_2d.fix_collision_locals (⟨⟨0, 0⟩, 1, 1⟩ : basic_collider_2d ℚ) (⟨⟨1, 0⟩, 1, 1⟩ : basic_collider_2d ℚ)).y_vector⟩)
      ∧ (fix_mode.MOVE_OTHER = fix_mode.MOVE_OTHER →
        ((⟨⟨0, 0⟩, 1, 1⟩ : basic_collider_2d ℚ).fix_collision (⟨⟨1, 0⟩, 1, 1⟩ : basic_collider_2d ℚ) fix_mode.MOVE_OTHER true).self = (⟨⟨0, 0⟩, 1, 1⟩ : basic_collider_2d ℚ)
        ∧ ((⟨⟨0, 0⟩, 1, 1⟩ : basic_collider_2d ℚ).fix_collision (⟨⟨1, 0⟩, 1, 1⟩ : basic_collider_2d ℚ) fix_mode.MOVE_OTHER true).other.position
            = ⟨(⟨⟨1, 0⟩, 1, 1⟩ : basic_collider_2d ℚ).position.x_pos + -(basic_collider_2d.fix_collision_locals (⟨⟨0, 0⟩, 1, 1⟩ : basic_collider_2d ℚ) (⟨⟨1, 0⟩, 1, 1⟩ : basic_collider_2d ℚ)).x_vector,
               (⟨⟨1, 0⟩, 1, 1⟩ : basic_collider_2d ℚ).position.y_pos + -(basic_collider_2d.fix_collision_locals (⟨⟨0, 0⟩, 1, 1⟩ : basic_collider_2d ℚ) (⟨⟨1, 0⟩, 1, 1⟩ : basic_collider_2d ℚ)).y_vector⟩)
      ∧ ((⟨⟨0, 0⟩, 1, 1⟩ : basic_collider_2d ℚ).fix_collision (⟨⟨1, 0⟩, 1, 1⟩ : basic_collider_2d ℚ) fix_mode.MOVE_OTHER true).self.width_2 = (⟨⟨0, 0⟩, 1, 1⟩ : basic_collider_2d ℚ).width_2
      ∧ ((⟨⟨0, 0⟩, 1, 1⟩ : basic_collider_2d ℚ).fix_collision (⟨⟨1, 0⟩, 1, 1⟩ : basic_collider_2d ℚ) fix_mode.MOVE_OTHER true).self.height_2 = (⟨⟨0, 0⟩, 1, 1⟩ : basic_collider_2d ℚ).height_2
      ∧ ((⟨⟨0, 0⟩, 1, 1⟩ : basic_collider_2d ℚ).fix_collision (⟨⟨1, 0⟩, 1, 1⟩ : basic_collider_2d ℚ) fix_mode.MOVE_OTHER true).other.width_2 = (⟨⟨1, 0⟩, 1, 1⟩ : basic_collider_2d ℚ).width_2
      ∧ ((⟨⟨0, 0⟩, 1, 1⟩ : basic_collider_2d ℚ).fix_collision (⟨⟨1, 0⟩, 1, 1⟩ : basic_collider_2d ℚ) fix_mode.MOVE_OTHER true).other.height_2 = (⟨⟨1, 0⟩, 1, 1⟩ : basic_collider_2d ℚ).height_2) :=
  have h : (⟨⟨0, 0⟩, 1, 1⟩ : basic_collider_2d ℚ).detect_collision (⟨⟨1, 0⟩, 1, 1⟩ : basic_collider_2d ℚ) = true := by
    norm_num [basic_collider_2d.detect_collision, basic_collider_2d.get_left_x,
      basic_collider_2d.get_right_x, basic_collider_2d.get_top_y, basic_collider_2d.get_bottom_y,
      coordinate_2d.get_x_pos, coordinate_2d.get_y_pos]
  have hn : ¬ (true = true ∧ (⟨⟨0, 0⟩, 1, 1⟩ : basic_collider_2d ℚ).detect_collision (⟨⟨1, 0⟩, 1, 1⟩ : basic_collider_2d ℚ) = false) := by
    rw [h]
    simp
  ⟨hn, basic_collider_2d.fix_collision_frame _ _ fix_mode.MOVE_OTHER true hn⟩

/-! ## Theorems: resolution without the check, the concrete scenario, the half-extents -/

namespace basic_collider_2d
variable {α : Type} [LinearOrderedField α]

/-- The constructor, spelled out for non-negative extents. -/
lemma new_eq_of_nonneg (x y w h : α) (hw : 0 ≤ w) (hh : 0 ≤ h) :
    (new x y w h : basic_collider_2d α) = ⟨⟨x, y⟩, w / 2, h / 2⟩ := by
  have hw2 : 0 ≤ w / 2 := div_nonneg hw (by norm_num)
  have hh2 : 0 ≤ h / 2 := div_nonneg hh (by norm_num)
  simp only [new, default, set_x_pos, set_y_pos, set_width, set_height, set_width_2,
    set_height_2, coordinate_2d.set_x_pos, coordinate_2d.set_y_pos, ge_iff_le, hw2, hh2,
    if_true]

/-- What `set_width_2` stores. -/
lemma set_width_2_eq (c : basic_collider_2d α) (w : α) :
    c.set_width_2 w =
      if 0 ≤ w then ⟨c.position, w, c.height_2⟩
      else ⟨⟨c.position.x_pos + w, c.position.y_pos⟩, -w, c.height_2⟩ := by
  simp only [set_width_2, ge_iff_le, coordinate_2d.translate_horizontally]

/-- What `set_height_2` stores. -/
lemma set_height_2_eq (c : basic_collider_2d α) (h : α) :
    c.set_height_2 h =
      if 0 ≤ h then ⟨c.position, c.width_2, h⟩
      else ⟨⟨c.position.x_pos, c.position.y_pos + h⟩, c.width_2, -h⟩ := by
  simp only [set_height_2, ge_iff_le, coordinate_2d.translate_vertically]

lemma set_width_2_valid (c : basic_collider_2d α) (w : α) (hc : c.half_extents_nonneg) :
    (c.set_width_2 w).half_extents_nonneg := by
  rw [set_width_2_eq]
  split_ifs with h
  · exact ⟨h, hc.2⟩
  · exact ⟨by simp only; linarith [not_le.mp h], hc.2⟩

lemma set_height_2_valid (c : basic_collider_2d α) (h : α) (hc : c.half_extents_nonneg) :
    (c.set_height_2 h).half_extents_nonneg := by
  rw [set_height_2_eq]
  split_ifs with h'
  · exact ⟨hc.1, h'⟩
  · exact ⟨hc.1, by simp only; linarith [not_le.mp h']⟩

lemma fix_collision_extents (A B : basic_collider_2d α) (mode : fix_mode) (chk : Bool) :
    (A.fix_collision B mode chk).self.width_2 = A.width_2
    ∧ (A.fix_collision B mode chk).self.height_2 = A.height_2
    ∧ (A.fix_collision B mode chk).other.width_2 = B.width_2
    ∧ (A.fix_collision B mode chk).other.height_2 = B.height_2 := by
  by_cases hc : chk = true ∧ A.detect_collision B = false
  · obtain ⟨h1, h2⟩ := hc
    subst h1
    rw [fix_collision_of_check_fails A B mode h2]
    exact ⟨rfl, rfl, rfl, rfl⟩
  · cases mode
    · rw [fix_collision_move_self A B chk hc]; exact ⟨rfl, rfl, rfl, rfl⟩
    · rw [fix_collision_move_other A B chk hc]; exact ⟨rfl, rfl, rfl, rfl⟩
    · rw [fix_collision_move_both A B chk hc]; exact ⟨rfl, rfl, rfl, rfl⟩

/-- C11 (as amended): with the initial check switched off `fix_collision` always resolves, and
the candidate it selects is the one with the smallest signed value among `right - other.left`,
`top - other.bottom`, `other.right - left`, `other.top - bottom`, for every pair of colliders;
when the boxes overlap the four candidates are non-negative, so the selected one is then
also the one of smallest magnitude. -/
theorem fix_collision_unchecked_selects_signed_minimum (A B : basic_collider_2d α) :
    (∀ mode : fix_mode, (A.fix_collision B mode false).ret = true)
    ∧ (A.fix_collision B fix_mode.MOVE_SELF false).self.position
        = ⟨A.position.x_pos + (fix_collision_locals A B).x_vector,
           A.position.y_pos + (fix_collision_locals A B).y_vector⟩
    ∧ (|(fix_collision_locals A B).x_vector| + |(fix_collision_locals A B).y_vector|
        = |(fix_collision_locals A B).smallest_overlap|)
    ∧ ((fix_collision_locals A B).smallest_overlap = push_left A B
        ∨ (fix_collision_locals A B).smallest_overlap = push_down A B
        ∨ (fix_collision_locals A B).smallest_overlap = push_right A B
        ∨ (fix_collision_locals A B).smallest_overlap = push_up A B)
    ∧ ((fix_collision_locals A B).smallest_overlap ≤ push_left A B
        ∧ (fix_collision_locals A B).smallest_overlap ≤ push_down A B
        ∧ (fix_collision_locals A B).smallest_overlap ≤ push_right A B
        ∧ (fix_collision_locals A B).smallest_overlap ≤ push_up A B)
    ∧ (A.detect_collision B = true →
        |(fix_collision_locals A B).smallest_overlap| ≤ |push_left A B|
        ∧ |(fix_collision_locals A B).smallest_overlap| ≤ |push_down A B|
        ∧ |(fix_collision_locals A B).smallest_overlap| ≤ |push_right A B|
        ∧ |(fix_collision_locals A B).smallest_overlap| ≤ |push_up A B|) := by
  have hle : (fix_collision_locals A B).smallest_overlap ≤ push_left A B
      ∧ (fix_collision_locals A B).smallest_overlap ≤ push_down A B
      ∧ (fix_collision_locals A B).smallest_overlap ≤ push_right A B
      ∧ (fix_collision_locals A B).smallest_overlap ≤ push_up A B := by
    rcases fix_collision_locals_cases A B with ⟨h1, h2, h3, e⟩ | ⟨h1, h2, h3, e⟩ |
      ⟨h1, h2, h3, e⟩ | ⟨h1, h2, h3, e⟩ <;> rw [e] <;> dsimp only <;>
      refine ⟨?_, ?_, ?_, ?_⟩ <;> linarith
  refine ⟨?_, ?_, ?_, ?_, hle, ?_⟩
  · intro mode
    cases mode
    · rw [fix_collision_move_self A B false (by simp)]
    · rw [fix_collision_move_other A B false (by simp)]
    · rw [fix_collision_move_both A B false (by simp)]
  · rw [fix_collision_move_self A B false (by simp)]
  · rcases fix_collision_locals_cases A B with ⟨h1, h2, h3, e⟩ | ⟨h1, h2, h3, e⟩ |
      ⟨h1, h2, h3, e⟩ | ⟨h1, h2, h3, e⟩ <;> rw [e] <;> simp
  · rcases fix_collision_locals_cases A B with ⟨h1, h2, h3, e⟩ | ⟨h1, h2, h3, e⟩ |
      ⟨h1, h2, h3, e⟩ | ⟨h1, h2, h3, e⟩ <;> rw [e] <;> simp
  · intro hd
    have hs := penetration_nonneg A B hd
    rw [← fix_collision_locals_smallest A B] at hs
    obtain ⟨l1, l2, l3, l4⟩ := hle
    rw [abs_of_nonneg hs]
    exact ⟨l1.trans (le_abs_self _), l2.trans (le_abs_self _), l3.trans (le_abs_self _),
      l4.trans (le_abs_self _)⟩

end basic_collider_2d

/-- C11, counterexample: for `A = basic_collider_2d(0, 0, 2, 2)` and
`B = basic_collider_2d(10, 0, 2, 2)`, which do not overlap, `fix_collision` without the initial
check selects `right - other.left = -8` (and moves `A` to `(8, 0)`), although the candidate
`top - other.bottom = 2` has a smaller magnitude. -/
theorem fix_collision_unchecked_not_smallest_magnitude :
    (basic_collider_2d.new 0 0 2 2 : basic_collider_2d ℚ).detect_collision
        (basic_collider_2d.new 10 0 2 2) = false
    ∧ (basic_collider_2d.fix_collision_locals (basic_collider_2d.new 0 0 2 2 : basic_collider_2d ℚ)
        (basic_collider_2d.new 10 0 2 2)).smallest_overlap = -8
    ∧ basic_collider_2d.push_down (basic_collider_2d.new 0 0 2 2 : basic_collider_2d ℚ)
        (basic_collider_2d.new 10 0 2 2) = 2
    ∧ ((basic_collider_2d.new 0 0 2 2 : basic_collider_2d ℚ).fix_collision
        (basic_collider_2d.new 10 0 2 2) fix_mode.MOVE_SELF false).self.position = ⟨8, 0⟩
    ∧ ¬ (|(basic_collider_2d.fix_collision_locals
          (basic_collider_2d.new 0 0 2 2 : basic_collider_2d ℚ)
          (basic_collider_2d.new 10 0 2 2)).smallest_overlap|
        ≤ |basic_collider_2d.push_down (basic_collider_2d.new 0 0 2 2 : basic_collider_2d ℚ)
          (basic_collider_2d.new 10 0 2 2)|) := by
  rw [basic_collider_2d.new_eq_of_nonneg 0 0 2 2 (by norm_num) (by norm_num),
    basic_collider_2d.new_eq_of_nonneg 10 0 2 2 (by norm_num) (by norm_num)]
  have hl : basic_collider_2d.fix_collision_locals (⟨⟨0, 0⟩, 2 / 2, 2 / 2⟩ : basic_collider_2d ℚ)
      ⟨⟨10, 0⟩, 2 / 2, 2 / 2⟩ = ⟨-8, 8, 0⟩ := by
    norm_num [basic_collider_2d.fix_collision_locals, basic_collider_2d.get_left_x,
      basic_collider_2d.get_right_x, basic_collider_2d.get_top_y, basic_collider_2d.get_bottom_y,
      coordinate_2d.get_x_pos, coordinate_2d.get_y_pos]
  have hd : (⟨⟨0, 0⟩, 2 / 2, 2 / 2⟩ : basic_collider_2d ℚ).detect_collision
      ⟨⟨10, 0⟩, 2 / 2, 2 / 2⟩ = false := by
    norm_num [basic_collider_2d.detect_collision, basic_collider_2d.get_left_x,
      basic_collider_2d.get_right_x, basic_collider_2d.get_top_y, basic_collider_2d.get_bottom_y,
      coordinate_2d.get_x_pos, coordinate_2d.get_y_pos]
  have hp : basic_collider_2d.push_down (⟨⟨0, 0⟩, 2 / 2, 2 / 2⟩ : basic_collider_2d ℚ)
      ⟨⟨10, 0⟩, 2 / 2, 2 / 2⟩ = 2 := by
    norm_num [basic_collider_2d.push_down, basic_collider_2d.get_top_y,
      basic_collider_2d.get_bottom_y, coordinate_2d.get_y_pos]
  refine ⟨hd, ?_, hp, ?_, ?_⟩
  · rw [hl]
  · rw [basic_collider_2d.fix_collision_move_self _ _ false (by simp), hl]
    norm_num
  · rw [hl, hp]
    norm_num

/-- The scenario of C12 and C13, evaluated: the result of `A.fix_collision(B, MOVE_SELF, true)`
for `A = basic_collider_2d(0, 0, 2, 2)` and `B = basic_collider_2d(1, 0, 2, 2)`. -/
lemma fix_collision_scenario :
    (basic_collider_2d.new 0 0 2 2 : basic_collider_2d ℚ).fix_collision
        (basic_collider_2d.new 1 0 2 2) fix_mode.MOVE_SELF true
      = ⟨true, ⟨⟨-1, 0⟩, 1, 1⟩, ⟨⟨1, 0⟩, 1, 1⟩⟩ := by
  rw [basic_collider_2d.new_eq_of_nonneg 0 0 2 2 (by norm_num) (by norm_num),
    basic_collider_2d.new_eq_of_nonneg 1 0 2 2 (by norm_num) (by norm_num)]
  have hd : (⟨⟨0, 0⟩, 2 / 2, 2 / 2⟩ : basic_collider_2d ℚ).detect_collision
      ⟨⟨1, 0⟩, 2 / 2, 2 / 2⟩ = true := by
    norm_num [basic_collider_2d.detect_collision, basic_collider_2d.get_left_x,
      basic_collider_2d.get_right_x, basic_collider_2d.get_top_y, basic_collider_2d.get_bottom_y,
      coordinate_2d.get_x_pos, coordinate_2d.get_y_pos]
  have hl : basic_collider_2d.fix_collision_locals (⟨⟨0, 0⟩, 2 / 2, 2 / 2⟩ : basic_collider_2d ℚ)
      ⟨⟨1, 0⟩, 2 / 2, 2 / 2⟩ = ⟨1, -1, 0⟩ := by
    norm_num [basic_collider_2d.fix_collision_locals, basic_collider_2d.get_left_x,
      basic_collider_2d.get_right_x, basic_collider_2d.get_top_y, basic_collider_2d.get_bottom_y,
      coordinate_2d.get_x_pos, coordinate_2d.get_y_pos]
  rw [basic_collider_2d.fix_collision_move_self _ _ true
    (by rintro ⟨-, h⟩; rw [hd] at h; exact Bool.noConfusion h), hl]
  norm_num

/-- C12: with `A = basic_collider_2d(0, 0, 2, 2)` and `B = basic_collider_2d(1, 0, 2, 2)`,
`A.fix_collision(B, MOVE_SELF, true)` returns true, displaces `A` by exactly one unit
leftward, to the centre `(-1, 0)`, and leaves `B` unchanged. -/
theorem fix_collision_scenario_one_unit_left :
    ((basic_collider_2d.new 0 0 2 2 : basic_collider_2d ℚ).fix_collision
        (basic_collider_2d.new 1 0 2 2) fix_mode.MOVE_SELF true).ret = true
    ∧ ((basic_collider_2d.new 0 0 2 2 : basic_collider_2d ℚ).fix_collision
        (basic_collider_2d.new 1 0 2 2) fix_mode.MOVE_SELF true).self.position.x_pos
        = (basic_collider_2d.new 0 0 2 2 : basic_collider_2d ℚ).position.x_pos - 1
    ∧ ((basic_collider_2d.new 0 0 2 2 : basic_collider_2d ℚ).fix_collision
        (basic_collider_2d.new 1 0 2 2) fix_mode.MOVE_SELF true).self.position.y_pos
        = (basic_collider_2d.new 0 0 2 2 : basic_collider_2d ℚ).position.y_pos
    ∧ ((basic_collider_2d.new 0 0 2 2 : basic_collider_2d ℚ).fix_collision
        (basic_collider_2d.new 1 0 2 2) fix_mode.MOVE_SELF true).self.position = ⟨-1, 0⟩
    ∧ ((basic_collider_2d.new 0 0 2 2 : basic_collider_2d ℚ).fix_collision
        (basic_collider_2d.new 1 0 2 2) fix_mode.MOVE_SELF true).other
        = basic_collider_2d.new 1 0 2 2 := by
  rw [fix_collision_scenario,
    basic_collider_2d.new_eq_of_nonneg 0 0 2 2 (by norm_num) (by norm_num),
    basic_collider_2d.new_eq_of_nonneg 1 0 2 2 (by norm_num) (by norm_num)]
  norm_num

/-- C13, counterexample: in the scenario `A = basic_collider_2d(0, 0, 2, 2)`,
`B = basic_collider_2d(1, 0, 2, 2)`, the centre of `A` after
`A.fix_collision(B, MOVE_SELF, true)` is not `(-0.5, 0)`. -/
theorem fix_collision_scenario_not_half_unit :
    ¬ (((basic_collider_2d.new 0 0 2 2 : basic_collider_2d ℚ).fix_collision
        (basic_collider_2d.new 1 0 2 2) fix_mode.MOVE_SELF true).self.position
        = ⟨-(1 / 2), 0⟩) := by
  rw [fix_collision_scenario]
  norm_num

/-- C13 (as amended): in the scenario `A = basic_collider_2d(0, 0, 2, 2)`,
`B = basic_collider_2d(1, 0, 2, 2)`, the centre of `A` after
`A.fix_collision(B, MOVE_SELF, true)` is `(-1, 0)`: in `MOVE_SELF` mode `A` takes the whole
overlap of one unit, not half of it. -/
theorem fix_collision_scenario_centre :
    ((basic_collider_2d.new 0 0 2 2 : basic_collider_2d ℚ).fix_collision
        (basic_collider_2d.new 1 0 2 2) fix_mode.MOVE_SELF true).self.position = ⟨-1, 0⟩
    ∧ basic_collider_2d.penetration (basic_collider_2d.new 0 0 2 2 : basic_collider_2d ℚ)
        (basic_collider_2d.new 1 0 2 2) = 1 := by
  refine ⟨by rw [fix_collision_scenario], ?_⟩
  rw [basic_collider_2d.new_eq_of_nonneg 0 0 2 2 (by norm_num) (by norm_num),
    basic_collider_2d.new_eq_of_nonneg 1 0 2 2 (by norm_num) (by norm_num)]
  norm_num [basic_collider_2d.penetration, basic_collider_2d.push_left,
    basic_collider_2d.push_down, basic_collider_2d.push_right, basic_collider_2d.push_up,
    basic_collider_2d.get_left_x, basic_collider_2d.get_right_x, basic_collider_2d.get_top_y,
    basic_collider_2d.get_bottom_y, coordinate_2d.get_x_pos, coordinate_2d.get_y_pos]

namespace basic_collider_2d
variable {α : Type} [LinearOrderedField α]

/-- C14: the default constructor and the four-argument constructor build colliders with
non-negative half-extents, and every mutating operation (`set_width`, `set_height`,
`set_width_2`, `set_height_2`, `set_x_pos`, `set_y_pos`, the two translations, assignment,
copy construction, `fix_collision` in every mode, on either collider) keeps them
non-negative; a negative `w` passed to `set_width_2` or `set_height_2` is stored as `-w` and
the centre is shifted by `w` along that axis.  All operations are total: none can fail. -/
theorem half_extents_nonneg_invariant (c : basic_collider_2d α)
    (hc : c.half_extents_nonneg) :
    (default : basic_collider_2d α).half_extents_nonneg
    ∧ (∀ x y w h : α, (new x y w h).half_extents_nonneg)
    ∧ (∀ a : α, (c.set_width a).half_extents_nonneg ∧ (c.set_height a).half_extents_nonneg
        ∧ (c.set_width_2 a).half_extents_nonneg ∧ (c.set_height_2 a).half_extents_nonneg
        ∧ (c.set_x_pos a).half_extents_nonneg ∧ (c.set_y_pos a).half_extents_nonneg
        ∧ (c.translate_horizontally a).half_extents_nonneg
        ∧ (c.translate_vertically a).half_extents_nonneg)
    ∧ (∀ other : basic_collider_2d α, other.half_extents_nonneg →
        (copy other).half_extents_nonneg ∧ (c.assign other).half_extents_nonneg
        ∧ ∀ (mode : fix_mode) (chk : Bool),
            (c.fix_collision other mode chk).self.half_extents_nonneg
            ∧ (c.fix_collision other mode chk).other.half_extents_nonneg)
    ∧ (∀ w : α, w < 0 →
        (c.set_width_2 w).width_2 = -w
        ∧ (c.set_width_2 w).position = ⟨c.position.x_pos + w, c.position.y_pos⟩
        ∧ (c.set_width_2 w).height_2 = c.height_2)
    ∧ (∀ h : α, h < 0 →
        (c.set_height_2 h).height_2 = -h
        ∧ (c.set_height_2 h).position = ⟨c.position.x_pos, c.position.y_pos + h⟩
        ∧ (c.set_height_2 h).width_2 = c.width_2) := by
  have hd : (default : basic_collider_2d α).half_extents_nonneg := ⟨le_refl _, le_refl _⟩
  refine ⟨hd, ?_, ?_, ?_, ?_, ?_⟩
  · intro x y w h
    exact set_height_2_valid _ _ (set_width_2_valid _ _ hd)
  · intro a
    exact ⟨set_width_2_valid _ _ hc, set_height_2_valid _ _ hc, set_width_2_valid _ _ hc,
      set_height_2_valid _ _ hc, hc, hc, hc, hc⟩
  · intro other ho
    refine ⟨ho, ho, ?_⟩
    intro mode chk
    obtain ⟨e1, e2, e3, e4⟩ := fix_collision_extents c other mode chk
    exact ⟨⟨e1 ▸ hc.1, e2 ▸ hc.2⟩, ⟨e3 ▸ ho.1, e4 ▸ ho.2⟩⟩
  · intro w hw
    rw [set_width_2_eq, if_neg (not_le.mpr hw)]
    exact ⟨rfl, rfl, rfl⟩
  · intro h hh
    rw [set_height_2_eq, if_neg (not_le.mpr hh)]
    exact ⟨rfl, rfl, rfl⟩

/-- The horizontal edges of a collider constructed with a negative width. -/
lemma new_edges_of_neg_width (x y width height : α) (hw : width < 0) :
    (new x y width height).get_left_x = x + width ∧ (new x y width height).get_right_x = x := by
  have hw2 : ¬ (0 ≤ width / 2) := by
    rw [not_le]
    exact div_neg_of_neg_of_pos hw (by norm_num)
  simp only [new, set_width, set_height, set_width_2_eq, set_height_2_eq, if_neg hw2]
  split_ifs <;>
    simp only [get_left_x, get_right_x, default, set_x_pos, set_y_pos, coordinate_2d.set_x_pos,
      coordinate_2d.set_y_pos, coordinate_2d.get_x_pos] <;>
    constructor <;> ring

/-- The vertical edges of a collider constructed with a negative height. -/
lemma new_edges_of_neg_height (x y width height : α) (hh : height < 0) :
    (new x y width height).get_bottom_y = y + height
      ∧ (new x y width height).get_top_y = y := by
  have hh2 : ¬ (0 ≤ height / 2) := by
    rw [not_le]
    exact div_neg_of_neg_of_pos hh (by norm_num)
  simp only [new, set_width, set_height, set_width_2_eq, set_height_2_eq, if_neg hh2]
  split_ifs <;>
    simp only [get_bottom_y, get_top_y, default, set_x_pos, set_y_pos, coordinate_2d.set_x_pos,
      coordinate_2d.set_y_pos, coordinate_2d.get_y_pos] <;>
    constructor <;> ring

end basic_collider_2d

/-- C15, counterexample: `basic_collider_2d(0, 0, -2, 2)` covers `[-2, 0]` horizontally, not
`[0 - |-2| / 2, 0 + |-2| / 2] = [-1, 1]`. -/
theorem new_negative_width_not_centred :
    (basic_collider_2d.new 0 0 (-2) 2 : basic_collider_2d ℚ).get_left_x = -2
    ∧ (basic_collider_2d.new 0 0 (-2) 2 : basic_collider_2d ℚ).get_right_x = 0
    ∧ ¬ ((basic_collider_2d.new 0 0 (-2) 2 : basic_collider_2d ℚ).get_left_x = 0 - |(-2)| / 2
        ∧ (basic_collider_2d.new 0 0 (-2) 2 : basic_collider_2d ℚ).get_right_x
            = 0 + |(-2)| / 2) := by
  obtain ⟨h1, h2⟩ := basic_collider_2d.new_edges_of_neg_width (0 : ℚ) 0 (-2) 2 (by norm_num)
  rw [h1, h2]
  norm_num

/-- Witness for C14 on the box of half-extents one centred at `(0, 0)`. -/
theorem half_extents_nonneg_invariant_witness :
    (⟨⟨0, 0⟩, 1, 1⟩ : basic_collider_2d ℚ).half_extents_nonneg
    ∧ ((basic_collider_2d.default : basic_collider_2d ℚ).half_extents_nonneg
      ∧ (∀ x y w h : ℚ, (basic_collider_2d.new x y w h).half_extents_nonneg)
      ∧ (∀ a : ℚ,
          ((⟨⟨0, 0⟩, 1, 1⟩ : basic_collider_2d ℚ).set_width a).half_extents_nonneg
          ∧ ((⟨⟨0, 0⟩, 1, 1⟩ : basic_collider_2d ℚ).set_height a).half_extents_nonneg
          ∧ ((⟨⟨0, 0⟩, 1, 1⟩ : basic_collider_2d ℚ).set_width_2 a).half_extents_nonneg
          ∧ ((⟨⟨0, 0⟩, 1, 1⟩ : basic_collider_2d ℚ).set_height_2 a).half_extents_nonneg
          ∧ ((⟨⟨0, 0⟩, 1, 1⟩ : basic_collider_2d ℚ).set_x_pos a).half_extents_nonneg
          ∧ ((⟨⟨0, 0⟩, 1, 1⟩ : basic_collider_2d ℚ).set_y_pos a).half_extents_nonneg
          ∧ ((⟨⟨0, 0⟩, 1, 1⟩ : basic_collider_2d ℚ).translate_horizontally a).half_extents_nonneg
          ∧ ((⟨⟨0, 0⟩, 1, 1⟩ : basic_collider_2d ℚ).translate_vertically a).half_extents_nonneg)
      ∧ (∀ other : basic_collider_2d ℚ, other.half_extents_nonneg →
          (basic_collider_2d.copy other).half_extents_nonneg
          ∧ ((⟨⟨0, 0⟩, 1, 1⟩ : basic_collider_2d ℚ).assign other).half_extents_nonneg
          ∧ ∀ (mode : fix_mode) (chk : Bool),
              ((⟨⟨0, 0⟩, 1, 1⟩ : basic_collider_2d ℚ).fix_collision other mode
                chk).self.half_extents_nonneg
              ∧ ((⟨⟨0, 0⟩, 1, 1⟩ : basic_collider_2d ℚ).fix_collision other mode
                chk).other.half_extents_nonneg)
      ∧ (∀ w : ℚ, w < 0 →
          ((⟨⟨0, 0⟩, 1, 1⟩ : basic_collider_2d ℚ).set_width_2 w).width_2 = -w
          ∧ ((⟨⟨0, 0⟩, 1, 1⟩ : basic_collider_2d ℚ).set_width_2 w).position
              = ⟨(⟨⟨0, 0⟩, 1, 1⟩ : basic_collider_2d ℚ).position.x_pos + w,
                 (⟨⟨0, 0⟩, 1, 1⟩ : basic_collider_2d ℚ).position.y_pos⟩
          ∧ ((⟨⟨0, 0⟩, 1, 1⟩ : basic_collider_2d ℚ).set_width_2 w).height_2
              = (⟨⟨0, 0⟩, 1, 1⟩ : basic_collider_2d ℚ).height_2)
      ∧ (∀ h : ℚ, h < 0 →
          ((⟨⟨0, 0⟩, 1, 1⟩ : basic_collider_2d ℚ).set_height_2 h).height_2 = -h
          ∧ ((⟨⟨0, 0⟩, 1, 1⟩ : basic_collider_2d ℚ).set_height_2 h).position
              = ⟨(⟨⟨0, 0⟩, 1, 1⟩ : basic_collider_2d ℚ).position.x_pos,
                 (⟨⟨0, 0⟩, 1, 1⟩ : basic_collider_2d ℚ).position.y_pos + h⟩
          ∧ ((⟨⟨0, 0⟩, 1, 1⟩ : basic_collider_2d ℚ).set_height_2 h).width_2
              = (⟨⟨0, 0⟩, 1, 1⟩ : basic_collider_2d ℚ).width_2)) :=
  have hc : (⟨⟨0, 0⟩, 1, 1⟩ : basic_collider_2d ℚ).half_extents_nonneg :=
    ⟨zero_le_one, zero_le_one⟩
  ⟨hc, basic_collider_2d.half_extents_nonneg_invariant _ hc⟩

/-! ## Theorems: range of a hitscanner -/

lemma dist_self (p : coordinate_2d ℝ) : p.get_euclidean_distance_to p = 0 := by
  simp only [coordinate_2d.get_euclidean_distance_to, coordinate_2d.get_x_pos,
    coordinate_2d.get_y_pos, sub_self, mul_zero, add_zero, Real.sqrt_zero]

namespace hitscanner_2d

/-- What a successful `do_range_check` of a finite hitscanner guarantees. -/
lemma do_range_check_some (self : hitscanner_2d) (P p : coordinate_2d ℝ)
    (hinf : self.infinite_range = false) (h : self.do_range_check P = some p) :
    self.position.get_euclidean_distance_to p ≤ |self.vector.magnitude| := by
  simp only [do_range_check, has_infinite_range, hinf, Bool.false_eq_true, false_or,
    fast_vector_2d.get_magnitude] at h
  split_ifs at h with hle
  cases h
  exact hle

/-- C16: a finite hitscanner of range 0 whose origin lies outside the closed box of a collider
(of non-negative height, as every collider is) gets no hit from `get_hit`, whatever its angle
and components. -/
theorem get_hit_zero_range_outside (self : hitscanner_2d) (C : basic_collider_2d ℝ)
    (hh : 0 ≤ C.height_2) (hr : self.get_range = 0) (hinf : self.infinite_range = false)
    (hout : ¬ C.closed_box self.position) :
    self.get_hit C = none := by
  have hBT : C.get_bottom_y ≤ C.get_top_y := by
    simp only [basic_collider_2d.get_bottom_y, basic_collider_2d.get_top_y]; linarith
  have hins : ¬ (self.get_x_pos ≥ C.get_left_x ∧ self.get_x_pos ≤ C.get_right_x
      ∧ self.get_y_pos ≥ C.get_top_y ∧ self.get_y_pos ≤ C.get_bottom_y) := by
    rintro ⟨h1, h2, h3, h4⟩
    apply hout
    simp only [get_x_pos, get_y_pos, coordinate_2d.get_x_pos, coordinate_2d.get_y_pos,
      ge_iff_le] at h1 h2 h3 h4
    exact ⟨h1, h2, by linarith, by linarith⟩
  have hz : self.vector.get_magnitude = 0 ∧ ¬ (self.has_infinite_range = true) := by
    refine ⟨hr, ?_⟩
    simp only [has_infinite_range, hinf, Bool.false_eq_true, not_false_eq_true]
  rw [get_hit, if_neg hins, if_pos hz]

/-- C17: for a hitscanner with finite range (and a non-negative range, as every hitscanner
has), a point returned by `get_hit` lies at Euclidean distance at most the range from the
origin. -/
theorem get_hit_within_range (self : hitscanner_2d) (C : basic_collider_2d ℝ)
    (hinf : self.infinite_range = false) (hr : 0 ≤ self.get_range) (p : coordinate_2d ℝ)
    (h : self.get_hit C = some p) :
    self.position.get_euclidean_distance_to p ≤ self.get_range := by
  have hm : |self.vector.magnitude| = self.get_range := abs_of_nonneg hr
  simp only [get_hit] at h
  split_ifs at h <;>
    first
    | (cases h; rw [dist_self]; exact hr)
    | (rw [← hm]; exact do_range_check_some self _ p hinf h)

end hitscanner_2d

lemma normalize_radian_angle_pi_div_two :
    math_helper.normalize_radian_angle (Real.pi / 2) = Real.pi / 2 := by
  have hπ := Real.pi_pos
  have h : Real.pi / 2 / (2 * Real.pi) = 1 / 4 := by
    field_simp
    ring
  have hf : ⌊(1 / 4 : ℝ)⌋ = 0 := by
    rw [Int.floor_eq_zero_iff]
    constructor <;> norm_num
  simp only [math_helper.normalize_radian_angle, math_helper.normalize_value_to_range, C_2PI, h,
    hf, Int.cast_zero, zero_mul, sub_zero]

namespace hitscanner_2d

/-- The value of `get_hit` for a ray heading along `+x` (angle 0, non-zero magnitude) that
starts left of the box, level with it: the range check of the point of the left edge. -/
lemma get_hit_east (x y m : ℝ) (inf : Bool) (C : basic_collider_2d ℝ) (hm : m ≠ 0)
    (hLR : C.get_left_x ≤ C.get_right_x) (hx : x < C.get_left_x)
    (hy1 : C.get_bottom_y ≤ y) (hy2 : y ≤ C.get_top_y) :
    (⟨⟨x, y⟩, ⟨m, 0, 0, m⟩, inf⟩ : hitscanner_2d).get_hit C
      = (⟨⟨x, y⟩, ⟨m, 0, 0, m⟩, inf⟩ : hitscanner_2d).do_range_check ⟨C.get_left_x, y⟩ := by
  have hπ := Real.pi_pos
  simp only [get_hit, get_x_pos, get_y_pos, get_angle, fast_vector_2d.get_angle,
    fast_vector_2d.get_x_comp, fast_vector_2d.get_y_comp, fast_vector_2d.get_magnitude,
    coordinate_2d.get_x_pos, coordinate_2d.get_y_pos, C_PI, C_PI_2, C_3PI_2, if_true]
  rw [if_neg (by rintro ⟨h, -⟩; exact absurd h (not_le.mpr hx)),
    if_neg (by rintro ⟨h, -⟩; exact hm h),
    if_neg (by
      rintro (⟨-, h⟩ | ⟨h, -⟩ | ⟨-, h⟩ | ⟨⟨h, -⟩, -⟩ | ⟨-, h⟩)
      · exact absurd h (not_lt.mpr hy2)
      · exact absurd h (not_le.mpr hπ)
      · exact absurd h (not_lt.mpr (hx.le.trans hLR))
      · exact absurd h (not_le.mpr (half_pos hπ))
      · exact absurd h (not_lt.mpr hy1)),
    if_neg hm, if_pos (Or.inl (half_pos hπ))]

/-- The value of `get_hit` for a hitscanner of infinite range whose cartesian components are
both zero: whatever the angle below `π`, the vertical branch answers with the point of the
bottom edge above or below the origin. -/
lemma get_hit_zero_components (x y : ℝ) (C : basic_collider_2d ℝ)
    (hx : x < C.get_left_x)
    (hLR : C.get_left_x ≤ C.get_right_x) (hy1 : C.get_bottom_y ≤ y) (hy2 : y ≤ C.get_top_y) :
    (⟨⟨x, y⟩, ⟨0, 0, 0, 0⟩, true⟩ : hitscanner_2d).get_hit C = some ⟨x, C.get_bottom_y⟩ := by
  have hπ := Real.pi_pos
  simp only [get_hit, get_x_pos, get_y_pos, get_angle, fast_vector_2d.get_angle,
    fast_vector_2d.get_x_comp, fast_vector_2d.get_y_comp, fast_vector_2d.get_magnitude,
    coordinate_2d.get_x_pos, coordinate_2d.get_y_pos, C_PI, C_PI_2, C_3PI_2, if_true,
    do_range_check, has_infinite_range, true_or]
  rw [if_neg (by rintro ⟨h, -⟩; exact absurd h (not_le.mpr hx)),
    if_neg (by rintro ⟨-, h⟩; exact h trivial),
    if_neg (by
      rintro (⟨-, h⟩ | ⟨h, -⟩ | ⟨-, h⟩ | ⟨⟨h, -⟩, -⟩ | ⟨-, h⟩)
      · exact absurd h (not_lt.mpr hy2)
      · exact absurd h (not_le.mpr hπ)
      · exact absurd h (not_lt.mpr (hx.le.trans hLR))
      · exact absurd h (not_le.mpr (half_pos hπ))
      · exact absurd h (not_lt.mpr hy1)),
    if_pos hπ]

end hitscanner_2d

namespace fast_vector_2d

lemma update_cartesian_values_magnitude (s : Bool) (v : fast_vector_2d) :
    (update_cartesian_values s v).magnitude = v.magnitude := by
  cases s <;> simp only [update_cartesian_values, Bool.false_eq_true, if_false, if_true]

lemma new_polar_magnitude (s : Bool) (m a : ℝ) (u : Bool) :
    (new_polar s m a u).magnitude = m := by
  simp only [new_polar, set_angle, set_magnitude, update_cartesian_values_magnitude]

end fast_vector_2d

namespace hitscanner_2d

lemma set_range_get_range (s : Bool) (h : hitscanner_2d) (r : ℝ) :
    (h.set_range s r).get_range = |r| := by
  simp only [set_range, get_range, fast_vector_2d.get_magnitude, fast_vector_2d.set_magnitude,
    fast_vector_2d.update_cartesian_values_magnitude]

lemma set_angle_get_range (s : Bool) (h : hitscanner_2d) (a : ℝ) :
    (h.set_angle s a).get_range = h.get_range := by
  simp only [set_angle, get_range, fast_vector_2d.get_magnitude, fast_vector_2d.set_angle,
    fast_vector_2d.update_cartesian_values_magnitude]

/-- With infinite range and a non-zero magnitude, `get_hit` does not depend on the
magnitude: the components only enter through their zero tests and their quotient. -/
lemma get_hit_infinite_scale (x y θ m : ℝ) (hm : m ≠ 0) (C : basic_collider_2d ℝ) :
    (⟨⟨x, y⟩, ⟨m * Real.cos θ, m * Real.sin θ, θ, m⟩, true⟩ : hitscanner_2d).get_hit C
      = (⟨⟨x, y⟩, ⟨Real.cos θ, Real.sin θ, θ, 1⟩, true⟩ : hitscanner_2d).get_hit C := by
  simp only [get_hit, get_x_pos, get_y_pos, get_angle, fast_vector_2d.get_angle,
    fast_vector_2d.get_x_comp, fast_vector_2d.get_y_comp, fast_vector_2d.get_magnitude,
    coordinate_2d.get_x_pos, coordinate_2d.get_y_pos, if_true,
    do_range_check, has_infinite_range, true_or, mul_eq_zero, hm, false_or, one_ne_zero,
    mul_div_mul_left _ _ hm, not_true_eq_false, and_false, if_false]

/-- With infinite range, two non-zero ranges give the same `get_hit` result. -/
lemma get_hit_infinite_nonzero_ranges (x y a r1 r2 : ℝ) (h1 : r1 ≠ 0) (h2 : r2 ≠ 0)
    (C : basic_collider_2d ℝ) :
    (new false x y a r1 true).get_hit C = (new false x y a r2 true).get_hit C := by
  rw [new_eq, new_eq, get_hit_infinite_scale _ _ _ _ (abs_ne_zero.mpr h1),
    get_hit_infinite_scale _ _ _ _ (abs_ne_zero.mpr h2)]

/-- C20: the default constructor, the five-argument constructor and the copy constructor
build hitscanners with `get_range() >= 0`, and every mutator (`set_range` with an argument of
any sign, `set_vector` with any vector, `set_angle`, `set_position`, `set_x_pos`, `set_y_pos`,
the two infinite-range setters, assignment from another hitscanner) keeps
`get_range() >= 0`, whether or not vector updates are suppressed. -/
theorem get_range_nonneg_invariant (h : hitscanner_2d) (hh : 0 ≤ h.get_range) (s : Bool) :
    0 ≤ (default s).get_range
    ∧ (∀ (x y a r : ℝ) (inf : Bool), 0 ≤ (new s x y a r inf).get_range)
    ∧ (∀ r : ℝ, 0 ≤ (h.set_range s r).get_range)
    ∧ (∀ v : fast_vector_2d, 0 ≤ (h.set_vector s v).get_range)
    ∧ (∀ a : ℝ, 0 ≤ (h.set_angle s a).get_range)
    ∧ (∀ p : coordinate_2d ℝ, 0 ≤ (h.set_position p).get_range)
    ∧ (∀ a : ℝ, 0 ≤ (h.set_x_pos a).get_range ∧ 0 ≤ (h.set_y_pos a).get_range)
    ∧ (∀ b : Bool, 0 ≤ (h.make_range_infinite b).get_range)
    ∧ 0 ≤ h.toggle_infinite_range.get_range
    ∧ (∀ rhs : hitscanner_2d, 0 ≤ rhs.get_range →
        0 ≤ (h.assign rhs).get_range ∧ 0 ≤ (copy s rhs).get_range) := by
  refine ⟨?_, ?_, ?_, ?_, ?_, ?_, ?_, ?_, ?_, ?_⟩
  · simp only [default, get_range, fast_vector_2d.get_magnitude,
      fast_vector_2d.new_polar_magnitude]
    exact zero_le_one
  · intro x y a r inf
    have e : (new s x y a r inf).get_range = |r| := by
      simp only [new, make_range_infinite, get_range]
      exact set_range_get_range s _ r
    rw [e]
    exact abs_nonneg r
  · intro r
    rw [set_range_get_range]
    exact abs_nonneg r
  · intro v
    rw [set_vector, set_range_get_range]
    exact abs_nonneg _
  · intro a
    rw [set_angle_get_range]
    exact hh
  · intro p
    exact hh
  · intro a
    exact ⟨hh, hh⟩
  · intro b
    exact hh
  · exact hh
  · intro rhs hr
    exact ⟨hr, hr⟩

end hitscanner_2d

/-- C18: the collider `basic_collider_2d(8, 8, 2, 2)` has left 7, right 9, top 9, bottom 7, and
for a hitscanner at `(8, 4)` with angle `π / 2` and infinite range, whatever its range value,
`get_hit` returns `(8, 7)`. -/
theorem get_hit_scenario_straight_up :
    ((basic_collider_2d.new 8 8 2 2 : basic_collider_2d ℝ).get_left_x = 7
      ∧ (basic_collider_2d.new 8 8 2 2 : basic_collider_2d ℝ).get_right_x = 9
      ∧ (basic_collider_2d.new 8 8 2 2 : basic_collider_2d ℝ).get_top_y = 9
      ∧ (basic_collider_2d.new 8 8 2 2 : basic_collider_2d ℝ).get_bottom_y = 7)
    ∧ ∀ range : ℝ,
        (hitscanner_2d.new false 8 4 (Real.pi / 2) range true).get_hit
          (basic_collider_2d.new 8 8 2 2) = some ⟨8, 7⟩ := by
  have hπ := Real.pi_pos
  rw [collider_new_eq 8 8 2 2 (by norm_num) (by norm_num)]
  refine ⟨by norm_num [basic_collider_2d.get_left_x, basic_collider_2d.get_right_x,
    basic_collider_2d.get_top_y, basic_collider_2d.get_bottom_y, coordinate_2d.get_x_pos,
    coordinate_2d.get_y_pos], ?_⟩
  intro range
  rw [hitscanner_2d.new_eq, normalize_radian_angle_pi_div_two, Real.cos_pi_div_two,
    Real.sin_pi_div_two, mul_zero, mul_one]
  simp only [hitscanner_2d.get_hit, hitscanner_2d.get_x_pos, hitscanner_2d.get_y_pos,
    hitscanner_2d.get_angle, fast_vector_2d.get_angle, fast_vector_2d.get_x_comp,
    fast_vector_2d.get_y_comp, fast_vector_2d.get_magnitude, coordinate_2d.get_x_pos,
    coordinate_2d.get_y_pos, C_PI, C_PI_2, C_3PI_2, if_true, hitscanner_2d.do_range_check,
    hitscanner_2d.has_infinite_range, true_or, basic_collider_2d.get_left_x,
    basic_collider_2d.get_right_x, basic_collider_2d.get_top_y, basic_collider_2d.get_bottom_y]
  rw [if_neg (by rintro ⟨-, -, h, -⟩; norm_num at h),
    if_neg (by rintro ⟨-, h⟩; exact h trivial),
    if_neg (by
      rintro (⟨-, h⟩ | ⟨h, -⟩ | ⟨-, h⟩ | ⟨-, h⟩ | ⟨h, -⟩)
      · norm_num at h
      · linarith
      · norm_num at h
      · norm_num at h
      · linarith),
    if_pos (by linarith : Real.pi / 2 < Real.pi)]
  norm_num

/-- C19, evaluated: for the origin `(0, 0)`, the angle `0` and the collider
`basic_collider_2d(3, 0, 2, 2)` (box `[2, 4] x [-1, 1]`), the infinite-range hitscanner of
range 1 hits `(2, 0)` on the left edge, while the infinite-range hitscanner of range 0 is
answered `(0, -1)`: its components are both zero, so the vertical branch is taken. -/
theorem get_hit_infinite_range_zero_differs :
    (hitscanner_2d.new false 0 0 0 1 true).get_hit (basic_collider_2d.new 3 0 2 2)
        = some ⟨2, 0⟩
    ∧ (hitscanner_2d.new false 0 0 0 0 true).get_hit (basic_collider_2d.new 3 0 2 2)
        = some ⟨0, -1⟩
    ∧ (hitscanner_2d.new false 0 0 0 1 true).get_hit (basic_collider_2d.new 3 0 2 2)
        ≠ (hitscanner_2d.new false 0 0 0 0 true).get_hit (basic_collider_2d.new 3 0 2 2) := by
  have hC : (basic_collider_2d.new 3 0 2 2 : basic_collider_2d ℝ) = ⟨⟨3, 0⟩, 1, 1⟩ := by
    rw [collider_new_eq 3 0 2 2 (by norm_num) (by norm_num)]
    norm_num
  have e1 : (hitscanner_2d.new false 0 0 0 1 true).get_hit (basic_collider_2d.new 3 0 2 2)
      = some ⟨2, 0⟩ := by
    rw [hitscanner_2d.new_angle_zero, hC, abs_one,
      hitscanner_2d.get_hit_east 0 0 1 true _ one_ne_zero
        (by norm_num [basic_collider_2d.get_left_x, basic_collider_2d.get_right_x,
          coordinate_2d.get_x_pos])
        (by norm_num [basic_collider_2d.get_left_x, coordinate_2d.get_x_pos])
        (by norm_num [basic_collider_2d.get_bottom_y, coordinate_2d.get_y_pos])
        (by norm_num [basic_collider_2d.get_top_y, coordinate_2d.get_y_pos])]
    simp only [hitscanner_2d.do_range_check, hitscanner_2d.has_infinite_range, true_or, if_true]
    norm_num [basic_collider_2d.get_left_x, coordinate_2d.get_x_pos]
  have e0 : (hitscanner_2d.new false 0 0 0 0 true).get_hit (basic_collider_2d.new 3 0 2 2)
      = some ⟨0, -1⟩ := by
    rw [hitscanner_2d.new_angle_zero, hC, abs_zero,
      hitscanner_2d.get_hit_zero_components 0 0 _
        (by norm_num [basic_collider_2d.get_left_x, coordinate_2d.get_x_pos])
        (by norm_num [basic_collider_2d.get_left_x, basic_collider_2d.get_right_x,
          coordinate_2d.get_x_pos])
        (by norm_num [basic_collider_2d.get_bottom_y, coordinate_2d.get_y_pos])
        (by norm_num [basic_collider_2d.get_top_y, coordinate_2d.get_y_pos])]
    norm_num [basic_collider_2d.get_bottom_y, coordinate_2d.get_y_pos]
  refine ⟨e1, e0, ?_⟩
  rw [e1, e0]
  intro h
  have h2 := congrArg (fun o : Option (coordinate_2d ℝ) => o.map coordinate_2d.x_pos) h
  simp only [Option.map_some', Option.some.injEq] at h2
  norm_num at h2

/-- Witness for C16: the finite hitscanner of range 0 at `(0, 0)` and
`basic_collider_2d(3, 0, 2, 2)`, whose box `[2, 4] x [-1, 1]` does not contain the origin. -/
theorem get_hit_zero_range_outside_witness :
    0 ≤ (basic_collider_2d.new 3 0 2 2 : basic_collider_2d ℝ).height_2
    ∧ (hitscanner_2d.new false 0 0 0 0 false).get_range = 0
    ∧ (hitscanner_2d.new false 0 0 0 0 false).infinite_range = false
    ∧ ¬ (basic_collider_2d.new 3 0 2 2 : basic_collider_2d ℝ).closed_box (hitscanner_2d.new false 0 0 0 0 false).position
    ∧ (hitscanner_2d.new false 0 0 0 0 false).get_hit (basic_collider_2d.new 3 0 2 2 : basic_collider_2d ℝ) = none :=
  have hC : (basic_collider_2d.new 3 0 2 2 : basic_collider_2d ℝ) = ⟨⟨3, 0⟩, 2 / 2, 2 / 2⟩ := collider_new_eq 3 0 2 2 (by norm_num) (by norm_num)
  have hS : (hitscanner_2d.new false 0 0 0 0 false) = ⟨⟨0, 0⟩, ⟨|0|, 0, 0, |0|⟩, false⟩ := hitscanner_2d.new_angle_zero 0 0 0 false
  have hh : 0 ≤ (basic_collider_2d.new 3 0 2 2 : basic_collider_2d ℝ).height_2 := by rw [hC]; norm_num
  have hr : (hitscanner_2d.new false 0 0 0 0 false).get_range = 0 := by
    rw [hS]
    norm_num [hitscanner_2d.get_range, fast_vector_2d.get_magnitude]
  have hinf : (hitscanner_2d.new false 0 0 0 0 false).infinite_range = false := by rw [hS]
  have hout : ¬ (basic_collider_2d.new 3 0 2 2 : basic_collider_2d ℝ).closed_box (hitscanner_2d.new false 0 0 0 0 false).position := by
    rw [hC, hS]
    norm_num [basic_collider_2d.closed_box, basic_collider_2d.get_left_x,
      coordinate_2d.get_x_pos]
  ⟨hh, hr, hinf, hout, hitscanner_2d.get_hit_zero_range_outside _ _ hh hr hinf hout⟩

/-- The finite hitscanner of range 5 at `(0, 0)` heading along `+x` hits
`basic_collider_2d(3, 0, 2, 2)` at `(2, 0)`. -/
lemma get_hit_east_example :
    (hitscanner_2d.new false 0 0 0 5 false).get_hit (basic_collider_2d.new 3 0 2 2 : basic_collider_2d ℝ) = some ⟨2, 0⟩ := by
  have hC : (basic_collider_2d.new 3 0 2 2 : basic_collider_2d ℝ) = ⟨⟨3, 0⟩, 1, 1⟩ := by
    rw [collider_new_eq 3 0 2 2 (by norm_num) (by norm_num)]
    norm_num
  have h5 : |(5 : ℝ)| = 5 := abs_of_pos (by norm_num)
  rw [hitscanner_2d.new_angle_zero, hC, h5,
    hitscanner_2d.get_hit_east 0 0 5 false _ (by norm_num)
      (by norm_num [basic_collider_2d.get_left_x, basic_collider_2d.get_right_x,
        coordinate_2d.get_x_pos])
      (by norm_num [basic_collider_2d.get_left_x, coordinate_2d.get_x_pos])
      (by norm_num [basic_collider_2d.get_bottom_y, coordinate_2d.get_y_pos])
      (by norm_num [basic_collider_2d.get_top_y, coordinate_2d.get_y_pos])]
  have hd : (⟨0, 0⟩ : coordinate_2d ℝ).get_euclidean_distance_to ⟨3 - 1, 0⟩ ≤ |(5 : ℝ)| := by
    simp only [coordinate_2d.get_euclidean_distance_to, coordinate_2d.get_x_pos,
      coordinate_2d.get_y_pos, h5]
    rw [Real.sqrt_le_iff]
    norm_num
  simp only [hitscanner_2d.do_range_check, hitscanner_2d.has_infinite_range,
    fast_vector_2d.get_magnitude, basic_collider_2d.get_left_x, coordinate_2d.get_x_pos]
  rw [if_pos (Or.inr hd)]
  norm_num

/-- Witness for C17: the finite hitscanner of range 5 at `(0, 0)` heading along `+x` hits
`basic_collider_2d(3, 0, 2, 2)` at `(2, 0)`, at distance at most 5. -/
theorem get_hit_within_range_witness :
    (hitscanner_2d.new false 0 0 0 5 false).infinite_range = false
    ∧ 0 ≤ (hitscanner_2d.new false 0 0 0 5 false).get_range
    ∧ (hitscanner_2d.new false 0 0 0 5 false).get_hit (basic_collider_2d.new 3 0 2 2 : basic_collider_2d ℝ) = some ⟨2, 0⟩
    ∧ (hitscanner_2d.new false 0 0 0 5 false).position.get_euclidean_distance_to ⟨2, 0⟩ ≤ (hitscanner_2d.new false 0 0 0 5 false).get_range :=
  have hS : (hitscanner_2d.new false 0 0 0 5 false) = ⟨⟨0, 0⟩, ⟨|5|, 0, 0, |5|⟩, false⟩ := hitscanner_2d.new_angle_zero 0 0 5 false
  have hinf : (hitscanner_2d.new false 0 0 0 5 false).infinite_range = false := by rw [hS]
  have hr : 0 ≤ (hitscanner_2d.new false 0 0 0 5 false).get_range := by
    rw [hS]
    norm_num [hitscanner_2d.get_range, fast_vector_2d.get_magnitude]
  ⟨hinf, hr, get_hit_east_example,
    hitscanner_2d.get_hit_within_range _ _ hinf hr _ get_hit_east_example⟩

/-- Witness for C20 on the hitscanner at `(0, 0)` with the vector `(1, 0)` of angle 0 and
magnitude 1, updates not suppressed. -/
theorem get_range_nonneg_invariant_witness :
    0 ≤ (⟨⟨0, 0⟩, ⟨1, 0, 0, 1⟩, false⟩ : hitscanner_2d).get_range
    ∧ (0 ≤ (hitscanner_2d.default false).get_range
      ∧ (∀ (x y a r : ℝ) (inf : Bool), 0 ≤ (hitscanner_2d.new false x y a r inf).get_range)
      ∧ (∀ r : ℝ, 0 ≤ ((⟨⟨0, 0⟩, ⟨1, 0, 0, 1⟩, false⟩ : hitscanner_2d).set_range false r).get_range)
      ∧ (∀ v : fast_vector_2d, 0 ≤ ((⟨⟨0, 0⟩, ⟨1, 0, 0, 1⟩, false⟩ : hitscanner_2d).set_vector false v).get_range)
      ∧ (∀ a : ℝ, 0 ≤ ((⟨⟨0, 0⟩, ⟨1, 0, 0, 1⟩, false⟩ : hitscanner_2d).set_angle false a).get_range)
      ∧ (∀ p : coordinate_2d ℝ, 0 ≤ ((⟨⟨0, 0⟩, ⟨1, 0, 0, 1⟩, false⟩ : hitscanner_2d).set_position p).get_range)
      ∧ (∀ a : ℝ, 0 ≤ ((⟨⟨0, 0⟩, ⟨1, 0, 0, 1⟩, false⟩ : hitscanner_2d).set_x_pos a).get_range ∧ 0 ≤ ((⟨⟨0, 0⟩, ⟨1, 0, 0, 1⟩, false⟩ : hitscanner_2d).set_y_pos a).get_range)
      ∧ (∀ b : Bool, 0 ≤ ((⟨⟨0, 0⟩, ⟨1, 0, 0, 1⟩, false⟩ : hitscanner_2d).make_range_infinite b).get_range)
      ∧ 0 ≤ (⟨⟨0, 0⟩, ⟨1, 0, 0, 1⟩, false⟩ : hitscanner_2d).toggle_infinite_range.get_range
      ∧ (∀ rhs : hitscanner_2d, 0 ≤ rhs.get_range →
          0 ≤ ((⟨⟨0, 0⟩, ⟨1, 0, 0, 1⟩, false⟩ : hitscanner_2d).assign rhs).get_range ∧ 0 ≤ (hitscanner_2d.copy false rhs).get_range)) :=
  have hh : 0 ≤ (⟨⟨0, 0⟩, ⟨1, 0, 0, 1⟩, false⟩ : hitscanner_2d).get_range := by
    norm_num [hitscanner_2d.get_range, fast_vector_2d.get_magnitude]
  ⟨hh, hitscanner_2d.get_range_nonneg_invariant _ hh false⟩

/-! ## Theorems: angles of the vector, divisions and culling of `get_hit` -/

namespace fast_vector_2d

lemma update_cartesian_values_angle (s : Bool) (v : fast_vector_2d) :
    (update_cartesian_values s v).angle = v.angle := by
  cases s <;> simp only [update_cartesian_values, Bool.false_eq_true, if_false, if_true]

lemma set_angle_radians_angle (s : Bool) (v : fast_vector_2d) (a : ℝ) :
    (set_angle s v a true).get_angle true = math_helper.normalize_radian_angle a := by
  simp only [set_angle, get_angle, if_true, update_cartesian_values_angle,
    math_helper.normalize_angle]

end fast_vector_2d

namespace hitscanner_2d

/-- C24: `get_hit` never divides by zero: run with both divisions checked, it returns
normally, with the result of `get_hit`, for every hitscanner and collider; the quotient
`y_comp / x_comp` is only formed after both axis-aligned branches were passed, where
`x_comp` and the slope are non-zero. -/
theorem get_hit_never_divides_by_zero (self : hitscanner_2d) (C : basic_collider_2d ℝ) :
    self.get_hit_div_checked C = some (self.get_hit C)
    ∧ (self.vector.get_x_comp ≠ 0 → self.vector.get_y_comp ≠ 0 →
        checked_div self.vector.get_y_comp self.vector.get_x_comp
            = some (self.vector.get_y_comp / self.vector.get_x_comp)
        ∧ self.vector.get_y_comp / self.vector.get_x_comp ≠ 0
        ∧ ∀ d : ℝ, checked_div d (self.vector.get_y_comp / self.vector.get_x_comp)
            = some (d / (self.vector.get_y_comp / self.vector.get_x_comp))) := by
  have key : ∀ hx : self.vector.get_x_comp ≠ 0, ∀ hy : self.vector.get_y_comp ≠ 0,
      checked_div self.vector.get_y_comp self.vector.get_x_comp
            = some (self.vector.get_y_comp / self.vector.get_x_comp)
        ∧ self.vector.get_y_comp / self.vector.get_x_comp ≠ 0
        ∧ ∀ d : ℝ, checked_div d (self.vector.get_y_comp / self.vector.get_x_comp)
            = some (d / (self.vector.get_y_comp / self.vector.get_x_comp)) := by
    intro hx hy
    have hs : self.vector.get_y_comp / self.vector.get_x_comp ≠ 0 := div_ne_zero hy hx
    refine ⟨?_, hs, ?_⟩
    · rw [checked_div, if_neg hx]
    · intro d
      rw [checked_div, if_neg hs]
  refine ⟨?_, key⟩
  rw [get_hit_div_checked, get_hit]
  by_cases h1 : self.get_x_pos ≥ C.get_left_x ∧ self.get_x_pos ≤ C.get_right_x
      ∧ self.get_y_pos ≥ C.get_top_y ∧ self.get_y_pos ≤ C.get_bottom_y
  · rw [if_pos h1, if_pos h1]
  rw [if_neg h1, if_neg h1]
  by_cases h2 : self.vector.get_magnitude = 0 ∧ ¬ self.has_infinite_range
  · rw [if_pos h2, if_pos h2]
  rw [if_neg h2, if_neg h2]
  by_cases h3 : (self.get_angle ≤ C_PI ∧ self.get_y_pos > C.get_top_y)
      ∨ (self.get_angle ≥ C_PI ∧ self.get_y_pos < C.get_bottom_y)
      ∨ ((self.get_angle ≤ C_PI_2 ∨ self.get_angle ≥ C_3PI_2)
          ∧ self.get_x_pos > C.get_right_x)
      ∨ ((self.get_angle ≥ C_PI_2 ∧ self.get_angle ≤ C_3PI_2)
          ∧ self.get_x_pos < C.get_left_x)
      ∨ (self.get_angle = 0 ∧ self.get_y_pos < C.get_bottom_y)
  · rw [if_pos h3, if_pos h3]
  rw [if_neg h3, if_neg h3]
  by_cases h4 : self.vector.get_x_comp = 0
  · rw [if_pos h4, if_pos h4]
  rw [if_neg h4, if_neg h4]
  by_cases h5 : self.vector.get_y_comp = 0
  · rw [if_pos h5, if_pos h5]
  rw [if_neg h5, if_neg h5]
  obtain ⟨e1, -, e2⟩ := key h4 h5
  rw [e1]
  simp only [e2]
  split_ifs <;> rfl

lemma get_hit_eq_culling (self : hitscanner_2d) (C : basic_collider_2d ℝ) :
    self.get_hit C =
      if self.inside_test C then some self.position
      else if self.culled C then none
      else self.get_hit_without_culling C := by
  unfold inside_test culled
  rw [get_hit, get_hit_without_culling]
  split_ifs <;> rfl

lemma get_hit_without_culling_inside (self : hitscanner_2d) (C : basic_collider_2d ℝ)
    (hi : self.inside_test C) : self.get_hit_without_culling C = some self.position := by
  unfold inside_test at hi
  rw [get_hit_without_culling, if_pos hi]

/-- C25 (as amended): the culling test of `get_hit` decides the result and cannot be removed:
after the inside test, `get_hit` returns none on every ray that the five-condition test
rejects, and on every other ray it returns what `get_hit` with the culling test removed
returns; on a rejected ray the remaining steps alone need not return none. -/
theorem get_hit_culling_decides (self : hitscanner_2d) (C : basic_collider_2d ℝ) :
    self.get_hit C =
      if self.inside_test C then some self.position
      else if self.culled C then none
      else self.get_hit_without_culling C :=
  get_hit_eq_culling self C

end hitscanner_2d

/-- C25, counterexample: the infinite-range hitscanner at `(0, 5)` heading along `+x` looks
past `basic_collider_2d(3, 0, 2, 2)` (box `[2, 4] x [-1, 1]`): the culling test rejects it and
`get_hit` returns none, but the remaining steps without the culling test return `(2, 5)`. -/
theorem get_hit_without_culling_differs :
    (hitscanner_2d.new false 0 5 0 1 true).culled (basic_collider_2d.new 3 0 2 2)
    ∧ (hitscanner_2d.new false 0 5 0 1 true).get_hit (basic_collider_2d.new 3 0 2 2) = none
    ∧ (hitscanner_2d.new false 0 5 0 1 true).get_hit_without_culling
        (basic_collider_2d.new 3 0 2 2) = some ⟨2, 5⟩ := by
  have hπ := Real.pi_pos
  have hC : (basic_collider_2d.new 3 0 2 2 : basic_collider_2d ℝ) = ⟨⟨3, 0⟩, 1, 1⟩ := by
    rw [collider_new_eq 3 0 2 2 (by norm_num) (by norm_num)]
    norm_num
  rw [hitscanner_2d.new_angle_zero, hC, abs_one]
  have hcull : (⟨⟨0, 5⟩, ⟨1, 0, 0, 1⟩, true⟩ : hitscanner_2d).culled ⟨⟨3, 0⟩, 1, 1⟩ := by
    left
    simp only [hitscanner_2d.get_angle, fast_vector_2d.get_angle, if_true, C_PI,
      hitscanner_2d.get_y_pos, coordinate_2d.get_y_pos, basic_collider_2d.get_top_y]
    exact ⟨hπ.le, by norm_num⟩
  have hins : ¬ (⟨⟨0, 5⟩, ⟨1, 0, 0, 1⟩, true⟩ : hitscanner_2d).inside_test ⟨⟨3, 0⟩, 1, 1⟩ := by
    rintro ⟨h, -⟩
    simp only [hitscanner_2d.get_x_pos, coordinate_2d.get_x_pos,
      basic_collider_2d.get_left_x] at h
    norm_num at h
  refine ⟨hcull, ?_, ?_⟩
  · rw [hitscanner_2d.get_hit_eq_culling, if_neg hins, if_pos hcull]
  · simp only [hitscanner_2d.get_hit_without_culling, hitscanner_2d.get_x_pos,
      hitscanner_2d.get_y_pos, hitscanner_2d.get_angle, fast_vector_2d.get_angle,
      fast_vector_2d.get_x_comp, fast_vector_2d.get_y_comp, fast_vector_2d.get_magnitude,
      coordinate_2d.get_x_pos, coordinate_2d.get_y_pos, C_PI, C_PI_2, C_3PI_2, if_true,
      hitscanner_2d.do_range_check, hitscanner_2d.has_infinite_range, true_or,
      basic_collider_2d.get_left_x, basic_collider_2d.get_right_x, basic_collider_2d.get_top_y,
      basic_collider_2d.get_bottom_y]
    rw [if_neg (by rintro ⟨h, -⟩; norm_num at h),
      if_neg (by rintro ⟨h, -⟩; exact one_ne_zero h),
      if_neg one_ne_zero, if_pos (Or.inl (half_pos hπ))]
    norm_num

lemma atan2_mem (y x : ℝ) : -Real.pi < atan2 y x ∧ atan2 y x ≤ Real.pi :=
  ⟨Complex.neg_pi_lt_arg _, Complex.arg_le_pi _⟩

lemma atan2_neg_iff (y x : ℝ) : atan2 y x < 0 ↔ y < 0 := by
  unfold atan2
  rw [Complex.arg_neg_iff]

lemma normalize_radian_angle_of_mem (a : ℝ) (h0 : 0 ≤ a) (h1 : a < 2 * Real.pi) :
    math_helper.normalize_radian_angle a = a := by
  have hπ := Real.pi_pos
  have h : ⌊a / (2 * Real.pi)⌋ = 0 := by
    rw [Int.floor_eq_iff]
    constructor
    · simpa using div_nonneg h0 (by linarith)
    · rw [Int.cast_zero, zero_add, div_lt_one (by linarith)]
      exact h1
  simp only [math_helper.normalize_radian_angle, math_helper.normalize_value_to_range, C_2PI, h,
    Int.cast_zero, zero_mul, sub_zero]

namespace fast_vector_2d

lemma update_polar_values_false (v : fast_vector_2d) :
    update_polar_values false v
      = ⟨v.x_comp, v.y_comp, atan2 v.y_comp v.x_comp,
          Real.sqrt (v.x_comp * v.x_comp + v.y_comp * v.y_comp)⟩ := by
  simp only [update_polar_values, Bool.false_eq_true, if_false]

lemma set_x_comp_false (v : fast_vector_2d) (x : ℝ) :
    set_x_comp false v x
      = ⟨x, v.y_comp, atan2 v.y_comp x, Real.sqrt (x * x + v.y_comp * v.y_comp)⟩ := by
  rw [set_x_comp, update_polar_values_false]

lemma set_y_comp_false (v : fast_vector_2d) (y : ℝ) :
    set_y_comp false v y
      = ⟨v.x_comp, y, atan2 y v.x_comp, Real.sqrt (v.x_comp * v.x_comp + y * y)⟩ := by
  rw [set_y_comp, update_polar_values_false]

lemma new_cartesian_false (x y : ℝ) :
    new_cartesian false x y = ⟨x, y, atan2 y x, Real.sqrt (x * x + y * y)⟩ := by
  rw [new_cartesian, set_x_comp_false, set_y_comp_false, update_polar_values_false]

lemma set_magnitude_false (v : fast_vector_2d) (m : ℝ) :
    set_magnitude false v m = ⟨m * Real.cos v.angle, m * Real.sin v.angle, v.angle, m⟩ := by
  rw [set_magnitude, update_cartesian_values_false]

lemma set_angle_false (v : fast_vector_2d) (a : ℝ) (r : Bool) :
    set_angle false v a r
      = ⟨v.magnitude * Real.cos (math_helper.normalize_angle a r),
          v.magnitude * Real.sin (math_helper.normalize_angle a r),
          math_helper.normalize_angle a r, v.magnitude⟩ := by
  rw [set_angle, update_cartesian_values_false]

end fast_vector_2d

/-- C22, counterexample: after `set_magnitude(-1)` on the default vector the magnitude is `-1`,
not the square root `1`; after `set_angle(3π/2, true)` on the default vector the angle is
`3π/2`, which no value of `atan2` equals. -/
theorem setters_break_cartesian_form :
    (fast_vector_2d.set_magnitude false fast_vector_2d.default (-1)).magnitude = -1
    ∧ ¬ fast_vector_2d.cartesian_form_agrees
        (fast_vector_2d.set_magnitude false fast_vector_2d.default (-1))
    ∧ (fast_vector_2d.set_angle false fast_vector_2d.default (3 * Real.pi / 2) true).angle
        = 3 * Real.pi / 2
    ∧ ¬ fast_vector_2d.cartesian_form_agrees
        (fast_vector_2d.set_angle false fast_vector_2d.default (3 * Real.pi / 2) true) := by
  have hπ := Real.pi_pos
  have hn : math_helper.normalize_angle (3 * Real.pi / 2) true = 3 * Real.pi / 2 := by
    simp only [math_helper.normalize_angle, if_true]
    exact normalize_radian_angle_of_mem _ (by linarith) (by linarith)
  rw [fast_vector_2d.set_magnitude_false, fast_vector_2d.set_angle_false, hn]
  refine ⟨rfl, ?_, rfl, ?_⟩
  · rintro ⟨h, -⟩
    have := Real.sqrt_nonneg ((-1 * Real.cos fast_vector_2d.default.angle)
      * (-1 * Real.cos fast_vector_2d.default.angle)
      + (-1 * Real.sin fast_vector_2d.default.angle)
      * (-1 * Real.sin fast_vector_2d.default.angle))
    simp only at h
    linarith
  · rintro ⟨-, h⟩
    have := (atan2_mem (fast_vector_2d.default.magnitude * Real.sin (3 * Real.pi / 2))
      (fast_vector_2d.default.magnitude * Real.cos (3 * Real.pi / 2))).2
    simp only at h
    linarith

/-- C23, counterexample: after `set_y_comp(-1)` on the default vector `(1, 0)` the stored
angle is `atan2(-1, 1)`, which is negative, so it is not in `[0, 2π)`; the cartesian
constructor `fast_vector_2d(1, -1)` gives the same angle. -/
theorem set_y_comp_angle_negative :
    (fast_vector_2d.set_y_comp false fast_vector_2d.default (-1)).get_angle true = atan2 (-1) 1
    ∧ (fast_vector_2d.new_cartesian false 1 (-1)).get_angle true = atan2 (-1) 1
    ∧ atan2 (-1) 1 < 0 := by
  rw [fast_vector_2d.set_y_comp_false, fast_vector_2d.new_cartesian_false]
  exact ⟨rfl, rfl, (atan2_neg_iff _ _).mpr (by norm_num)⟩

/-! ## Theorems: the distance-to-height mapping -/

section mapping

variable {α : Type} [LinearOrderedField α] [FloorRing α]

lemma int_checked_of_mem (n : ℤ) (h0 : -2 ^ 31 ≤ n) (h1 : n ≤ 2 ^ 31 - 1) :
    int_checked n = some n := by
  unfold int_checked INT_MIN INT_MAX
  rw [if_pos ⟨h0, h1⟩]

lemma static_cast_int_neg_of_nonneg (y : α) (hy : 0 ≤ y) (hr : y < 2 ^ 31) :
    static_cast_int (-y) = some (-⌊y⌋) := by
  have hf0 : 0 ≤ ⌊y⌋ := Int.floor_nonneg.mpr hy
  have hf1 : ⌊y⌋ < 2 ^ 31 := by
    rw [Int.floor_lt]
    exact_mod_cast hr
  have ht : (if 0 ≤ -y then ⌊-y⌋ else ⌈-y⌉) = -⌊y⌋ := by
    rcases hy.eq_or_lt with h | h
    · rw [← h]
      simp
    · rw [if_neg (by simpa using h), Int.ceil_neg]
  unfold static_cast_int
  rw [ht]
  exact int_checked_of_mem _ (by omega) (by omega)

lemma map_value_to_range_height (d V : α) (H : ℤ) (hV : 0 < V) (hd : 0 ≤ d) (hH : 0 ≤ H)
    (hH1 : H ≤ INT_MAX) (hr : d * (H : α) / V < 2 ^ 31) :
    math_helper.map_value_to_range d 0 V H 0 = some (H - ⌊d * (H : α) / V⌋) := by
  have hy : 0 ≤ d * (H : α) / V :=
    div_nonneg (mul_nonneg hd (by exact_mod_cast hH)) hV.le
  have hf0 : 0 ≤ ⌊d * (H : α) / V⌋ := Int.floor_nonneg.mpr hy
  have hf1 : ⌊d * (H : α) / V⌋ < 2 ^ 31 := by
    rw [Int.floor_lt]
    exact_mod_cast hr
  have hH2 : H ≤ 2 ^ 31 - 1 := hH1
  have e : (d - 0) * (((0 - H : ℤ) : α)) / (V - 0) = -(d * (H : α) / V) := by
    push_cast
    ring
  unfold math_helper.map_value_to_range
  rw [int_checked_of_mem (0 - H) (by omega) (by omega)]
  dsimp only
  rw [e, static_cast_int_neg_of_nonneg _ hy hr]
  dsimp only
  rw [int_checked_of_mem _ (by omega) (by omega)]
  congr 1

end mapping

/-- C30: on the list `{7}` with target `7`, `linear_search` with `lower_bounds = 5` (beyond
the list) and the default upper bound clamps the start to the last index and returns
`Some(0)`, an index below `lower_bounds`, not nullopt. -/
theorem linear_search_lower_beyond_list :
    search_algorithms.linear_search [(7 : ℕ)] 7 5 UINT64_MAX = Except.ok (some 0) := by
  have hloop : search_algorithms.linear_search_loop [(7 : ℕ)] 7 0 0 = Except.ok (some 0) := by
    rw [search_algorithms.linear_search_loop, if_pos le_rfl]
    rfl
  have hstart : (if 5 ≥ [(7 : ℕ)].length then [(7 : ℕ)].length - 1 else 5) = 0 := by decide
  have hend : (if UINT64_MAX ≥ [(7 : ℕ)].length then [(7 : ℕ)].length - 1 else UINT64_MAX)
      = 0 := by decide
  rw [search_algorithms.linear_search, if_neg (by decide)]
  dsimp only
  rw [hstart, hend]
  exact hloop

/-- C29: on the sorted list `{5}` with the absent target `3` and the default bounds,
`binary_search` steps `end` from `0` to `0 - 1 = 2^64 - 1` and then reads
`list.at(2^63 - 1)`, which throws `out_of_range`; it does not return nullopt. -/
theorem binary_search_absent_below_throws (fuel : ℕ) :
    search_algorithms.binary_search [(5 : ℕ)] 3 0 UINT64_MAX (fuel + 2)
      = some (Except.error exception.out_of_range) := by
  simp [search_algorithms.binary_search, search_algorithms.binary_search_loop, UINT64_MAX]

/-! ## Theorems: the render sweep -/

namespace hitscanner_2d

lemma set_angle_set_angle (s : Bool) (hs : hitscanner_2d) (a b : ℝ) :
    (hs.set_angle s a).set_angle s b = hs.set_angle s b := by
  cases s <;>
    simp only [set_angle, fast_vector_2d.set_angle, fast_vector_2d.update_cartesian_values,
      Bool.false_eq_true, if_false, if_true]

end hitscanner_2d

namespace raycaster

lemma render_loop_from (s : Bool) (hs0 : hitscanner_2d) (colliders : List (basic_collider_2d ℝ))
    (fov : ℝ) (N : ℕ) (hfov : 0 < fov) (hN : 1 ≤ N) (orig : ℝ) (q : ℕ → sweep_query)
    (hq : ∀ k, q k = ⟨-fov / 2 + k * (fov / N),
      (hs0.set_angle s (orig + (-fov / 2 + k * (fov / N)))).get_hit_colliders colliders,
      if ((hs0.set_angle s (orig + (-fov / 2 + k * (fov / N)))).get_hit_colliders
          colliders).isSome then some (k + 1) else none⟩) :
    ∀ (n i fuel : ℕ) (hs : hitscanner_2d) (acc : List sweep_query),
      i + n = N + 1 → n + 1 ≤ fuel → (∀ a, hs.set_angle s a = hs0.set_angle s a) →
      acc.length = i →
      render_loop s colliders fov (N : ℤ) orig fuel hs (-fov / 2 + i * (fov / N)) acc
        = some (acc ++ (List.range' i n).map q) := by
  have hNpos : (0 : ℝ) < N := by exact_mod_cast hN
  have hstep : 0 < fov / N := div_pos hfov hNpos
  have hmul : (N : ℝ) * (fov / N) = fov := by field_simp
  intro n
  induction n with
  | zero =>
    intro i fuel hs acc hi hf _ _
    obtain ⟨f, rfl⟩ : ∃ f, fuel = f + 1 := ⟨fuel - 1, by omega⟩
    have hiN : (i : ℝ) = N + 1 := by
      have : i = N + 1 := by omega
      rw [this]
      push_cast
      ring
    rw [render_loop, if_neg]
    · simp
    · rw [hiN, not_le]
      nlinarith
  | succ n ih =>
    intro i fuel hs acc hi hf hhs hlen
    obtain ⟨f, rfl⟩ : ∃ f, fuel = f + 1 := ⟨fuel - 1, by omega⟩
    have hiN : (i : ℝ) ≤ N := by
      have : i ≤ N := by omega
      exact_mod_cast this
    have hcond : -fov / 2 + i * (fov / N) ≤ fov / 2 := by
      have : (i : ℝ) * (fov / N) ≤ N * (fov / N) := mul_le_mul_of_nonneg_right hiN hstep.le
      linarith
    have hnext : -fov / 2 + (i : ℝ) * (fov / N) + fov / ((N : ℤ) : ℝ)
        = -fov / 2 + ((i + 1 : ℕ) : ℝ) * (fov / N) := by
      push_cast
      ring
    rw [render_loop, if_pos hcond]
    simp only []
    rw [hnext, ih (i + 1) f _ _ (by omega) (by omega)
      (fun a => by rw [hitscanner_2d.set_angle_set_angle, hhs])
      (by rw [List.length_append, List.length_singleton, hlen])]
    rw [hhs, hlen, ← hq i, List.range'_succ, List.map_cons, List.append_assoc]
    rfl

lemma render_eq (s : Bool) (hs : hitscanner_2d) (colliders : List (basic_collider_2d ℝ))
    (fov : ℝ) (N fuel : ℕ) (hfov : 0 < fov) (hN : 1 ≤ N) (hfuel : N + 2 ≤ fuel) :
    render s hs colliders fov (N : ℤ) fuel
      = some ((List.range (N + 1)).map (sweep_query_at s hs colliders fov N)) := by
  have h := render_loop_from s hs colliders fov N hfov hN hs.get_angle
    (sweep_query_at s hs colliders fov N) (fun k => rfl) (N + 1) 0 fuel hs []
    (by omega) (by omega) (fun a => rfl) rfl
  rw [Nat.cast_zero, zero_mul, add_zero, List.nil_append] at h
  rw [render, h, List.range_eq_range']

/-! ## Theorems: the collider generation -/

lemma set_visited_apply (v : ℕ → ℕ → Bool) (row col r c : ℕ) :
    set_visited v row col r c = (v r c || decide (r = row ∧ c = col)) := by
  unfold set_visited
  by_cases h : r = row ∧ c = col
  · simp [h]
  · simp [h]

lemma find_in_row_spec (cols : ℕ) (v : ℕ → ℕ → Bool) (row : ℕ) :
    ∀ (n j : ℕ), cols - j = n →
      ((find_in_row cols v row j).2 = true →
        j ≤ (find_in_row cols v row j).1 ∧ (find_in_row cols v row j).1 < cols
        ∧ v row (find_in_row cols v row j).1 = false
        ∧ ∀ c, j ≤ c → c < (find_in_row cols v row j).1 → v row c = true)
      ∧ ((find_in_row cols v row j).2 = false → ∀ c, j ≤ c → c < cols → v row c = true) := by
  intro n
  induction n with
  | zero =>
    intro j hj
    have hc : ¬ j < cols := by omega
    rw [find_in_row, if_neg hc]
    refine ⟨fun h => Bool.noConfusion h, fun _ c h1 h2 => ?_⟩
    omega
  | succ n ih =>
    intro j hj
    have hc : j < cols := by omega
    rw [find_in_row, if_pos hc]
    by_cases hv : v row j = true
    · rw [if_neg (by simp [hv])]
      obtain ⟨h1, h2⟩ := ih (j + 1) (by omega)
      refine ⟨fun h => ?_, fun h c hjc hcc => ?_⟩
      · obtain ⟨a, b, c, d⟩ := h1 h
        refine ⟨by omega, b, c, fun c' hc1 hc2 => ?_⟩
        rcases Nat.eq_or_lt_of_le hc1 with e | e
        · rw [← e]; exact hv
        · exact d c' e hc2
      · rcases Nat.eq_or_lt_of_le hjc with e | e
        · rw [← e]; exact hv
        · exact h2 h c e hcc
    · rw [if_pos (by simp [hv])]
      refine ⟨fun _ => ⟨le_rfl, hc, by simpa using hv, fun c h1 h2 => ?_⟩,
        fun h => Bool.noConfusion h⟩
      omega

lemma find_unvisited_spec (rows cols : ℕ) (v : ℕ → ℕ → Bool) :
    ∀ (n i j : ℕ), rows - i = n →
      ((find_unvisited rows cols v i j).2.2 = true →
        (find_unvisited rows cols v i j).1 < rows
        ∧ (find_unvisited rows cols v i j).2.1 < cols
        ∧ v (find_unvisited rows cols v i j).1 (find_unvisited rows cols v i j).2.1 = false
        ∧ ¬ before (find_unvisited rows cols v i j).1 (find_unvisited rows cols v i j).2.1 i j
        ∧ ∀ r c, c < cols → ¬ before r c i j →
            before r c (find_unvisited rows cols v i j).1 (find_unvisited rows cols v i j).2.1 →
            v r c = true)
      ∧ ((find_unvisited rows cols v i j).2.2 = false →
          ∀ r c, r < rows → c < cols → ¬ before r c i j → v r c = true) := by
  intro n
  induction n with
  | zero =>
    intro i j hi
    have hc : ¬ i < rows := by omega
    rw [find_unvisited, if_neg hc]
    refine ⟨fun h => Bool.noConfusion h, fun _ r c hr _ hb => ?_⟩
    exact absurd (Or.inl (by omega)) hb
  | succ n ih =>
    intro i j hi
    have hc : i < rows := by omega
    obtain ⟨f1, f2⟩ := find_in_row_spec cols v i (cols - j) j rfl
    rw [find_unvisited, if_pos hc]
    by_cases hf : (find_in_row cols v i j).2 = true
    · rw [if_pos hf]
      dsimp only
      obtain ⟨a, b, c, d⟩ := f1 hf
      refine ⟨fun _ => ⟨hc, b, c, ?_, fun r c' _ h1 h2 => ?_⟩, fun h => Bool.noConfusion h⟩
      · unfold before
        omega
      · unfold before at h1 h2
        have hr : r = i := by omega
        subst hr
        exact d c' (by omega) (by omega)
    · rw [if_neg hf]
      have hf' : (find_in_row cols v i j).2 = false := by simpa using hf
      have f2' := f2 hf'
      obtain ⟨h1, h2⟩ := ih (i + 1) 0 (by omega)
      refine ⟨fun h => ?_, fun h r c hr hcc hb => ?_⟩
      · obtain ⟨a, b, c, d, e⟩ := h1 h
        refine ⟨a, b, c, ?_, fun r c' hc' hb1 hb2 => ?_⟩
        · unfold before at d ⊢
          omega
        · by_cases hri : r = i
          · subst hri
            unfold before at hb1
            exact f2' c' (by omega) hc'
          · refine e r c' hc' ?_ hb2
            unfold before at hb1 ⊢
            omega
      · by_cases hri : r = i
        · subst hri
          unfold before at hb
          exact f2' c (by omega) hcc
        · refine h2 h r c hr hcc ?_
          unfold before at hb ⊢
          omega

lemma set_visited_iff (v : ℕ → ℕ → Bool) (row col r c : ℕ) :
    set_visited v row col r c = true ↔ v r c = true ∨ (r = row ∧ c = col) := by
  unfold set_visited
  by_cases h : r = row ∧ c = col
  · simp [h]
  · simp [h]

lemma eq_false_of_set_visited (v : ℕ → ℕ → Bool) (row col r c : ℕ)
    (h : set_visited v row col r c = false) : v r c = false := by
  cases hv : v r c
  · rfl
  · have := (set_visited_iff v row col r c).mpr (Or.inl hv)
    rw [h] at this
    exact Bool.noConfusion this

lemma extend_right_spec (cols row : ℕ) :
    ∀ (n : ℕ) (v : ℕ → ℕ → Bool) (j : ℕ), cols - j = n →
      j ≤ (extend_right cols row v j).2
      ∧ (j ≤ cols → (extend_right cols row v j).2 ≤ cols)
      ∧ (j < cols → v row j = false → j < (extend_right cols row v j).2)
      ∧ (∀ c, j ≤ c → c < (extend_right cols row v j).2 → v row c = false)
      ∧ (∀ r c, (extend_right cols row v j).1 r c = true
          ↔ v r c = true ∨ (r = row ∧ j ≤ c ∧ c < (extend_right cols row v j).2)) := by
  intro n
  induction n with
  | zero =>
    intro v j hj
    have hc : ¬ j < cols := by omega
    rw [extend_right, if_neg hc]
    refine ⟨le_rfl, fun h => h, fun h => absurd h hc, fun c h1 h2 => ?_, fun r c => ?_⟩
    · dsimp only at h2
      omega
    · dsimp only
      constructor
      · exact fun h => Or.inl h
      · rintro (h | ⟨-, h1, h2⟩)
        · exact h
        · omega
  | succ n ih =>
    intro v j hj
    have hc : j < cols := by omega
    rw [extend_right, if_pos hc]
    by_cases hv : v row j = true
    · rw [if_pos hv]
      refine ⟨le_rfl, fun h => h, fun _ h => ?_, fun c h1 h2 => ?_, fun r c => ?_⟩
      · rw [hv] at h
        exact Bool.noConfusion h
      · dsimp only at h2
        omega
      · dsimp only
        constructor
        · exact fun h => Or.inl h
        · rintro (h | ⟨-, h1, h2⟩)
          · exact h
          · omega
    · rw [if_neg hv]
      have hv' : v row j = false := by simpa using hv
      obtain ⟨a, b, -, d, e⟩ := ih (set_visited v row j) (j + 1) (by omega)
      refine ⟨by omega, fun _ => b (by omega), fun _ _ => by omega, fun c h1 h2 => ?_,
        fun r c => ?_⟩
      · rcases Nat.eq_or_lt_of_le h1 with h | h
        · rw [← h]
          exact hv'
        · exact eq_false_of_set_visited v row j row c (d c h h2)
      · rw [e r c, set_visited_iff]
        constructor
        · rintro ((h | ⟨h1, h2⟩) | ⟨h1, h2, h3⟩)
          · exact Or.inl h
          · exact Or.inr ⟨h1, by omega, by omega⟩
          · exact Or.inr ⟨h1, by omega, h3⟩
        · rintro (h | ⟨h1, h2, h3⟩)
          · exact Or.inl (Or.inl h)
          · rcases Nat.eq_or_lt_of_le h2 with h | h
            · exact Or.inl (Or.inr ⟨h1, h.symm⟩)
            · exact Or.inr ⟨h1, h, h3⟩

lemma valid_row_spec (v : ℕ → ℕ → Bool) (row ce : ℕ) :
    ∀ (n j : ℕ), ce - j = n →
      (valid_row v row ce j = true ↔ ∀ c, j ≤ c → c < ce → v row c = false) := by
  intro n
  induction n with
  | zero =>
    intro j hj
    have hc : ¬ j < ce := by omega
    rw [valid_row, if_neg hc]
    exact ⟨fun _ c h1 h2 => by omega, fun _ => rfl⟩
  | succ n ih =>
    intro j hj
    have hc : j < ce := by omega
    rw [valid_row, if_pos hc]
    by_cases hv : v row j = true
    · rw [if_pos hv]
      constructor
      · exact fun h => Bool.noConfusion h
      · intro h
        have := h j le_rfl hc
        rw [hv] at this
        exact Bool.noConfusion this
    · rw [if_neg hv, ih (j + 1) (by omega)]
      have hv' : v row j = false := by simpa using hv
      constructor
      · intro h c h1 h2
        rcases Nat.eq_or_lt_of_le h1 with e | e
        · rw [← e]
          exact hv'
        · exact h c e h2
      · exact fun h c h1 h2 => h c (by omega) h2

lemma mark_row_spec (row ce : ℕ) :
    ∀ (n : ℕ) (v : ℕ → ℕ → Bool) (j : ℕ), ce - j = n →
      ∀ r c, (mark_row row ce v j r c = true ↔ v r c = true ∨ (r = row ∧ j ≤ c ∧ c < ce)) := by
  intro n
  induction n with
  | zero =>
    intro v j hj r c
    have hc : ¬ j < ce := by omega
    rw [mark_row, if_neg hc]
    constructor
    · exact fun h => Or.inl h
    · rintro (h | ⟨-, h1, h2⟩)
      · exact h
      · omega
  | succ n ih =>
    intro v j hj r c
    have hc : j < ce := by omega
    rw [mark_row, if_pos hc, ih (set_visited v row j) (j + 1) (by omega), set_visited_iff]
    constructor
    · rintro ((h | ⟨h1, h2⟩) | ⟨h1, h2, h3⟩)
      · exact Or.inl h
      · exact Or.inr ⟨h1, by omega, by omega⟩
      · exact Or.inr ⟨h1, by omega, h3⟩
    · rintro (h | ⟨h1, h2, h3⟩)
      · exact Or.inl (Or.inl h)
      · rcases Nat.eq_or_lt_of_le h2 with h | h
        · exact Or.inl (Or.inr ⟨h1, h.symm⟩)
        · exact Or.inr ⟨h1, h, h3⟩

lemma extend_down_spec (rows cs ce : ℕ) :
    ∀ (n : ℕ) (v : ℕ → ℕ → Bool) (e : ℕ), rows - 1 - e = n →
      e ≤ (extend_down rows cs ce v e).2
      ∧ (e < rows → (extend_down rows cs ce v e).2 < rows)
      ∧ (∀ r c, e < r → r ≤ (extend_down rows cs ce v e).2 → cs ≤ c → c < ce → v r c = false)
      ∧ (∀ r c, (extend_down rows cs ce v e).1 r c = true
          ↔ v r c = true
            ∨ (e < r ∧ r ≤ (extend_down rows cs ce v e).2 ∧ cs ≤ c ∧ c < ce)) := by
  intro n
  induction n with
  | zero =>
    intro v e he
    have hc : ¬ e < rows - 1 := by omega
    rw [extend_down, if_neg hc]
    dsimp only
    refine ⟨le_rfl, fun h => h, fun r c h1 h2 => by omega, fun r c => ?_⟩
    constructor
    · exact fun h => Or.inl h
    · rintro (h | ⟨h1, h2, -⟩)
      · exact h
      · omega
  | succ n ih =>
    intro v e he
    have hc : e < rows - 1 := by omega
    rw [extend_down, if_pos hc]
    by_cases hv : valid_row v (e + 1) ce cs = true
    · rw [if_neg (by simp [hv])]
      have hvr := (valid_row_spec v (e + 1) ce (ce - cs) cs rfl).mp hv
      have hm := mark_row_spec (e + 1) ce (ce - cs) v cs rfl
      obtain ⟨a, b, c, d⟩ := ih (mark_row (e + 1) ce v cs) (e + 1) (by omega)
      refine ⟨by omega, fun _ => b (by omega), fun r c' h1 h2 h3 h4 => ?_, fun r c' => ?_⟩
      · rcases Nat.eq_or_lt_of_le (Nat.succ_le_of_lt h1) with h | h
        · rw [← h]
          exact hvr c' h3 h4
        · have := c r c' h h2 h3 h4
          cases hvv : v r c'
          · rfl
          · have h' := (hm r c').mpr (Or.inl hvv)
            rw [this] at h'
            exact Bool.noConfusion h'
      · rw [d r c', hm r c']
        constructor
        · rintro ((h | ⟨h1, h2, h3⟩) | ⟨h1, h2, h3, h4⟩)
          · exact Or.inl h
          · exact Or.inr ⟨by omega, by omega, h2, h3⟩
          · exact Or.inr ⟨by omega, h2, h3, h4⟩
        · rintro (h | ⟨h1, h2, h3, h4⟩)
          · exact Or.inl (Or.inl h)
          · rcases Nat.eq_or_lt_of_le (Nat.succ_le_of_lt h1) with h | h
            · exact Or.inl (Or.inr ⟨h.symm, h3, h4⟩)
            · exact Or.inr ⟨h, h2, h3, h4⟩
    · rw [if_pos (by simp [hv])]
      dsimp only
      rw [Nat.add_sub_cancel]
      refine ⟨le_rfl, fun h => h, fun r c h1 h2 => by omega, fun r c => ?_⟩
      constructor
      · exact fun h => Or.inl h
      · rintro (h | ⟨h1, h2, -⟩)
        · exact h
        · omega

variable {α : Type} [LinearOrderedField α]

lemma cell_in_mesh_collider (rs cs re ce r c : ℕ) (h1 : cs ≤ ce) (h2 : rs ≤ re) :
    cell_in_collider (mesh_collider α rs cs re ce) r c
      ↔ rs ≤ r ∧ r ≤ re ∧ cs ≤ c ∧ c < ce := by
  have hw : (0 : α) ≤ ((ce - cs : ℕ) : α) := Nat.cast_nonneg _
  have hh : (0 : α) ≤ ((re - rs + 1 : ℕ) : α) := Nat.cast_nonneg _
  have ew : ((ce - cs : ℕ) : α) = (ce : α) - cs := Nat.cast_sub h1
  have eh : ((re - rs + 1 : ℕ) : α) = (re : α) - rs + 1 := by
    rw [Nat.cast_add, Nat.cast_sub h2, Nat.cast_one]
  unfold mesh_collider cell_in_collider
  rw [basic_collider_2d.new_eq_of_nonneg _ _ _ _ hw hh, ew, eh]
  simp only [basic_collider_2d.get_left_x, basic_collider_2d.get_right_x,
    basic_collider_2d.get_bottom_y, basic_collider_2d.get_top_y, coordinate_2d.get_x_pos,
    coordinate_2d.get_y_pos]
  have e1 : (cs : α) + ((ce : α) - cs) / 2 - ((ce : α) - cs) / 2 = cs := by ring
  have e2 : (cs : α) + ((ce : α) - cs) / 2 + ((ce : α) - cs) / 2 = ce := by ring
  have e3 : (rs : α) + ((re : α) - rs + 1) / 2 - ((re : α) - rs + 1) / 2 = rs := by ring
  have e4 : (rs : α) + ((re : α) - rs + 1) / 2 + ((re : α) - rs + 1) / 2 = ((re + 1 : ℕ) : α) := by
    push_cast
    ring
  rw [e1, e2, e3, e4]
  have e5 : (c : α) + 1 = ((c + 1 : ℕ) : α) := by push_cast; rfl
  have e6 : (r : α) + 1 = ((r + 1 : ℕ) : α) := by push_cast; rfl
  rw [e5, e6, Nat.cast_le, Nat.cast_le, Nat.cast_le, Nat.cast_le]
  omega

variable {α : Type} [LinearOrderedField α]

lemma countP_append_singleton (l : List (basic_collider_2d α)) (m : basic_collider_2d α)
    (r c : ℕ) :
    (l ++ [m]).countP (fun k => decide (cell_in_collider k r c))
      = l.countP (fun k => decide (cell_in_collider k r c))
        + if cell_in_collider m r c then 1 else 0 := by
  rw [List.countP_append, List.countP_cons, List.countP_nil, zero_add]
  by_cases h : cell_in_collider m r c
  · simp [h]
  · simp [h]

lemma merge_loop_spec (rows cols : ℕ) (v0 : ℕ → ℕ → Bool) :
    ∀ (fuel : ℕ) (v : ℕ → ℕ → Bool) (rs cs : ℕ) (colliders : List (basic_collider_2d α)),
      (∀ r c, v0 r c = true → v r c = true) →
      (∀ r c, colliders.countP (fun k => decide (cell_in_collider k r c))
          = if r < rows ∧ c < cols ∧ v0 r c = false ∧ v r c = true then 1 else 0) →
      (∀ r c, r < rows → c < cols → before r c rs cs → v r c = true) →
      (cols = 0 ∨ cs < cols) →
      rows * cols - (rs * cols + cs) + (if v rs cs = true then 0 else 1) + 1 ≤ fuel →
      ∃ out, merge_loop α rows cols fuel v rs cs colliders = some out
        ∧ ∀ r c, out.countP (fun k => decide (cell_in_collider k r c))
            = if r < rows ∧ c < cols ∧ v0 r c = false then 1 else 0 := by
  intro fuel
  induction fuel with
  | zero =>
    intro v rs cs colliders _ _ _ _ hf
    omega
  | succ fuel ih =>
    intro v rs cs colliders hmono hcnt hpre hpos hf
    -- when every cell of the grid is visited the colliders are as claimed
    have hdone : (∀ r c, r < rows → c < cols → v r c = true) →
        ∀ r c, colliders.countP (fun k => decide (cell_in_collider k r c))
            = if r < rows ∧ c < cols ∧ v0 r c = false then 1 else 0 := by
      intro hall r c
      rw [hcnt r c]
      by_cases h : r < rows ∧ c < cols ∧ v0 r c = false
      · rw [if_pos h, if_pos ⟨h.1, h.2.1, h.2.2, hall r c h.1 h.2.1⟩]
      · rw [if_neg h, if_neg (fun h' => h ⟨h'.1, h'.2.1, h'.2.2.1⟩)]
    rw [merge_loop]
    by_cases hcond : rs < rows ∧ cs < cols
    swap
    · rw [if_neg hcond]
      refine ⟨colliders, rfl, hdone (fun r c hr hc => ?_)⟩
      rcases hpos with h | h
      · omega
      · exact hpre r c hr hc (Or.inl (by omega))
    rw [if_pos hcond]
    dsimp only
    obtain ⟨f1, f2⟩ := find_unvisited_spec rows cols v (rows - rs) rs cs rfl
    by_cases hfound : (find_unvisited rows cols v rs cs).2.2 = true
    swap
    · rw [if_pos (by simpa using hfound)]
      have hfound' : (find_unvisited rows cols v rs cs).2.2 = false := by simpa using hfound
      refine ⟨colliders, rfl, hdone (fun r c hr hc => ?_)⟩
      by_cases hb : before r c rs cs
      · exact hpre r c hr hc hb
      · exact f2 hfound' r c hr hc hb
    rw [if_neg (by simp [hfound])]
    obtain ⟨g1, g2, g3, g4, g5⟩ := f1 hfound
    generalize (find_unvisited rows cols v rs cs).1 = rs' at g1 g2 g3 g4 g5 ⊢
    generalize (find_unvisited rows cols v rs cs).2.1 = cs' at g1 g2 g3 g4 g5 ⊢
    obtain ⟨a1, a2, a3, a4, a5⟩ := extend_right_spec cols rs' (cols - cs') v cs' rfl
    have a2' := a2 g2.le
    have a3' := a3 g2 g3
    generalize hce : (extend_right cols rs' v cs').2 = ce at a1 a2' a3' a4 a5 ⊢
    generalize hv1 : (extend_right cols rs' v cs').1 = v1 at a5 ⊢
    obtain ⟨b1, b2, b3, b4⟩ := extend_down_spec rows cs' ce (rows - 1 - rs') v1 rs' rfl
    have b2' := b2 g1
    generalize hre : (extend_down rows cs' ce v1 rs').2 = re at b1 b2' b3 b4 ⊢
    generalize hv2 : (extend_down rows cs' ce v1 rs').1 = v2 at b4 ⊢
    -- the new visit grid is the old one with the cells of the mesh added
    have hv2iff : ∀ r c, v2 r c = true
        ↔ v r c = true ∨ (rs' ≤ r ∧ r ≤ re ∧ cs' ≤ c ∧ c < ce) := by
      intro r c
      rw [b4 r c, a5 r c]
      constructor
      · rintro ((h | ⟨h1, h2, h3⟩) | ⟨h1, h2, h3, h4⟩)
        · exact Or.inl h
        · exact Or.inr ⟨by omega, by omega, h2, h3⟩
        · exact Or.inr ⟨by omega, h2, h3, h4⟩
      · rintro (h | ⟨h1, h2, h3, h4⟩)
        · exact Or.inl (Or.inl h)
        · rcases Nat.eq_or_lt_of_le h1 with h | h
          · exact Or.inl (Or.inr ⟨h.symm, h3, h4⟩)
          · exact Or.inr ⟨h, h2, h3, h4⟩
    -- the cells of the mesh were not visited before
    have hfresh : ∀ r c, rs' ≤ r → r ≤ re → cs' ≤ c → c < ce → v r c = false := by
      intro r c h1 h2 h3 h4
      rcases Nat.eq_or_lt_of_le h1 with h | h
      · rw [← h]
        exact a4 c h3 h4
      · have := b3 r c h h2 h3 h4
        cases hvv : v r c
        · rfl
        · have h' := (a5 r c).mpr (Or.inl hvv)
          rw [this] at h'
          exact Bool.noConfusion h'
    have hvisited : v2 rs' cs' = true := (hv2iff rs' cs').mpr (Or.inr ⟨le_rfl, b1, le_rfl, a3'⟩)
    apply ih v2 rs' cs' _
    · exact fun r c h => (hv2iff r c).mpr (Or.inl (hmono r c h))
    · intro r c
      rw [countP_append_singleton, hcnt r c]
      by_cases hin : rs' ≤ r ∧ r ≤ re ∧ cs' ≤ c ∧ c < ce
      · have hfr := hfresh r c hin.1 hin.2.1 hin.2.2.1 hin.2.2.2
        have hv0 : v0 r c = false := by
          cases h0 : v0 r c
          · rfl
          · have := hmono r c h0
            rw [hfr] at this
            exact Bool.noConfusion this
        rw [if_neg (by rw [hfr]; simp),
          if_pos ((cell_in_mesh_collider rs' cs' re ce r c (by omega) b1).mpr hin),
          if_pos ⟨by omega, by omega, hv0, (hv2iff r c).mpr (Or.inr hin)⟩]
      · rw [if_neg (fun h => hin ((cell_in_mesh_collider rs' cs' re ce r c (by omega) b1).mp h)),
          add_zero]
        have e : v2 r c = true ↔ v r c = true := by
          rw [hv2iff]
          exact ⟨fun h => h.resolve_right hin, Or.inl⟩
        simp only [e]
    · intro r c hr hc hb
      by_cases hb' : before r c rs cs
      · exact (hv2iff r c).mpr (Or.inl (hpre r c hr hc hb'))
      · exact (hv2iff r c).mpr (Or.inl (g5 r c hc hb' hb))
    · exact Or.inr g2
    · rw [if_pos hvisited]
      have hlt : rs' * cols + cs' < rows * cols := by
        have := Nat.mul_le_mul_right cols (Nat.succ_le_of_lt g1)
        rw [Nat.succ_mul] at this
        omega
      have hge : rs * cols + cs ≤ rs' * cols + cs' ∧
          (v rs cs = true → rs * cols + cs < rs' * cols + cs') := by
        unfold before at g4
        rcases Nat.lt_or_ge rs rs' with h | h
        · have := Nat.mul_le_mul_right cols (Nat.succ_le_of_lt h)
          rw [Nat.succ_mul] at this
          constructor
          · omega
          · intro _
            omega
        · have hrs : rs' = rs := by omega
          subst hrs
          have hcs : cs ≤ cs' := by omega
          refine ⟨by omega, fun hv => ?_⟩
          rcases Nat.eq_or_lt_of_le hcs with h | h
          · subst h
            rw [hv] at g3
            exact Bool.noConfusion g3
          · omega
      by_cases hv : v rs cs = true
      · rw [if_pos hv] at hf
        have := hge.2 hv
        omega
      · rw [if_neg hv] at hf
        have := hge.1
        omega

variable {α : Type} [LinearOrderedField α]

lemma foldl_longest_spec (grid : List (List ℕ)) :
    ∀ init : ℕ,
      init ≤ grid.foldl (fun longest row => if row.length > longest then row.length else longest)
        init
      ∧ ∀ row ∈ grid, row.length
          ≤ grid.foldl (fun longest row => if row.length > longest then row.length else longest)
            init := by
  induction grid with
  | nil =>
    intro init
    exact ⟨le_rfl, fun row h => absurd h (List.not_mem_nil row)⟩
  | cons a l ih =>
    intro init
    rw [List.foldl_cons]
    obtain ⟨h1, h2⟩ := ih (if a.length > init then a.length else init)
    have h3 : init ≤ (if a.length > init then a.length else init)
        ∧ a.length ≤ (if a.length > init then a.length else init) := by
      split_ifs with h
      · exact ⟨by omega, le_rfl⟩
      · exact ⟨le_rfl, by omega⟩
    refine ⟨h3.1.trans h1, fun row hrow => ?_⟩
    rcases List.mem_cons.mp hrow with h | h
    · rw [h]
      exact h3.2.trans h1
    · exact h2 row h

lemma length_le_longest_row_cols (grid : List (List ℕ)) (row : List ℕ) (h : row ∈ grid) :
    row.length ≤ longest_row_cols grid :=
  (foldl_longest_spec grid 0).2 row h

lemma getD_append_replicate_zero (row : List ℕ) (n c : ℕ) :
    (row ++ List.replicate n 0)[c]?.getD 0 = row[c]?.getD 0 := by
  rcases Nat.lt_or_ge c row.length with h | h
  · rw [List.getElem?_append_left h]
  · rw [List.getElem?_append_right h, List.getElem?_eq_none h, Option.getD_none]
    rcases Nat.lt_or_ge (c - row.length) n with h' | h'
    · rw [List.getElem?_replicate, if_pos h', Option.getD_some]
    · rw [List.getElem?_eq_none (by rw [List.length_replicate]; exact h'), Option.getD_none]

lemma grid_at_copy_grid (grid : List (List ℕ)) (r c : ℕ) :
    grid_at (copy_grid grid) r c = grid_at grid r c := by
  unfold grid_at copy_grid
  simp only [List.getD_eq_getElem?_getD, List.getElem?_map]
  cases h : grid[r]? with
  | none => rfl
  | some row =>
    simp only [Option.map_some', Option.getD_some]
    exact getD_append_replicate_zero row _ c

lemma length_copy_grid (grid : List (List ℕ)) : (copy_grid grid).length = grid.length := by
  unfold copy_grid
  rw [List.length_map]

lemma cols_copy_grid (grid : List (List ℕ)) (hne : grid ≠ []) :
    ((copy_grid grid).getD 0 []).length = longest_row_cols grid := by
  cases grid with
  | nil => exact absurd rfl hne
  | cons a l =>
    have h := length_le_longest_row_cols (a :: l) a (List.mem_cons_self a l)
    unfold copy_grid
    rw [List.map_cons, List.getD_cons_zero, List.length_append, List.length_replicate]
    omega

lemma grid_at_ne_zero (grid : List (List ℕ)) (r c : ℕ) (h : grid_at grid r c ≠ 0) :
    r < grid.length ∧ c < longest_row_cols grid := by
  unfold grid_at at h
  rw [List.getD_eq_getElem?_getD, List.getD_eq_getElem?_getD] at h
  rcases Nat.lt_or_ge r grid.length with hr | hr
  swap
  · rw [List.getElem?_eq_none hr] at h
    exact absurd rfl h
  refine ⟨hr, ?_⟩
  rw [List.getElem?_eq_getElem hr, Option.getD_some] at h
  rcases Nat.lt_or_ge c (grid[r]).length with hc | hc
  · exact lt_of_lt_of_le hc (length_le_longest_row_cols grid _ (List.getElem_mem hr))
  · rw [List.getElem?_eq_none hc] at h
    exact absurd rfl h

/-- C26: for every non-empty occupancy grid (its rows are padded with zeros to the length of
the longest row, so a rectangular grid is used as it is) the merging loop terminates, within
`rows * cols + 2` units of fuel, and the colliders it produces cover exactly the filled cells:
every nonzero cell `(r, c)` lies in the cell rectangle of exactly one collider, and a cell that
is zero (or outside the grid) lies in none. -/
theorem generate_colliders_cover (grid : List (List ℕ)) (fuel : ℕ) (hne : grid ≠ [])
    (hfuel : grid.length * longest_row_cols grid + 2 ≤ fuel) :
    ∃ colliders : List (basic_collider_2d α),
      generate_colliders α grid fuel = some colliders
      ∧ ∀ r c,
        (grid_at grid r c ≠ 0 →
          colliders.countP (fun k => decide (cell_in_collider k r c)) = 1)
        ∧ (grid_at grid r c = 0 → ∀ k ∈ colliders, ¬ cell_in_collider k r c) := by
  have hspec := merge_loop_spec (copy_grid grid).length ((copy_grid grid).getD 0 []).length
    (initial_visit_grid (copy_grid grid)) fuel (initial_visit_grid (copy_grid grid)) 0 0
    ([] : List (basic_collider_2d α)) (fun _ _ h => h)
    (fun r c => by
      rw [List.countP_nil, if_neg]
      rintro ⟨-, -, h1, h2⟩
      rw [h1] at h2
      exact Bool.noConfusion h2)
    (fun r c _ _ hb => by
      unfold before at hb
      omega)
    (by omega)
    (by
      rw [length_copy_grid, cols_copy_grid grid hne]
      split_ifs <;> omega)
  obtain ⟨out, h1, h2⟩ := hspec
  refine ⟨out, ?_, fun r c => ⟨fun hnz => ?_, fun hz k hk hin => ?_⟩⟩
  · rw [generate_colliders, if_neg hne]
    exact h1
  · obtain ⟨hr, hc⟩ := grid_at_ne_zero grid r c hnz
    rw [h2 r c, if_pos]
    refine ⟨by rw [length_copy_grid]; exact hr, by rw [cols_copy_grid grid hne]; exact hc, ?_⟩
    unfold initial_visit_grid
    rw [grid_at_copy_grid]
    exact decide_eq_false hnz
  · have h3 := h2 r c
    rw [if_neg] at h3
    · have hpos : 0 < out.countP (fun k => decide (cell_in_collider k r c)) :=
        List.countP_pos_iff.mpr ⟨k, hk, decide_eq_true hin⟩
      omega
    · rintro ⟨-, -, h4⟩
      unfold initial_visit_grid at h4
      rw [grid_at_copy_grid, hz] at h4
      exact Bool.noConfusion h4

end raycaster

/-- Witness for C26 on the grid `{{1, 1, 0}, {1, 1, 0}, {0, 1, 1}}`. -/
theorem generate_colliders_cover_witness :
    (([[1, 1, 0], [1, 1, 0], [0, 1, 1]] : List (List ℕ)) ≠ []
      ∧ ([[1, 1, 0], [1, 1, 0], [0, 1, 1]] : List (List ℕ)).length
          * raycaster.longest_row_cols [[1, 1, 0], [1, 1, 0], [0, 1, 1]] + 2 ≤ 11)
    ∧ ∃ colliders : List (basic_collider_2d ℚ),
      raycaster.generate_colliders ℚ [[1, 1, 0], [1, 1, 0], [0, 1, 1]] 11 = some colliders
      ∧ ∀ r c,
        (raycaster.grid_at [[1, 1, 0], [1, 1, 0], [0, 1, 1]] r c ≠ 0 →
          colliders.countP (fun k => decide (cell_in_collider k r c)) = 1)
        ∧ (raycaster.grid_at [[1, 1, 0], [1, 1, 0], [0, 1, 1]] r c = 0 →
            ∀ k ∈ colliders, ¬ cell_in_collider k r c) :=
  have h1 : ([[1, 1, 0], [1, 1, 0], [0, 1, 1]] : List (List ℕ)) ≠ [] := by decide
  have h2 : ([[1, 1, 0], [1, 1, 0], [0, 1, 1]] : List (List ℕ)).length
      * raycaster.longest_row_cols [[1, 1, 0], [1, 1, 0], [0, 1, 1]] + 2 ≤ 11 := by decide
  ⟨⟨h1, h2⟩, raycaster.generate_colliders_cover _ 11 h1 h2⟩

/-! ## Theorems: what the searches do inside their bounds -/

namespace search_algorithms

variable {α : Type} [LinearOrder α]

/-- Inside the list the loop of `linear_search` never throws and returns the first index from
`i` up to `e` that holds the target, or nullopt when there is none. -/
lemma linear_search_loop_spec (list : List α) (target : α) (e : ℕ) (he : e < list.length) :
    ∀ (n i : ℕ), e + 1 - i = n →
      (∀ k, linear_search_loop list target e i = Except.ok (some k)
          ↔ i ≤ k ∧ k ≤ e ∧ list[k]? = some target
            ∧ ∀ j, i ≤ j → j < k → list[j]? ≠ some target)
      ∧ (linear_search_loop list target e i = Except.ok none
          ↔ ∀ j, i ≤ j → j ≤ e → list[j]? ≠ some target)
      ∧ linear_search_loop list target e i ≠ Except.error exception.out_of_range := by
  intro n
  induction n with
  | zero =>
    intro i hi
    have hc : ¬ i ≤ e := by omega
    rw [linear_search_loop, if_neg hc]
    refine ⟨fun k => ⟨fun h => ?_, fun h => ?_⟩, ⟨fun _ j h1 h2 => ?_, fun _ => rfl⟩, ?_⟩
    · exact Option.noConfusion (Except.ok.inj h)
    · omega
    · omega
    · exact fun h => Except.noConfusion h
  | succ n ih =>
    intro i hi
    have hc : i ≤ e := by omega
    have hil : i < list.length := by omega
    obtain ⟨h1, h2, h3⟩ := ih (i + 1) (by omega)
    rw [linear_search_loop, if_pos hc, List.getElem?_eq_getElem hil]
    dsimp only
    by_cases hx : list[i] = target
    · rw [if_pos hx]
      refine ⟨fun k => ⟨fun h => ?_, fun h => ?_⟩, ⟨fun h => ?_, fun h => ?_⟩, ?_⟩
      · have hk : i = k := Option.some.inj (Except.ok.inj h)
        subst hk
        refine ⟨le_rfl, hc, ?_, fun j h1 h2 => by omega⟩
        rw [List.getElem?_eq_getElem hil, hx]
      · obtain ⟨a, b, c, d⟩ := h
        rcases Nat.eq_or_lt_of_le a with h | h
        · rw [h]
        · exact absurd (by rw [List.getElem?_eq_getElem hil, hx]) (d i le_rfl h)
      · exact Option.noConfusion (Except.ok.inj h)
      · exact absurd (by rw [List.getElem?_eq_getElem hil, hx]) (h i le_rfl hc)
      · exact fun h => Except.noConfusion h
    · rw [if_neg hx]
      have hne : list[i]? ≠ some target := by
        rw [List.getElem?_eq_getElem hil]
        exact fun h => hx (Option.some.inj h)
      refine ⟨fun k => ?_, ?_, h3⟩
      · rw [h1 k]
        constructor
        · rintro ⟨a, b, c, d⟩
          refine ⟨by omega, b, c, fun j hj1 hj2 => ?_⟩
          rcases Nat.eq_or_lt_of_le hj1 with h | h
          · rw [← h]
            exact hne
          · exact d j h hj2
        · rintro ⟨a, b, c, d⟩
          rcases Nat.eq_or_lt_of_le a with h | h
          · rw [← h] at c
            exact absurd c hne
          · exact ⟨h, b, c, fun j hj1 hj2 => d j (by omega) hj2⟩
      · rw [h2]
        constructor
        · intro h j hj1 hj2
          rcases Nat.eq_or_lt_of_le hj1 with h' | h'
          · rw [← h']
            exact hne
          · exact h j h' hj2
        · exact fun h j hj1 hj2 => h j (by omega) hj2

/-- With `lower_bounds` inside the list, `linear_search` returns `Some(k)` exactly for the
smallest index `k` between the bounds that holds the target. -/
lemma linear_search_of_lower_lt (list : List α) (target : α) (lower upper : ℕ)
    (hl : lower < list.length) (k : ℕ) :
    linear_search list target lower upper = Except.ok (some k)
      ↔ lower ≤ k ∧ k ≤ upper ∧ k < list.length ∧ list[k]? = some target
        ∧ ∀ j, lower ≤ j → j < k → list[j]? ≠ some target := by
  have hne : ¬ list.length = 0 := by omega
  have hs : (if lower ≥ list.length then list.length - 1 else lower) = lower :=
    if_neg (by omega)
  rw [linear_search, if_neg hne]
  dsimp only
  rw [hs]
  by_cases hu : upper ≥ list.length
  · have hend : (if upper ≥ list.length then list.length - 1 else upper) = list.length - 1 :=
      if_pos hu
    rw [hend, (linear_search_loop_spec list target (list.length - 1) (by omega) _ lower rfl).1 k]
    constructor
    · rintro ⟨a, b, c, d⟩
      exact ⟨a, by omega, by omega, c, d⟩
    · rintro ⟨a, b, c, d, e⟩
      exact ⟨a, by omega, d, e⟩
  · have hend : (if upper ≥ list.length then list.length - 1 else upper) = upper := if_neg hu
    rw [hend, (linear_search_loop_spec list target upper (by omega) _ lower rfl).1 k]
    constructor
    · rintro ⟨a, b, c, d⟩
      exact ⟨a, b, by omega, c, d⟩
    · rintro ⟨a, b, c, d, e⟩
      exact ⟨a, b, d, e⟩

/-- On a list sorted in ascending order that holds the target at an index between `start` and
`end`, the loop of `binary_search` returns an index that holds the target. -/
lemma binary_search_loop_finds (list : List α) (target : α)
    (hsorted : ∀ (i j : ℕ) (hi : i < list.length) (hj : j < list.length), i < j →
      list[i] ≤ list[j])
    (hlen : list.length < 2 ^ 64) (p : ℕ) (hp : list[p]? = some target) :
    ∀ (fuel start end_index : ℕ), start ≤ p → p ≤ end_index → end_index < list.length →
      end_index - start < fuel →
      ∃ i, binary_search_loop list target fuel start end_index = some (Except.ok (some i))
        ∧ list[i]? = some target := by
  have hpl : p < list.length := by
    by_contra h
    rw [List.getElem?_eq_none (by omega)] at hp
    exact Option.noConfusion hp
  have hpt : list[p] = target := by
    rw [List.getElem?_eq_getElem hpl] at hp
    exact Option.some.inj hp
  intro fuel
  induction fuel with
  | zero =>
    intro start e _ _ _ hf
    omega
  | succ fuel ih =>
    intro start e h1 h2 h3 hf
    have hse : start ≤ e := by omega
    have hidx : (start + (e - start) / 2) % 2 ^ 64 = start + (e - start) / 2 :=
      Nat.mod_eq_of_lt (by omega)
    have hil : start + (e - start) / 2 < list.length := by omega
    rw [binary_search_loop, if_pos hse]
    dsimp only
    rw [hidx, List.getElem?_eq_getElem hil]
    dsimp only
    by_cases hx : list[start + (e - start) / 2] = target
    · rw [if_pos hx]
      exact ⟨_, rfl, by rw [List.getElem?_eq_getElem hil, hx]⟩
    · rw [if_neg hx]
      by_cases hlt : list[start + (e - start) / 2] < target
      · rw [if_pos hlt]
        have hp1 : start + (e - start) / 2 < p := by
          by_contra h
          rcases Nat.eq_or_lt_of_le (Nat.le_of_not_lt h) with h' | h'
          · exact hx (by rw [← hpt]; congr 1; exact h'.symm)
          · have := hsorted p _ hpl hil h'
            rw [hpt] at this
            exact absurd hlt (not_lt.mpr this)
        have e1 : (start + (e - start) / 2 + 1) % 2 ^ 64 = start + (e - start) / 2 + 1 :=
          Nat.mod_eq_of_lt (by omega)
        rw [e1]
        exact ih _ e (by omega) h2 h3 (by omega)
      · rw [if_neg hlt]
        have hp1 : p < start + (e - start) / 2 := by
          by_contra h
          rcases Nat.eq_or_lt_of_le (Nat.le_of_not_lt h) with h' | h'
          · exact hx (by rw [← hpt]; congr 1)
          · have := hsorted _ p hil hpl h'
            rw [hpt] at this
            exact hx (le_antisymm this (not_lt.mp hlt))
        have e1 : (start + (e - start) / 2 + 2 ^ 64 - 1) % 2 ^ 64
            = start + (e - start) / 2 - 1 := by
          omega
        rw [e1]
        exact ih start _ h1 (by omega) (by omega) (by omega)

/-- On a list sorted in ascending order (shorter than `2^64 - 1`) that holds the target,
`binary_search` with the default bounds returns an index that holds the target, given as many
units of fuel as the list is long. -/
lemma binary_search_finds (list : List α) (target : α)
    (hsorted : ∀ (i j : ℕ) (hi : i < list.length) (hj : j < list.length), i < j →
      list[i] ≤ list[j])
    (hlen : list.length < UINT64_MAX) (p : ℕ) (hp : list[p]? = some target) (fuel : ℕ)
    (hfuel : list.length ≤ fuel) :
    ∃ i, binary_search list target 0 UINT64_MAX fuel = some (Except.ok (some i))
      ∧ list[i]? = some target := by
  have hlen' : list.length < 2 ^ 64 := by
    unfold UINT64_MAX at hlen
    omega
  have hpl : p < list.length := by
    by_contra h
    rw [List.getElem?_eq_none (by omega)] at hp
    exact Option.noConfusion hp
  have hne : ¬ list.length = 0 := by omega
  have hs : (if 0 > list.length then list.length - 1 else 0) = 0 := if_neg (by omega)
  have he : (if UINT64_MAX > list.length then list.length - 1 else UINT64_MAX)
      = list.length - 1 := if_pos hlen
  rw [binary_search, if_neg hne]
  dsimp only
  rw [hs, he]
  exact binary_search_loop_finds list target hsorted hlen' p hp fuel 0 (list.length - 1)
    (by omega) (by omega) (by omega) (by omega)

end search_algorithms

/-! ## Theorems: greatest_common_divisor -/

namespace math_helper

lemma int_gcd_emod (a b : ℤ) (ha : 0 ≤ a) (hb : 0 ≤ b) : Int.gcd (a % b) b = Int.gcd a b := by
  lift a to ℕ using ha
  lift b to ℕ using hb
  rw [← Int.natCast_mod, Int.gcd_natCast_natCast, Int.gcd_natCast_natCast, ← Nat.gcd_rec,
    Nat.gcd_comm]

lemma greatest_common_divisor_loop_spec :
    ∀ (n : ℕ) (a b : ℤ), (a + b).toNat = n → 0 ≤ a → 0 ≤ b →
      0 ≤ (greatest_common_divisor_loop a b).1 ∧ 0 ≤ (greatest_common_divisor_loop a b).2
      ∧ ((greatest_common_divisor_loop a b).1 = 0 ∨ (greatest_common_divisor_loop a b).2 = 0)
      ∧ Int.gcd (greatest_common_divisor_loop a b).1 (greatest_common_divisor_loop a b).2
          = Int.gcd a b := by
  intro n
  induction n using Nat.strong_induction_on with
  | _ n ih =>
    intro a b hn ha hb
    rw [greatest_common_divisor_loop]
    by_cases h : a > 0 ∧ b > 0
    · rw [if_pos h]
      by_cases hab : a > b
      · rw [if_pos hab]
        have h1 := Int.tmod_lt_of_pos a h.2
        have h2 := Int.tmod_nonneg b h.1.le
        obtain ⟨r1, r2, r3, r4⟩ := ih (a.tmod b + b).toNat (by omega) (a.tmod b) b rfl h2 hb
        refine ⟨r1, r2, r3, ?_⟩
        rw [r4, Int.tmod_eq_emod ha hb, int_gcd_emod a b ha hb]
      · rw [if_neg hab]
        have h1 := Int.tmod_lt_of_pos b h.1
        have h2 := Int.tmod_nonneg a h.2.le
        obtain ⟨r1, r2, r3, r4⟩ := ih (a + b.tmod a).toNat (by omega) a (b.tmod a) rfl ha h2
        refine ⟨r1, r2, r3, ?_⟩
        rw [r4, Int.tmod_eq_emod hb ha, Int.gcd_comm, int_gcd_emod b a hb ha, Int.gcd_comm]
    · rw [if_neg h]
      refine ⟨ha, hb, ?_, rfl⟩
      dsimp only
      omega

/-- For positive arguments `greatest_common_divisor` returns the greatest common divisor. -/
lemma greatest_common_divisor_of_pos (num1 num2 : ℤ) (h1 : 0 < num1) (h2 : 0 < num2) :
    greatest_common_divisor num1 num2 = (Int.gcd num1 num2 : ℤ) := by
  obtain ⟨r1, r2, r3, r4⟩ :=
    greatest_common_divisor_loop_spec (num1 + num2).toNat num1 num2 rfl h1.le h2.le
  rw [greatest_common_divisor, if_neg (by omega)]
  dsimp only
  rw [← r4]
  split_ifs with h
  · rw [h, Int.gcd_zero_left, Int.natAbs_of_nonneg r2]
  · have h0 : (greatest_common_divisor_loop num1 num2).2 = 0 := r3.resolve_left h
    rw [h0, Int.gcd_zero_right, Int.natAbs_of_nonneg r1]

/-- When an argument is `0`, `greatest_common_divisor` returns `1`. -/
lemma greatest_common_divisor_of_zero (num1 num2 : ℤ) (h : num1 = 0 ∨ num2 = 0) :
    greatest_common_divisor num1 num2 = 1 := by
  rw [greatest_common_divisor, if_pos h]

end math_helper

/-- C31: `greatest_common_divisor<int>(-4, 6)` returns `-4`: the loop `while (a > 0 && b > 0)`
is not entered for a negative argument and `a` is returned as it is, although the greatest
common divisor of `-4` and `6` is `2` (and `-4` does not divide `6`). -/
theorem greatest_common_divisor_negative_argument :
    math_helper.greatest_common_divisor (-4) 6 = -4
    ∧ Int.gcd (-4) 6 = 2 ∧ ¬ ((-4 : ℤ) ∣ 6) := by
  refine ⟨?_, by decide, by decide⟩
  have hloop : math_helper.greatest_common_divisor_loop (-4) 6 = (-4, 6) := by
    rw [math_helper.greatest_common_divisor_loop, if_neg (by decide)]
  rw [math_helper.greatest_common_divisor, if_neg (by decide)]
  dsimp only
  rw [hloop, if_neg (by decide)]

/-! ## Theorems: bitwise_manipulator -/

/-- C32: on 8-bit values `get_subvalue` does not read back what `set_subvalue` wrote:
`set_subvalue(255, 0, 0, 4)` is `240`, and `get_subvalue(240, 0, 4)` is `16`, not `0` (the
shifts `value << (7 - range - start) >> (7 - range)` keep `range + 1` bits).  The documented
example `set_subvalue(51, 9, 0, 4) = 57` holds; the documented example `get_subvalue(19, 3, 5)`
shifts by `2 - 3 = -1`, which is undefined. -/
theorem get_subvalue_reads_one_bit_more :
    bitwise_manipulator.set_subvalue 255 0 0 4 = some 240
    ∧ bitwise_manipulator.get_subvalue 240 0 4 = some 16
    ∧ bitwise_manipulator.set_subvalue 51 9 0 4 = some 57
    ∧ bitwise_manipulator.get_subvalue 19 3 5 = none := by
  have hmask : bitwise_manipulator.bit_range_to_value 0 4 = some 15 := by decide
  have hclear : bitwise_manipulator.deactivate_bits_range 255 0 4 = some 240 := by
    rw [bitwise_manipulator.deactivate_bits_range, hmask]
    decide
  have hclear2 : bitwise_manipulator.deactivate_bits_range 51 0 4 = some 48 := by
    rw [bitwise_manipulator.deactivate_bits_range, hmask]
    decide
  have hleft : bitwise_manipulator.shift_left 240 (((2 ^ 64 + 1 * 8 - 1 - 4) % 2 ^ 64 % 256 : ℕ)
      - ((0 : ℕ) : ℤ)) = some 1920 := by decide
  have hundef : bitwise_manipulator.shift_left 19 (((2 ^ 64 + 1 * 8 - 1 - 5) % 2 ^ 64 % 256 : ℕ)
      - ((3 : ℕ) : ℤ)) = none := by decide
  refine ⟨?_, ?_, ?_, ?_⟩
  · rw [bitwise_manipulator.set_subvalue, hclear]
    decide
  · rw [bitwise_manipulator.get_subvalue, hleft]
    decide
  · rw [bitwise_manipulator.set_subvalue, hclear2]
    decide
  · rw [bitwise_manipulator.get_subvalue, hundef]

namespace bitwise_manipulator

/-- What `get_subvalue` computes on an 8-bit value when `start + range <= 7`: the
`range + 1` bits from the bit `start` on. -/
lemma get_subvalue_eq (v s r : ℕ) (h : s + r ≤ 7) :
    get_subvalue v s r = some (v / 2 ^ s % 2 ^ (r + 1)) := by
  have hm : (2 ^ 64 + 1 * 8 - 1 - r) % 2 ^ 64 % 256 = 7 - r := by omega
  have hc : (((7 - r : ℕ) : ℤ) - (s : ℤ)) = ((7 - r - s : ℕ) : ℤ) := by omega
  have h256 : 256 = 2 ^ (7 - r - s) * (2 ^ s * 2 ^ (r + 1)) := by
    rw [← pow_add, ← pow_add]
    have : 7 - r - s + (s + (r + 1)) = 8 := by omega
    rw [this]
    norm_num
  have hdiv : 2 ^ (7 - r) = 2 ^ (7 - r - s) * 2 ^ s := by
    rw [← pow_add]
    congr 1
    omega
  have hlt : v / 2 ^ s % 2 ^ (r + 1) < 256 := by
    have h1 : v / 2 ^ s % 2 ^ (r + 1) < 2 ^ (r + 1) := Nat.mod_lt _ (by positivity)
    have h2 : 2 ^ (r + 1) ≤ 2 ^ 8 := Nat.pow_le_pow_right (by norm_num) (by omega)
    omega
  have hmod : v * 2 ^ (7 - r - s) % 256 = 2 ^ (7 - r - s) * (v % (2 ^ s * 2 ^ (r + 1))) := by
    rw [mul_comm v, h256, Nat.mul_mod_mul_left]
  have key : v * 2 ^ (7 - r - s) % 256 / 2 ^ (7 - r) = v / 2 ^ s % 2 ^ (r + 1) := by
    rw [hmod, hdiv, Nat.mul_div_mul_left _ _ (by positivity), Nat.mod_mul_right_div_self]
  have hsl : shift_left v ((7 - r - s : ℕ) : ℤ) = some (v <<< (7 - r - s)) := by
    unfold shift_left
    rw [if_pos (by omega), Int.toNat_ofNat]
  have hsr : ∀ x, shift_right x (7 - r) = some (x >>> (7 - r)) := by
    intro x
    unfold shift_right
    rw [if_pos (by omega)]
  unfold get_subvalue
  dsimp only
  rw [hm, hc, hsl]
  dsimp only
  rw [hsr, Option.map_some', Nat.shiftLeft_eq, Nat.shiftRight_eq_div_pow, key,
    Nat.mod_eq_of_lt hlt]

end bitwise_manipulator

/-! ## Theorems: rotate_matrix -/

namespace matrix_helper

/-- With `check_input = true`, `rotate_matrix` returns every rectangular matrix as it is. -/
lemma rotate_matrix_checked_of_rectangular {α : Type} (matrix : List (List α))
    (rotate_ccw : Bool) (h : is_rectangular matrix = true) :
    rotate_matrix matrix rotate_ccw true = Except.ok matrix := by
  rw [rotate_matrix, h]
  rfl

end matrix_helper

/-- C33: for the rectangular matrix `{{1, 2}, {3, 4}}`, `rotate_matrix` with
`check_input = true` returns the matrix itself in both directions (the test
`check_input && is_rectangular(matrix)` returns the input when it is rectangular), while with
`check_input = false` it returns the rotated matrices `{{3, 1}, {4, 2}}` (clockwise) and
`{{2, 4}, {1, 3}}` (counter-clockwise). -/
theorem rotate_matrix_checked_returns_input :
    matrix_helper.is_rectangular [[1, 2], [3, 4]] = true
    ∧ matrix_helper.rotate_matrix [[1, 2], [3, 4]] false true = Except.ok [[1, 2], [3, 4]]
    ∧ matrix_helper.rotate_matrix [[1, 2], [3, 4]] true true = Except.ok [[1, 2], [3, 4]]
    ∧ matrix_helper.rotate_matrix [[1, 2], [3, 4]] false false = Except.ok [[3, 1], [4, 2]]
    ∧ matrix_helper.rotate_matrix [[1, 2], [3, 4]] true false = Except.ok [[2, 4], [1, 3]] := by
  have hr : matrix_helper.is_rectangular [[1, 2], [3, 4]] = true := by decide
  exact ⟨hr, matrix_helper.rotate_matrix_checked_of_rectangular _ false hr,
    matrix_helper.rotate_matrix_checked_of_rectangular _ true hr, rfl, rfl⟩

/-! ## Theorems: rotate_about_pivot -/

namespace coordinate_2d

/-- What `rotate_about_pivot` stores: the new `x_pos` is the rotated one, the new `y_pos` is
computed from the new `x_pos`. -/
lemma rotate_about_pivot_eq (P Q : coordinate_2d ℝ) (t : ℝ) :
    P.rotate_about_pivot Q t =
      ⟨(P.x_pos - Q.x_pos) * Real.cos t - (P.y_pos - Q.y_pos) * Real.sin t + Q.x_pos,
        ((P.x_pos - Q.x_pos) * Real.cos t - (P.y_pos - Q.y_pos) * Real.sin t + Q.x_pos
            - Q.x_pos) * Real.sin t
          + (P.y_pos - Q.y_pos) * Real.cos t + Q.y_pos⟩ := by
  simp only [rotate_about_pivot, get_x_pos, get_y_pos]

end coordinate_2d

/-- C39: `rotate_about_pivot` about the origin by `π / 2` moves the point `(1, 0)` to `(0, 0)`,
not to its image `(0, 1)` under the rotation, and the distance to the pivot changes from `1`
to `0`: the new `y_pos` is computed from the `x_pos` that was just overwritten. -/
theorem rotate_about_pivot_quarter_turn :
    (⟨1, 0⟩ : coordinate_2d ℝ).rotate_about_pivot ⟨0, 0⟩ (Real.pi / 2) = ⟨0, 0⟩
    ∧ coordinate_2d.rotation_image ⟨1, 0⟩ ⟨0, 0⟩ (Real.pi / 2) = ⟨0, 1⟩
    ∧ (⟨1, 0⟩ : coordinate_2d ℝ).get_euclidean_distance_to ⟨0, 0⟩ = 1
    ∧ ((⟨1, 0⟩ : coordinate_2d ℝ).rotate_about_pivot ⟨0, 0⟩
        (Real.pi / 2)).get_euclidean_distance_to ⟨0, 0⟩ = 0 := by
  have h : (⟨1, 0⟩ : coordinate_2d ℝ).rotate_about_pivot ⟨0, 0⟩ (Real.pi / 2) = ⟨0, 0⟩ := by
    rw [coordinate_2d.rotate_about_pivot_eq, Real.cos_pi_div_two, Real.sin_pi_div_two]
    norm_num
  refine ⟨h, ?_, ?_, ?_⟩
  · rw [coordinate_2d.rotation_image, Real.cos_pi_div_two, Real.sin_pi_div_two]
    norm_num
  · simp [coordinate_2d.get_euclidean_distance_to, coordinate_2d.get_x_pos,
      coordinate_2d.get_y_pos]
  · rw [h, dist_self]

/-! ## Theorems: set_angle in degrees -/

/-- C40: after `set_angle(90, false)` on the default vector, `get_angle(false)` returns
`90 * (180 / π)`, not `90`: the angle normalised in degrees is stored in the field that holds
radians, and the components are `cos(90)` and `sin(90)` of the number `90` taken as
radians. -/
theorem set_angle_degrees_not_converted :
    (fast_vector_2d.set_angle false fast_vector_2d.default 90 false).get_angle false
      = 90 * (180 / Real.pi)
    ∧ (fast_vector_2d.set_angle false fast_vector_2d.default 90 false).get_angle false ≠ 90
    ∧ (fast_vector_2d.set_angle false fast_vector_2d.default 90 false).x_comp = Real.cos 90
    ∧ (fast_vector_2d.set_angle false fast_vector_2d.default 90 false).y_comp
        = Real.sin 90 := by
  have hπ := Real.pi_pos
  have hn : math_helper.normalize_angle 90 false = 90 := by
    have hf : ⌊(90 : ℝ) / 360⌋ = 0 := by
      rw [Int.floor_eq_iff]
      constructor <;> norm_num
    simp only [math_helper.normalize_angle, Bool.false_eq_true, if_false,
      math_helper.normalize_degree_angle, math_helper.normalize_value_to_range, hf,
      Int.cast_zero, zero_mul, sub_zero]
  have hget : (fast_vector_2d.set_angle false fast_vector_2d.default 90 false).get_angle false
      = 90 * (180 / Real.pi) := by
    rw [fast_vector_2d.set_angle_false, hn]
    simp only [fast_vector_2d.get_angle, Bool.false_eq_true, if_false, U_180_PI]
  refine ⟨hget, ?_, ?_, ?_⟩
  · rw [hget]
    intro h
    have h4 := Real.pi_le_four
    have h1 : (180 : ℝ) / Real.pi = 1 := by linarith
    rw [div_eq_one_iff_eq hπ.ne'] at h1
    linarith
  · rw [fast_vector_2d.set_angle_false, hn]
    simp only [fast_vector_2d.default, one_mul]
  · rw [fast_vector_2d.set_angle_false, hn]
    simp only [fast_vector_2d.default, one_mul]

/-! ## Theorems: the boxes after a resolution -/

namespace basic_collider_2d

variable {α : Type} [LinearOrderedField α]

/-- With zero penetration the locals of `fix_collision` hold the zero displacement. -/
lemma fix_collision_locals_of_penetration_zero (A B : basic_collider_2d α)
    (h : penetration A B = 0) :
    (fix_collision_locals A B).x_vector = 0 ∧ (fix_collision_locals A B).y_vector = 0 := by
  have hs := fix_collision_locals_smallest A B
  rw [h] at hs
  rcases fix_collision_locals_cases A B with ⟨-, -, -, e⟩ | ⟨-, -, -, e⟩ | ⟨-, -, -, e⟩ |
    ⟨-, -, -, e⟩ <;> rw [e] at hs ⊢ <;> dsimp only at hs ⊢ <;> rw [hs]
  · exact ⟨neg_zero, rfl⟩
  · exact ⟨rfl, neg_zero⟩
  · exact ⟨rfl, rfl⟩
  · exact ⟨rfl, rfl⟩

/-- The collider built with a negative width: the centre and the half-extent as stored. -/
lemma new_of_neg_width (x y width height : α) (hw : width < 0) :
    (new x y width height).position.x_pos = x + width / 2
    ∧ (new x y width height).width_2 = -(width / 2) := by
  have hw2 : ¬ (0 ≤ width / 2) := by
    rw [not_le]
    exact div_neg_of_neg_of_pos hw (by norm_num)
  simp only [new, set_width, set_height, set_width_2_eq, set_height_2_eq, if_neg hw2]
  split_ifs <;>
    simp only [default, set_x_pos, set_y_pos, coordinate_2d.set_x_pos,
      coordinate_2d.set_y_pos, and_self]

/-- The collider built with a negative height: the centre and the half-extent as stored. -/
lemma new_of_neg_height (x y width height : α) (hh : height < 0) :
    (new x y width height).position.y_pos = y + height / 2
    ∧ (new x y width height).height_2 = -(height / 2) := by
  have hh2 : ¬ (0 ≤ height / 2) := by
    rw [not_le]
    exact div_neg_of_neg_of_pos hh (by norm_num)
  simp only [new, set_width, set_height, set_width_2_eq, set_height_2_eq, if_neg hh2]
  split_ifs <;>
    simp only [default, set_x_pos, set_y_pos, coordinate_2d.set_x_pos,
      coordinate_2d.set_y_pos, and_self]

/-- C15 (as amended): the collider built by `basic_collider_2d(x, y, width, height)` with
`width < 0` has the centre `x + width / 2` and the half-extent `-(width / 2)`, so its right
edge is computed as `(x + width / 2) + (-(width / 2))` and its left edge as
`(x + width / 2) - (-(width / 2))`: the box extends from `x` toward the negative side and is
not centred at `x`; symmetrically, for `height < 0` the centre is `y + height / 2` and the
half-extent `-(height / 2)`. -/
theorem new_negative_extent_stored (x y width height : α) :
    (width < 0 →
      (new x y width height).position.x_pos = x + width / 2
      ∧ (new x y width height).width_2 = -(width / 2)
      ∧ (new x y width height).get_right_x = x + width / 2 + -(width / 2)
      ∧ (new x y width height).get_left_x = x + width / 2 - -(width / 2))
    ∧ (height < 0 →
      (new x y width height).position.y_pos = y + height / 2
      ∧ (new x y width height).height_2 = -(height / 2)
      ∧ (new x y width height).get_top_y = y + height / 2 + -(height / 2)
      ∧ (new x y width height).get_bottom_y = y + height / 2 - -(height / 2)) := by
  constructor
  · intro hw
    obtain ⟨h1, h2⟩ := new_of_neg_width x y width height hw
    refine ⟨h1, h2, ?_, ?_⟩
    · rw [get_right_x, coordinate_2d.get_x_pos, h1, h2]
    · rw [get_left_x, coordinate_2d.get_x_pos, h1, h2]
  · intro hh
    obtain ⟨h1, h2⟩ := new_of_neg_height x y width height hh
    refine ⟨h1, h2, ?_, ?_⟩
    · rw [get_top_y, coordinate_2d.get_y_pos, h1, h2]
    · rw [get_bottom_y, coordinate_2d.get_y_pos, h1, h2]

/-- A `MOVE_SELF` call with the check: what it returns and what it leaves alone. -/
lemma fix_collision_move_self_checked (X Y : basic_collider_2d α) :
    (X.fix_collision Y fix_mode.MOVE_SELF true).other = Y
    ∧ (X.fix_collision Y fix_mode.MOVE_SELF true).ret = X.detect_collision Y
    ∧ (X.detect_collision Y = false → (X.fix_collision Y fix_mode.MOVE_SELF true).self = X)
    ∧ (penetration X Y = 0 → (X.fix_collision Y fix_mode.MOVE_SELF true).self = X) := by
  cases hd : X.detect_collision Y
  · rw [fix_collision_of_check_fails X Y _ hd]
    exact ⟨rfl, rfl, fun _ => rfl, fun _ => rfl⟩
  · rw [fix_collision_move_self X Y true (by simp [hd])]
    refine ⟨rfl, rfl, fun g => Bool.noConfusion g, ?_⟩
    intro hz
    obtain ⟨v1, v2⟩ := fix_collision_locals_of_penetration_zero X Y hz
    rw [v1, v2, add_zero, add_zero]

end basic_collider_2d

/-! ## Theorems: where `get_hit` puts its point -/

namespace hitscanner_2d

lemma do_range_check_eq (self : hitscanner_2d) (P p : coordinate_2d ℝ)
    (h : self.do_range_check P = some p) : p = P := by
  unfold do_range_check at h
  split_ifs at h
  exact (Option.some.inj h).symm

end hitscanner_2d

namespace fast_vector_2d

/-- C22 (as amended): with update suppression off, `set_x_comp` and `set_y_comp` store the
component they are given and recompute the polar fields: afterwards
`magnitude = sqrt(x_comp^2 + y_comp^2)` and `angle = atan2(y_comp, x_comp)`.  `set_magnitude`
stores the magnitude it is given and keeps the angle, `set_angle` stores the normalised angle
and keeps the magnitude; both recompute the components instead of the polar fields:
`x_comp = magnitude * cos(angle)` and `y_comp = magnitude * sin(angle)`. -/
theorem setters_recompute_other_form (v : fast_vector_2d) (t : ℝ) (use_radians : Bool) :
    ((set_x_comp false v t).x_comp = t ∧ (set_x_comp false v t).y_comp = v.y_comp
      ∧ cartesian_form_agrees (set_x_comp false v t))
    ∧ ((set_y_comp false v t).x_comp = v.x_comp ∧ (set_y_comp false v t).y_comp = t
      ∧ cartesian_form_agrees (set_y_comp false v t))
    ∧ ((set_magnitude false v t).magnitude = t ∧ (set_magnitude false v t).angle = v.angle
      ∧ forms_agree (set_magnitude false v t))
    ∧ ((set_angle false v t use_radians).angle = math_helper.normalize_angle t use_radians
      ∧ (set_angle false v t use_radians).magnitude = v.magnitude
      ∧ forms_agree (set_angle false v t use_radians)) := by
  refine ⟨?_, ?_, ?_, ?_⟩
  · rw [set_x_comp_false]
    exact ⟨rfl, rfl, rfl, rfl⟩
  · rw [set_y_comp_false]
    exact ⟨rfl, rfl, rfl, rfl⟩
  · rw [set_magnitude_false]
    exact ⟨rfl, rfl, rfl, rfl⟩
  · rw [set_angle_false]
    exact ⟨rfl, rfl, rfl, rfl⟩

/-- C23 (as amended): with updates not suppressed, after the cartesian constructor,
`set_x_comp` or `set_y_comp` the angle returned by `get_angle(true)` is
`atan2(y_comp, x_comp)` as it is returned, a value between `-π` and `π` that is not
normalised; `set_magnitude` leaves the angle as it was; `set_angle(a, true)` and the polar
constructor in radians store `normalize_radian_angle(a)`, which is `a` itself when
`0 <= a < C_2PI`. -/
theorem get_angle_stored_values (v : fast_vector_2d) (t u : ℝ) :
    ((set_x_comp false v t).get_angle true = atan2 v.y_comp t
      ∧ -Real.pi ≤ (set_x_comp false v t).get_angle true
      ∧ (set_x_comp false v t).get_angle true ≤ Real.pi)
    ∧ ((set_y_comp false v t).get_angle true = atan2 t v.x_comp
      ∧ -Real.pi ≤ (set_y_comp false v t).get_angle true
      ∧ (set_y_comp false v t).get_angle true ≤ Real.pi)
    ∧ ((new_cartesian false t u).get_angle true = atan2 u t
      ∧ -Real.pi ≤ (new_cartesian false t u).get_angle true
      ∧ (new_cartesian false t u).get_angle true ≤ Real.pi)
    ∧ (set_magnitude false v t).get_angle true = v.get_angle true
    ∧ (set_angle false v t true).get_angle true = math_helper.normalize_radian_angle t
    ∧ (new_polar false t u true).get_angle true = math_helper.normalize_radian_angle u
    ∧ (0 ≤ t → t < C_2PI → (set_angle false v t true).get_angle true = t) := by
  refine ⟨?_, ?_, ?_, ?_, ?_, ?_, ?_⟩
  · rw [set_x_comp_false]
    exact ⟨rfl, (atan2_mem _ _).1.le, (atan2_mem _ _).2⟩
  · rw [set_y_comp_false]
    exact ⟨rfl, (atan2_mem _ _).1.le, (atan2_mem _ _).2⟩
  · rw [new_cartesian_false]
    exact ⟨rfl, (atan2_mem _ _).1.le, (atan2_mem _ _).2⟩
  · rw [set_magnitude_false]
    rfl
  · exact set_angle_radians_angle false v t
  · simp only [new_polar, get_angle, if_true, update_cartesian_values_angle, set_angle,
      math_helper.normalize_angle]
  · intro h0 h1
    rw [set_angle_radians_angle]
    exact normalize_radian_angle_of_mem t h0 (by rwa [C_2PI] at h1)

end fast_vector_2d

/-! ## Theorems: the columns of the sweep, the height mapping without a clamp -/

namespace raycaster

/-- C27: with the field of view `1.25` on a window `1280` columns wide (the step `2^-10` and
every offset are exact in `double`) the sweep issues `1281` queries, one more than there are
columns, at the offsets `-0.625 + k * 2^-10` for `k = 0, ..., 1280`; the query number `k`, when
it has a hit, is drawn at the column `k + 1`, so no query is drawn at the column `0` and the
last one is drawn at the column `1281`. -/
theorem render_draws_one_column_late (s : Bool) (hs : hitscanner_2d)
    (colliders : List (basic_collider_2d ℝ)) :
    ∃ queries : List sweep_query,
      render s hs colliders (5 / 4) 1280 1282 = some queries
      ∧ queries.length = 1281
      ∧ (∀ (k : ℕ) (q : sweep_query), queries[k]? = some q →
          q.angle = -(5 / 4) / 2 + k * (5 / 4 / 1280)
          ∧ q.hit = (hs.set_angle s (hs.get_angle
              + (-(5 / 4) / 2 + k * (5 / 4 / 1280)))).get_hit_colliders colliders
          ∧ q.column = if q.hit.isSome then some (k + 1) else none)
      ∧ (∀ q ∈ queries, q.column ≠ some 0) := by
  have h := render_eq s hs colliders (5 / 4) 1280 1282 (by norm_num) (by norm_num) (by norm_num)
  have hcast : ((1280 : ℕ) : ℤ) = 1280 := by norm_num
  rw [hcast] at h
  refine ⟨_, h, ?_, ?_, ?_⟩
  · rw [List.length_map, List.length_range]
  · intro k q hk
    rw [List.getElem?_map] at hk
    by_cases hlt : k < 1280 + 1
    · rw [List.getElem?_range hlt] at hk
      have hq : q = sweep_query_at s hs colliders (5 / 4) 1280 k :=
        (Option.some.inj hk).symm
      rw [hq]
      simp only [sweep_query_at, Nat.cast_ofNat]
      exact ⟨trivial, trivial, trivial⟩
    · rw [List.getElem?_eq_none (by rw [List.length_range]; omega)] at hk
      exact Option.noConfusion hk
  · intro q hq
    rw [List.mem_map] at hq
    obtain ⟨k, -, rfl⟩ := hq
    simp only [sweep_query_at]
    split_ifs
    · intro hc
      have := Option.some.inj hc
      omega
    · exact fun hc => Option.noConfusion hc

end raycaster

section mapping

variable {α : Type} [LinearOrderedField α] [FloorRing α]

end mapping

/-- Witness for C15 (as amended) on `basic_collider_2d(3, 4, -2, -6)`. -/
theorem new_negative_extent_stored_witness :
    ((-2 : ℚ) < 0 ∧ (-6 : ℚ) < 0)
    ∧ (basic_collider_2d.new 3 4 (-2) (-6) : basic_collider_2d ℚ).position.x_pos = 3 + -2 / 2
    ∧ (basic_collider_2d.new 3 4 (-2) (-6) : basic_collider_2d ℚ).width_2 = -(-2 / 2)
    ∧ (basic_collider_2d.new 3 4 (-2) (-6) : basic_collider_2d ℚ).position.y_pos = 4 + -6 / 2
    ∧ (basic_collider_2d.new 3 4 (-2) (-6) : basic_collider_2d ℚ).height_2 = -(-6 / 2) :=
  have h1 : (-2 : ℚ) < 0 := by norm_num
  have h2 : (-6 : ℚ) < 0 := by norm_num
  ⟨⟨h1, h2⟩,
    ((basic_collider_2d.new_negative_extent_stored (3 : ℚ) 4 (-2) (-6)).1 h1).1,
    ((basic_collider_2d.new_negative_extent_stored (3 : ℚ) 4 (-2) (-6)).1 h1).2.1,
    ((basic_collider_2d.new_negative_extent_stored (3 : ℚ) 4 (-2) (-6)).2 h2).1,
    ((basic_collider_2d.new_negative_extent_stored (3 : ℚ) 4 (-2) (-6)).2 h2).2.1⟩

/-! ## Theorems: the code evaluated in binary64 -/

namespace binary64

lemma round_shift_zero (s : ℕ) : round_shift 0 s = 0 := by
  unfold round_shift
  by_cases h3 : s = 0
  · rw [if_pos h3]
  · rw [if_neg h3]
    simp only [Nat.zero_shiftRight, Nat.zero_mod]
    rw [if_pos (Nat.pos_of_ne_zero (by simp [Nat.shiftLeft_eq]))]

lemma round_to_double_zero (e : ℤ) : round_to_double 0 e = ⟨0, 0⟩ := by
  have hb : bit_length 0 = 0 := by decide
  unfold round_to_double
  simp only [Int.natAbs_zero, hb, round_shift_zero, if_true, ite_self]

lemma zero_mul_double (c : double) : (0 : double) * c = 0 := by
  have h0 : (0 : double) = ⟨0, 0⟩ := by decide
  rw [h0]
  show mul ⟨0, 0⟩ c = ⟨0, 0⟩
  unfold mul
  simp only [zero_mul, zero_add]
  exact round_to_double_zero _

namespace fast_vector_2d

lemma set_angle_angle (M : libm) (v : fast_vector_2d) (a : double) :
    (set_angle M false v a true).get_angle true = math_helper.normalize_radian_angle a := by
  simp only [set_angle, update_cartesian_values, get_angle, math_helper.normalize_angle,
    Bool.false_eq_true, if_false, if_true]

lemma new_cartesian_fields (M : libm) (x y : double) :
    new_cartesian M false x y
      = ⟨x, y, M.atan2 y x, sqrt (x * x + y * y)⟩ := by
  simp only [new_cartesian, set_x_comp, set_y_comp, update_polar_values,
    Bool.false_eq_true, if_false]

end fast_vector_2d

set_option maxRecDepth 100000 in
/-- C21: `set_angle(-1e-17, true)` stores the constant `C_2PI` itself, the excluded end of the
interval `[0, C_2PI)`, and `set_angle(7e19, true)` stores `-8192`, whatever `std::cos` and
`std::sin` return. -/
theorem set_angle_stores_angle_outside_range (M : libm) (v : fast_vector_2d) :
    (fast_vector_2d.set_angle M false v (of_rat (-1) (10 ^ 17)) true).get_angle true = C_2PI
    ∧ (fast_vector_2d.set_angle M false v (of_int (7 * 10 ^ 19)) true).get_angle true
        = of_int (-8192)
    ∧ of_int (-8192) < 0 := by
  rw [fast_vector_2d.set_angle_angle, fast_vector_2d.set_angle_angle]
  refine ⟨?_, ?_, ?_⟩
  · decide
  · decide
  · decide

set_option maxRecDepth 100000 in
/-- C34: for `A = basic_collider_2d(0, 0, 1, 4)` and `B = basic_collider_2d(0.3, 0, 1, 4)`
the call `A.fix_collision(B, MOVE_SELF, true)` returns true and moves the centre of `A` to
`-0.7`; afterwards the right edge of `A` is still to the right of the left edge of `B`, the
smallest of the four overlaps is positive, and `A.detect_collision(B)` is still true. -/
theorem fix_collision_move_self_leaves_overlap :
    (basic_collider_2d.new 0 0 1 4).detect_collision (basic_collider_2d.new (of_rat 3 10) 0 1 4)
      = true
    ∧ ((basic_collider_2d.new 0 0 1 4).fix_collision (basic_collider_2d.new (of_rat 3 10) 0 1 4)
        fix_mode.MOVE_SELF true).ret = true
    ∧ ((basic_collider_2d.new 0 0 1 4).fix_collision (basic_collider_2d.new (of_rat 3 10) 0 1 4)
        fix_mode.MOVE_SELF true).self.position = ⟨of_rat (-7) 10, 0⟩
    ∧ ((basic_collider_2d.new 0 0 1 4).fix_collision (basic_collider_2d.new (of_rat 3 10) 0 1 4)
        fix_mode.MOVE_SELF true).other = basic_collider_2d.new (of_rat 3 10) 0 1 4
    ∧ (basic_collider_2d.new (of_rat 3 10) 0 1 4).get_left_x
        < ((basic_collider_2d.new 0 0 1 4).fix_collision
            (basic_collider_2d.new (of_rat 3 10) 0 1 4) fix_mode.MOVE_SELF true).self.get_right_x
    ∧ 0 < (basic_collider_2d.fix_collision_locals
        ((basic_collider_2d.new 0 0 1 4).fix_collision
          (basic_collider_2d.new (of_rat 3 10) 0 1 4) fix_mode.MOVE_SELF true).self
        (basic_collider_2d.new (of_rat 3 10) 0 1 4)).smallest_overlap
    ∧ ((basic_collider_2d.new 0 0 1 4).fix_collision (basic_collider_2d.new (of_rat 3 10) 0 1 4)
        fix_mode.MOVE_SELF true).self.detect_collision
          (basic_collider_2d.new (of_rat 3 10) 0 1 4) = true := by
  refine ⟨?_, ?_, ?_, ?_, ?_, ?_, ?_⟩
  · decide
  · decide
  · decide
  · decide
  · decide
  · decide
  · decide

namespace hitscanner_2d

lemma new_position (M : libm) (x y a r : double) (inf : Bool) :
    (new M false x y a r inf).position = ⟨x, y⟩ := by
  simp only [new, default, set_x_pos, set_y_pos, set_angle, set_range, make_range_infinite,
    coordinate_2d.set_x_pos, coordinate_2d.set_y_pos]

lemma new_angle (M : libm) (x y a r : double) (inf : Bool) :
    (new M false x y a r inf).vector.angle = math_helper.normalize_radian_angle a := by
  simp only [new, default, set_x_pos, set_y_pos, set_angle, set_range, make_range_infinite,
    fast_vector_2d.set_angle, fast_vector_2d.set_magnitude,
    fast_vector_2d.update_cartesian_values, math_helper.normalize_angle, Bool.false_eq_true,
    if_false, if_true]

lemma new_magnitude (M : libm) (x y a r : double) (inf : Bool) :
    (new M false x y a r inf).vector.magnitude = fabs r := by
  simp only [new, default, set_x_pos, set_y_pos, set_angle, set_range, make_range_infinite,
    fast_vector_2d.set_angle, fast_vector_2d.set_magnitude,
    fast_vector_2d.update_cartesian_values, Bool.false_eq_true, if_false]

lemma new_infinite_range (M : libm) (x y a r : double) (inf : Bool) :
    (new M false x y a r inf).infinite_range = inf := by
  simp only [new, make_range_infinite]

/-- The culling test reads the origin and the angle only. -/
lemma culled_congr (h h' : hitscanner_2d) (C : basic_collider_2d)
    (hp : h.position = h'.position) (ha : h.vector.angle = h'.vector.angle) :
    h.culled C = h'.culled C := by
  simp only [culled, get_angle, get_x_pos, get_y_pos, fast_vector_2d.get_angle, if_true, hp, ha]

/-- The result of `get_hit` when the inside test and the zero-range test fail and the culling
test holds. -/
lemma get_hit_of_culled (h : hitscanner_2d) (C : basic_collider_2d)
    (h1 : ¬ (h.get_x_pos ≥ C.get_left_x ∧ h.get_x_pos ≤ C.get_right_x
      ∧ h.get_y_pos ≥ C.get_top_y ∧ h.get_y_pos ≤ C.get_bottom_y))
    (h2 : ¬ (h.vector.get_magnitude = 0 ∧ ¬ h.has_infinite_range))
    (h3 : h.culled C = true) : h.get_hit C = none := by
  rw [get_hit, if_neg h1, if_neg h2, if_pos h3]

end hitscanner_2d

set_option maxRecDepth 100000 in
lemma C_PI_2_normal : math_helper.normalize_radian_angle C_PI_2 = ⟨7074237752028440, -52⟩ := by
  decide

set_option maxRecDepth 100000 in
lemma below_one_normal : of_rat (2 ^ 53 - 1) (2 ^ 53) = ⟨9007199254740991, -53⟩ := by
  decide

set_option maxRecDepth 100000 in
lemma wall_normal :
    basic_collider_2d.new (of_rat 11 2) 50 9 100
      = ⟨⟨⟨6192449487634432, -50⟩, ⟨7036874417766400, -47⟩⟩, ⟨5066549580791808, -50⟩,
          ⟨7036874417766400, -47⟩⟩ := by
  decide

/-- The real number `1.5707963267948966`, the value of the macro `C_PI_2`, is below `π / 2` by
more than `6.1e-17` and less than `6.2e-17`. -/
lemma C_PI_2_below_half_pi :
    (61 : ℝ) / 10 ^ 18 < π / 2 - 7074237752028440 / 2 ^ 52
    ∧ π / 2 - 7074237752028440 / 2 ^ 52 < 62 / 10 ^ 18 := by
  have h1 := Real.pi_gt_d20
  have h2 := Real.pi_lt_d20
  constructor
  · norm_num at h1 ⊢
    linarith
  · norm_num at h2 ⊢
    linarith

/-- The cosine of the value of `C_PI_2` is positive: between `3e-17` and `6.2e-17`. -/
lemma cos_C_PI_2_pos :
    (3 : ℝ) / 10 ^ 17 < Real.cos (7074237752028440 / 2 ^ 52)
    ∧ Real.cos (7074237752028440 / 2 ^ 52) < 62 / 10 ^ 18 := by
  obtain ⟨h1, h2⟩ := C_PI_2_below_half_pi
  have hπ := Real.pi_gt_three
  have hπ' := Real.pi_le_four
  have hc : Real.cos (7074237752028440 / 2 ^ 52)
      = Real.sin (π / 2 - 7074237752028440 / 2 ^ 52) := (Real.sin_pi_div_two_sub _).symm
  have hδ0 : (0 : ℝ) ≤ π / 2 - 7074237752028440 / 2 ^ 52 := by linarith
  have hδ1 : π / 2 - 7074237752028440 / 2 ^ 52 ≤ π / 2 := by
    have : (0 : ℝ) ≤ 7074237752028440 / 2 ^ 52 := by positivity
    linarith
  have hlow := Real.mul_le_sin hδ0 hδ1
  have hup := Real.sin_le hδ0
  have h2π : (1 : ℝ) / 2 ≤ 2 / π := by
    rw [le_div_iff₀ Real.pi_pos]
    linarith
  rw [hc]
  constructor
  · have : (1 : ℝ) / 2 * (π / 2 - 7074237752028440 / 2 ^ 52)
        ≤ 2 / π * (π / 2 - 7074237752028440 / 2 ^ 52) :=
      mul_le_mul_of_nonneg_right h2π hδ0
    have h3 : (3 : ℝ) / 10 ^ 17 < 1 / 2 * (π / 2 - 7074237752028440 / 2 ^ 52) := by
      norm_num at h1 ⊢
      linarith
    linarith
  · linarith

/-- The hitscanner `hitscanner_2d(1 - 2^-53, 0, C_PI_2, 200)` as real numbers: its origin and
its angle do not depend on the mathematical library. -/
lemma grazing_scanner_to_real (M : libm) :
    (hitscanner_2d.new M false (of_rat (2 ^ 53 - 1) (2 ^ 53)) 0 C_PI_2 200 false).to_real.position
      = ⟨9007199254740991 / 2 ^ 53, 0⟩
    ∧ (hitscanner_2d.new M false (of_rat (2 ^ 53 - 1) (2 ^ 53)) 0 C_PI_2 200
        false).to_real.vector.angle = 7074237752028440 / 2 ^ 52
    ∧ (hitscanner_2d.new M false (of_rat (2 ^ 53 - 1) (2 ^ 53)) 0 C_PI_2 200
        false).to_real.vector.magnitude = 200
    ∧ (hitscanner_2d.new M false (of_rat (2 ^ 53 - 1) (2 ^ 53)) 0 C_PI_2 200
        false).to_real.infinite_range = false := by
  have h0 : (0 : double) = ⟨0, 0⟩ := by decide
  have h200 : fabs 200 = ⟨7036874417766400, -45⟩ := by decide
  refine ⟨?_, ?_, ?_, ?_⟩
  · rw [hitscanner_2d.to_real, hitscanner_2d.new_position, coordinate_2d.to_real,
      below_one_normal, h0]
    simp only [double.to_real]
    norm_num
  · rw [hitscanner_2d.to_real, fast_vector_2d.to_real, hitscanner_2d.new_angle, C_PI_2_normal]
    simp only [double.to_real]
    norm_num
  · rw [hitscanner_2d.to_real, fast_vector_2d.to_real, hitscanner_2d.new_magnitude, h200]
    simp only [double.to_real]
    norm_num
  · rw [hitscanner_2d.to_real, hitscanner_2d.new_infinite_range]

/-- The collider `basic_collider_2d(5.5, 50, 9, 100)` as real numbers: the box
`[1, 10] x [0, 100]`. -/
lemma wall_to_real :
    (basic_collider_2d.new (of_rat 11 2) 50 9 100).to_real = ⟨⟨11 / 2, 50⟩, 9 / 2, 50⟩ := by
  rw [wall_normal]
  simp only [basic_collider_2d.to_real, coordinate_2d.to_real, double.to_real]
  norm_num

/-- The point at parameter `100` of the real ray of `hitscanner_2d(1 - 2^-53, 0, C_PI_2, 200)`
lies in the box `[1, 10] x [0, 100]`. -/
lemma grazing_ray_meets_wall (M : libm) :
    (basic_collider_2d.new (of_rat 11 2) 50 9 100).to_real.closed_box
      ((hitscanner_2d.new M false (of_rat (2 ^ 53 - 1) (2 ^ 53)) 0 C_PI_2 200
        false).to_real.ray_point 100) := by
  obtain ⟨hp, ha, -, -⟩ := grazing_scanner_to_real M
  obtain ⟨hc1, hc2⟩ := cos_C_PI_2_pos
  have hπ := Real.pi_gt_three
  have hθ0 : (0 : ℝ) ≤ 7074237752028440 / 2 ^ 52 := by positivity
  have hθ1 : (7074237752028440 : ℝ) / 2 ^ 52 ≤ π := by
    have : (7074237752028440 : ℝ) / 2 ^ 52 ≤ 2 := by norm_num
    linarith
  have hs0 := Real.sin_nonneg_of_nonneg_of_le_pi hθ0 hθ1
  have hs1 := Real.sin_le_one (7074237752028440 / 2 ^ 52)
  rw [wall_to_real]
  simp only [bengine.basic_collider_2d.closed_box, bengine.hitscanner_2d.ray_point, hp, ha,
    bengine.basic_collider_2d.get_left_x, bengine.basic_collider_2d.get_right_x,
    bengine.basic_collider_2d.get_top_y, bengine.basic_collider_2d.get_bottom_y,
    bengine.coordinate_2d.get_x_pos, bengine.coordinate_2d.get_y_pos]
  refine ⟨?_, ?_, ?_, ?_⟩
  · norm_num at hc1 ⊢
    linarith
  · norm_num at hc2 ⊢
    linarith
  · norm_num
    linarith
  · norm_num
    linarith

set_option maxRecDepth 100000 in
/-- The culling test holds of `hitscanner_2d(1 - 2^-53, 0, C_PI_2, 200)` and
`basic_collider_2d(5.5, 50, 9, 100)`: the angle is at least `C_PI_2` and at most `C_3PI_2`,
and the origin is left of the left edge `1`. -/
lemma grazing_scanner_culled (M : libm) :
    (hitscanner_2d.new M false (of_rat (2 ^ 53 - 1) (2 ^ 53)) 0 C_PI_2 200 false).culled
      (basic_collider_2d.new (of_rat 11 2) 50 9 100) = true := by
  rw [hitscanner_2d.culled_congr _
    ⟨⟨of_rat (2 ^ 53 - 1) (2 ^ 53), 0⟩, ⟨0, 0, math_helper.normalize_radian_angle C_PI_2, 0⟩,
      false⟩ _ (hitscanner_2d.new_position M _ _ _ _ _) (hitscanner_2d.new_angle M _ _ _ _ _)]
  decide

/-- C37: for `hitscanner_2d(1 - 2^-53, 0, C_PI_2, 200)` and `basic_collider_2d(5.5, 50, 9, 100)`
(the box `[1, 10] x [0, 100]`) the fourth culling condition holds, whatever `std::cos` and
`std::sin` return, yet the forward ray from the origin at the stored angle contains a point of
the closed box: the angle `C_PI_2` is below `π / 2`, so the ray still heads toward `+x`. -/
theorem culling_cuts_ray_that_meets_box (M : libm) :
    (hitscanner_2d.new M false (of_rat (2 ^ 53 - 1) (2 ^ 53)) 0 C_PI_2 200 false).culled
      (basic_collider_2d.new (of_rat 11 2) 50 9 100) = true
    ∧ ∃ q : bengine.coordinate_2d ℝ,
        (hitscanner_2d.new M false (of_rat (2 ^ 53 - 1) (2 ^ 53)) 0 C_PI_2 200
          false).to_real.on_ray q
        ∧ (basic_collider_2d.new (of_rat 11 2) 50 9 100).to_real.closed_box q := by
  refine ⟨grazing_scanner_culled M, _, ⟨100, by norm_num, rfl⟩, grazing_ray_meets_wall M⟩

set_option maxRecDepth 100000 in
/-- C2: for `hitscanner_2d(1 - 2^-53, 0, C_PI_2, 200)`, whose origin lies outside the box of
`basic_collider_2d(5.5, 50, 9, 100)`, `get_hit` returns none, whatever `std::cos` and
`std::sin` return, although the forward ray from the origin at the stored angle meets the closed
box at a point within the range `200`. -/
theorem get_hit_none_though_ray_meets_box (M : libm) :
    (hitscanner_2d.new M false (of_rat (2 ^ 53 - 1) (2 ^ 53)) 0 C_PI_2 200 false).get_hit
      (basic_collider_2d.new (of_rat 11 2) 50 9 100) = none
    ∧ ¬ (basic_collider_2d.new (of_rat 11 2) 50 9 100).to_real.closed_box
        (hitscanner_2d.new M false (of_rat (2 ^ 53 - 1) (2 ^ 53)) 0 C_PI_2 200
          false).to_real.position
    ∧ 0 < (hitscanner_2d.new M false (of_rat (2 ^ 53 - 1) (2 ^ 53)) 0 C_PI_2 200
          false).to_real.get_range
    ∧ ∃ q : bengine.coordinate_2d ℝ,
        (hitscanner_2d.new M false (of_rat (2 ^ 53 - 1) (2 ^ 53)) 0 C_PI_2 200
          false).to_real.on_ray q
        ∧ (basic_collider_2d.new (of_rat 11 2) 50 9 100).to_real.closed_box q
        ∧ (hitscanner_2d.new M false (of_rat (2 ^ 53 - 1) (2 ^ 53)) 0 C_PI_2 200
          false).to_real.in_range q := by
  obtain ⟨hp, ha, hm, hi⟩ := grazing_scanner_to_real M
  refine ⟨?_, ?_, ?_, _, ⟨100, by norm_num, rfl⟩, grazing_ray_meets_wall M, ?_⟩
  · apply hitscanner_2d.get_hit_of_culled _ _ _ _ (grazing_scanner_culled M)
    · simp only [hitscanner_2d.get_x_pos, hitscanner_2d.get_y_pos, hitscanner_2d.new_position,
        coordinate_2d.get_x_pos, coordinate_2d.get_y_pos]
      decide
    · have hne : fabs 200 ≠ 0 := by decide
      simp only [fast_vector_2d.get_magnitude, hitscanner_2d.new_magnitude]
      exact fun h => hne h.1
  · rw [wall_to_real, hp]
    simp only [bengine.basic_collider_2d.closed_box, bengine.basic_collider_2d.get_left_x,
      bengine.coordinate_2d.get_x_pos]
    norm_num
  · rw [bengine.hitscanner_2d.get_range, bengine.fast_vector_2d.get_magnitude, hm]
    norm_num
  · right
    rw [bengine.hitscanner_2d.dist_ray_point _ 100 (by norm_num), bengine.hitscanner_2d.get_range,
      bengine.fast_vector_2d.get_magnitude, hm]
    norm_num

set_option maxRecDepth 100000 in
/-- With `double` rounding the edges of a collider built with a negative width are not exactly
`x` and `x - |width|`: `basic_collider_2d(0.1, 0, -1.4, 1)` has the centre `-0.6`, the
half-extent `0.7` and the right edge `0.09999999999999998`. -/
lemma new_negative_width_right_edge :
    (basic_collider_2d.new (of_rat 1 10) 0 (of_rat (-14) 10) 1).position.x_pos = of_rat (-6) 10
    ∧ (basic_collider_2d.new (of_rat 1 10) 0 (of_rat (-14) 10) 1).width_2 = of_rat 7 10
    ∧ (basic_collider_2d.new (of_rat 1 10) 0 (of_rat (-14) 10) 1).get_right_x
        = of_rat 9999999999999998 (10 ^ 17)
    ∧ (basic_collider_2d.new (of_rat 1 10) 0 (of_rat (-14) 10) 1).get_right_x ≠ of_rat 1 10 := by
  refine ⟨?_, ?_, ?_, ?_⟩
  · decide
  · decide
  · decide
  · decide

set_option maxRecDepth 100000 in
/-- With `double` rounding the height mapping is `8`, not `9 = 10 - floor(0.6 * 10 / 3)`, at
`(0.6, 0, 3, 10, 0)`, and `1`, not `0`, at the view distance itself for `V = 1.53`,
`H = 720`. -/
lemma map_value_to_range_rounded :
    math_helper.map_value_to_range (of_rat 6 10) 0 3 10 0 = some 8
    ∧ math_helper.map_value_to_range (of_rat 153 100) 0 (of_rat 153 100) 720 0 = some 1
    ∧ math_helper.map_value_to_range 2 0 1 2 0 = some (-2)
    ∧ math_helper.map_value_to_range 0 0 (of_rat 153 100) 720 0 = some 720 := by
  refine ⟨?_, ?_, ?_, ?_⟩
  · decide
  · decide
  · decide
  · decide

set_option maxRecDepth 100000 in
/-- With `double` rounding the number of queries of the sweep depends on the rounding of the
accumulated offsets: on a window `8` columns wide the loop runs `9` times for the field of view
`1` (step `0.125`, every offset exact) and `8` times for the field of view `1.2`. -/
lemma render_offsets_count :
    (raycaster.render_offsets 1 8 10).map List.length = some 9
    ∧ (raycaster.render_offsets (of_rat 12 10) 8 10).map List.length = some 8 := by
  refine ⟨?_, ?_⟩
  · decide
  · decide

/-- The cosine of a `double` is never `0`: a `double` is a rational number and `π` is
irrational. -/
lemma cos_to_real_ne_zero (a : double) : Real.cos a.to_real ≠ 0 := by
  intro h
  rw [Real.cos_eq_zero_iff] at h
  obtain ⟨k, hk⟩ := h
  have hk2 : ((2 : ℝ) * k + 1) ≠ 0 := by
    have : (2 * k + 1 : ℤ) ≠ 0 := by omega
    exact_mod_cast this
  have hπ : Real.pi = ((2 * (a.m : ℚ) * 2 ^ a.e / (2 * k + 1) : ℚ) : ℝ) := by
    push_cast
    rw [eq_div_iff hk2]
    unfold double.to_real at hk
    linarith
  exact irrational_pi ⟨_, hπ.symm⟩

set_option maxRecDepth 100000 in
/-- C6: for `A = basic_collider_2d(0, 0, 2, 2)` and `B = basic_collider_2d(1, 0, 2, 2)` (every
value exact in `double`) the boxes overlap, `A.fix_collision(B, MOVE_SELF, true)` returns true
and moves the centre of `A` to `(-1, 0)`, where the right edge of `A` is the left edge of `B`,
and afterwards `A.detect_collision(B)` is still true. -/
theorem fix_collision_move_self_not_separated :
    (basic_collider_2d.new 0 0 2 2).detect_collision (basic_collider_2d.new 1 0 2 2) = true
    ∧ ((basic_collider_2d.new 0 0 2 2).fix_collision (basic_collider_2d.new 1 0 2 2)
        fix_mode.MOVE_SELF true).ret = true
    ∧ ((basic_collider_2d.new 0 0 2 2).fix_collision (basic_collider_2d.new 1 0 2 2)
        fix_mode.MOVE_SELF true).self.position = ⟨of_int (-1), 0⟩
    ∧ ((basic_collider_2d.new 0 0 2 2).fix_collision (basic_collider_2d.new 1 0 2 2)
        fix_mode.MOVE_SELF true).self.get_right_x = (basic_collider_2d.new 1 0 2 2).get_left_x
    ∧ ((basic_collider_2d.new 0 0 2 2).fix_collision (basic_collider_2d.new 1 0 2 2)
        fix_mode.MOVE_SELF true).self.detect_collision
          ((basic_collider_2d.new 0 0 2 2).fix_collision (basic_collider_2d.new 1 0 2 2)
            fix_mode.MOVE_SELF true).other = true := by
  refine ⟨?_, ?_, ?_, ?_, ?_⟩
  · decide
  · decide
  · decide
  · decide
  · decide

namespace hitscanner_2d

/-- The state the constructor `hitscanner_2d(x, y, angle, range, inf)` leaves, with updates
not suppressed. -/
lemma new_fields (M : libm) (x y a r : double) (inf : Bool) :
    new M false x y a r inf
      = ⟨⟨x, y⟩,
          ⟨fabs r * M.cos (math_helper.normalize_radian_angle a),
           fabs r * M.sin (math_helper.normalize_radian_angle a),
           math_helper.normalize_radian_angle a, fabs r⟩, inf⟩ := by
  simp only [new, default, set_x_pos, set_y_pos, set_angle, set_range, make_range_infinite,
    fast_vector_2d.set_angle, fast_vector_2d.set_magnitude,
    fast_vector_2d.update_cartesian_values, math_helper.normalize_angle,
    coordinate_2d.set_x_pos, coordinate_2d.set_y_pos, Bool.false_eq_true, if_false, if_true]

end hitscanner_2d

/-- The comparison `<=` of two `double`s is reflexive. -/
lemma le_self (a : double) : a ≤ a := by
  show le a a = true
  simp only [le, le_refl, decide_True]

/-- Two `double`s that are not in the relation `<` are in the relation `>=`. -/
lemma le_of_not_lt (a b : double) (h : ¬ a < b) : b ≤ a := by
  have h1 : ¬ (lt a b = true) := h
  show le b a = true
  simp only [lt, decide_eq_true_eq, not_lt] at h1
  simp only [le, decide_eq_true_eq]
  by_cases hab : a.e ≤ b.e
  · by_cases hba : b.e ≤ a.e
    · have he : a.e = b.e := le_antisymm hab hba
      rw [if_pos hab] at h1
      rw [if_pos hba]
      rw [he] at h1
      exact h1
    · rw [if_pos hab] at h1
      rw [if_neg hba]
      exact h1
  · have hba : b.e ≤ a.e := le_of_lt (not_le.mp hab)
    rw [if_neg hab] at h1
    rw [if_pos hba]
    exact h1

namespace hitscanner_2d

/-- A point that passes `do_range_check` is returned as it is. -/
lemma do_range_check_result (self : hitscanner_2d) (P p : coordinate_2d)
    (h : self.do_range_check P = some p) : p = P := by
  unfold do_range_check at h
  split_ifs at h
  exact (Option.some.inj h).symm

set_option maxRecDepth 100000 in
/-- The statement of `get_hit_on_edge_line` holds of the code with rounded operations: a point
returned by `get_hit` is the origin, or comes from an axis-aligned branch and has the
coordinate of an edge, or comes from the general branch and has the coordinate
`x + (left - x)`, `x + (right - x)`, `y + (bottom - y)` or `y + (top - y)`, each sum rounded
once, and lies within the span of that edge. -/
lemma get_hit_on_edge_line_rounded (self : hitscanner_2d) (C : basic_collider_2d)
    (p : coordinate_2d) (h : self.get_hit C = some p) :
    p = self.position
    ∨ (self.vector.x_comp = 0 ∧ p.x_pos = self.position.x_pos
        ∧ (p.y_pos = C.get_bottom_y ∨ p.y_pos = C.get_top_y)
        ∧ (self.vector.angle = C_PI_2 ∨ self.vector.angle = C_3PI_2 →
            C.get_left_x ≤ p.x_pos ∧ p.x_pos ≤ C.get_right_x))
    ∨ (self.vector.y_comp = 0 ∧ (p.x_pos = C.get_left_x ∨ p.x_pos = C.get_right_x)
        ∧ p.y_pos = self.position.y_pos
        ∧ (self.vector.angle = 0 ∨ self.vector.angle = C_PI →
            C.get_bottom_y ≤ p.y_pos ∧ p.y_pos ≤ C.get_top_y))
    ∨ ((p.x_pos = self.position.x_pos + (C.get_left_x - self.position.x_pos)
          ∨ p.x_pos = self.position.x_pos + (C.get_right_x - self.position.x_pos))
        ∧ C.get_bottom_y ≤ p.y_pos ∧ p.y_pos ≤ C.get_top_y)
    ∨ ((p.y_pos = self.position.y_pos + (C.get_bottom_y - self.position.y_pos)
          ∨ p.y_pos = self.position.y_pos + (C.get_top_y - self.position.y_pos))
        ∧ C.get_left_x ≤ p.x_pos ∧ p.x_pos ≤ C.get_right_x) := by
  have k1 : C_PI_2 ≤ C_3PI_2 := by decide
  have k2 : (0 : double) ≤ C_PI := by decide
  rw [get_hit] at h
  by_cases h1 : self.get_x_pos ≥ C.get_left_x ∧ self.get_x_pos ≤ C.get_right_x
      ∧ self.get_y_pos ≥ C.get_top_y ∧ self.get_y_pos ≤ C.get_bottom_y
  · rw [if_pos h1] at h
    exact Or.inl (Option.some.inj h).symm
  rw [if_neg h1] at h
  by_cases h2 : self.vector.get_magnitude = 0 ∧ ¬ self.has_infinite_range
  · rw [if_pos h2] at h
    exact Option.noConfusion h
  rw [if_neg h2] at h
  by_cases h3 : self.culled C = true
  · rw [if_pos h3] at h
    exact Option.noConfusion h
  rw [if_neg h3] at h
  have hc : ¬ ((self.get_angle ≤ C_PI ∧ self.get_y_pos > C.get_top_y)
      ∨ (self.get_angle ≥ C_PI ∧ self.get_y_pos < C.get_bottom_y)
      ∨ ((self.get_angle ≤ C_PI_2 ∨ self.get_angle ≥ C_3PI_2)
          ∧ self.get_x_pos > C.get_right_x)
      ∨ ((self.get_angle ≥ C_PI_2 ∧ self.get_angle ≤ C_3PI_2)
          ∧ self.get_x_pos < C.get_left_x)
      ∨ (self.get_angle = 0 ∧ self.get_y_pos < C.get_bottom_y)) := by
    intro hd
    apply h3
    rw [culled]
    exact decide_eq_true hd
  rw [not_or, not_or, not_or, not_or] at hc
  obtain ⟨c1, c2, c3, c4, c5⟩ := hc
  simp only [get_angle, fast_vector_2d.get_angle, if_true, get_x_pos, get_y_pos,
    coordinate_2d.get_x_pos, coordinate_2d.get_y_pos] at c1 c2 c3 c4 c5
  by_cases h4 : self.vector.get_x_comp = 0
  · rw [if_pos h4] at h
    have hp := do_range_check_result self _ p h
    right
    left
    refine ⟨h4, by rw [hp]; rfl, ?_, ?_⟩
    · rw [hp]
      dsimp only
      split_ifs
      · exact Or.inl (by with_reducible rfl)
      · exact Or.inr (by with_reducible rfl)
    · intro ha
      rw [hp]
      dsimp only
      simp only [get_x_pos, coordinate_2d.get_x_pos]
      rcases ha with ha | ha
      · refine ⟨le_of_not_lt _ _ (fun hx => c4 ⟨⟨?_, ?_⟩, hx⟩),
          le_of_not_lt _ _ (fun hx => c3 ⟨Or.inl ?_, hx⟩)⟩
        · rw [ha]
          exact le_self _
        · rw [ha]
          exact k1
        · rw [ha]
          exact le_self _
      · refine ⟨le_of_not_lt _ _ (fun hx => c4 ⟨⟨?_, ?_⟩, hx⟩),
          le_of_not_lt _ _ (fun hx => c3 ⟨Or.inr ?_, hx⟩)⟩
        · rw [ha]
          exact k1
        · rw [ha]
          exact le_self _
        · rw [ha]
          exact le_self _
  rw [if_neg h4] at h
  by_cases h5 : self.vector.get_y_comp = 0
  · rw [if_pos h5] at h
    have hp := do_range_check_result self _ p h
    right
    right
    left
    refine ⟨h5, ?_, by rw [hp]; rfl, ?_⟩
    · rw [hp]
      dsimp only
      split_ifs
      · exact Or.inl (by with_reducible rfl)
      · exact Or.inr (by with_reducible rfl)
    · intro ha
      rw [hp]
      dsimp only
      simp only [get_y_pos, coordinate_2d.get_y_pos]
      rcases ha with ha | ha
      · refine ⟨le_of_not_lt _ _ (fun hx => c5 ⟨ha, hx⟩),
          le_of_not_lt _ _ (fun hx => c1 ⟨?_, hx⟩)⟩
        rw [ha]
        exact k2
      · refine ⟨le_of_not_lt _ _ (fun hx => c2 ⟨?_, hx⟩),
          le_of_not_lt _ _ (fun hx => c1 ⟨?_, hx⟩)⟩
        · rw [ha]
          exact le_self _
        · rw [ha]
          exact le_self _
  rw [if_neg h5] at h
  simp only [get_x_pos, get_y_pos, coordinate_2d.get_x_pos, coordinate_2d.get_y_pos] at h
  split_ifs at h with g1 g2 g3 g4 g5 g6
  all_goals
    first
    | exact Option.noConfusion h
    | (have hp := do_range_check_result self _ p h
       rw [hp]
       dsimp only
       first
       | exact Or.inr (Or.inr (Or.inr (Or.inl ⟨Or.inl (by with_reducible rfl), by assumption⟩)))
       | exact Or.inr (Or.inr (Or.inr (Or.inl ⟨Or.inr (by with_reducible rfl), by assumption⟩)))
       | exact Or.inr (Or.inr (Or.inr (Or.inr ⟨Or.inl (by with_reducible rfl), by assumption⟩)))
       | exact Or.inr (Or.inr (Or.inr (Or.inr ⟨Or.inr (by with_reducible rfl), by assumption⟩))))

end hitscanner_2d

/-- Two `double`s in the relation `<` are not in the relation `>=`. -/
lemma not_le_of_lt (a b : double) (h : a < b) : ¬ b ≤ a := by
  have h1 : lt a b = true := h
  intro h2
  have h3 : le b a = true := h2
  simp only [lt, decide_eq_true_eq] at h1
  simp only [le, decide_eq_true_eq] at h3
  by_cases hab : a.e ≤ b.e
  · by_cases hba : b.e ≤ a.e
    · have he : a.e = b.e := le_antisymm hab hba
      rw [if_pos hab] at h1
      rw [if_pos hba] at h3
      rw [he] at h1
      exact absurd h1 (not_lt.mpr h3)
    · rw [if_pos hab] at h1
      rw [if_neg hba] at h3
      exact absurd h1 (not_lt.mpr h3)
  · have hba : b.e ≤ a.e := le_of_lt (not_le.mp hab)
    rw [if_neg hab] at h1
    rw [if_pos hba] at h3
    exact absurd h1 (not_lt.mpr h3)

namespace fast_vector_2d

/-- The statements of `setters_recompute_other_form` and `forms_agree_where_recomputed` hold
of the code with rounded operations: the four fields after each setter and each constructor,
with updates not suppressed.  The cartesian members store the components and compute the
magnitude and the angle; the polar members store the magnitude and the normalised angle and
compute the components. -/
lemma setters_fields_rounded (M : libm) (v : fast_vector_2d) (t u : double)
    (use_radians : Bool) :
    set_x_comp M false v t
        = ⟨t, v.y_comp, M.atan2 v.y_comp t, sqrt (t * t + v.y_comp * v.y_comp)⟩
    ∧ set_y_comp M false v t
        = ⟨v.x_comp, t, M.atan2 t v.x_comp, sqrt (v.x_comp * v.x_comp + t * t)⟩
    ∧ new_cartesian M false t u = ⟨t, u, M.atan2 u t, sqrt (t * t + u * u)⟩
    ∧ set_magnitude M false v t = ⟨t * M.cos v.angle, t * M.sin v.angle, v.angle, t⟩
    ∧ set_angle M false v t use_radians
        = ⟨v.magnitude * M.cos (math_helper.normalize_angle t use_radians),
           v.magnitude * M.sin (math_helper.normalize_angle t use_radians),
           math_helper.normalize_angle t use_radians, v.magnitude⟩
    ∧ new_polar M false t u use_radians
        = ⟨t * M.cos (math_helper.normalize_angle u use_radians),
           t * M.sin (math_helper.normalize_angle u use_radians),
           math_helper.normalize_angle u use_radians, t⟩ := by
  refine ⟨?_, ?_, ?_, ?_, ?_, ?_⟩
  · simp only [set_x_comp, update_polar_values, Bool.false_eq_true, if_false]
  · simp only [set_y_comp, update_polar_values, Bool.false_eq_true, if_false]
  · exact new_cartesian_fields M t u
  · simp only [set_magnitude, update_cartesian_values, Bool.false_eq_true, if_false]
  · simp only [set_angle, update_cartesian_values, Bool.false_eq_true, if_false]
  · simp only [new_polar, set_angle, set_magnitude, update_cartesian_values,
      Bool.false_eq_true, if_false]

end fast_vector_2d

namespace basic_collider_2d

/-- The statement of `fix_collision_move_self_second_call` holds of the code with rounded
operations: a `MOVE_SELF` call with the check leaves the other collider alone, returns what
`detect_collision` returns, and leaves the receiver alone when it returns false. -/
lemma fix_collision_move_self_checked_rounded (X Y : basic_collider_2d) :
    (X.fix_collision Y fix_mode.MOVE_SELF true).other = Y
    ∧ (X.fix_collision Y fix_mode.MOVE_SELF true).ret = X.detect_collision Y
    ∧ (X.detect_collision Y = false → (X.fix_collision Y fix_mode.MOVE_SELF true).self = X) := by
  cases hd : X.detect_collision Y
  · refine ⟨?_, ?_, ?_⟩
    · simp only [fix_collision, hd, Bool.not_false, Bool.and_self, if_true]
    · simp only [fix_collision, hd, Bool.not_false, Bool.and_self, if_true]
    · intro _
      simp only [fix_collision, hd, Bool.not_false, Bool.and_self, if_true]
  · refine ⟨?_, ?_, ?_⟩
    · simp only [fix_collision, hd, Bool.not_true, Bool.and_false, Bool.false_eq_true,
        if_false]
    · simp only [fix_collision, hd, Bool.not_true, Bool.and_false, Bool.false_eq_true,
        if_false]
    · intro g
      exact Bool.noConfusion g

/-- The statement of `fix_collision_move_both_halves` on the centres holds of the code with
rounded operations: under `MOVE_BOTH` the centre of the receiver is the rounded sum of the old
centre and `d / 2`, the centre of the other collider the rounded difference of its old centre
and `d / 2`, and `d` has a zero component. -/
lemma fix_collision_move_both_rounded (A B : basic_collider_2d)
    (h : A.detect_collision B = true) :
    (A.fix_collision B fix_mode.MOVE_BOTH true).self.position
        = ⟨A.position.x_pos + (fix_collision_locals A B).x_vector / 2,
           A.position.y_pos + (fix_collision_locals A B).y_vector / 2⟩
    ∧ (A.fix_collision B fix_mode.MOVE_BOTH true).other.position
        = ⟨B.position.x_pos - (fix_collision_locals A B).x_vector / 2,
           B.position.y_pos - (fix_collision_locals A B).y_vector / 2⟩
    ∧ ((fix_collision_locals A B).x_vector = 0 ∨ (fix_collision_locals A B).y_vector = 0) := by
  refine ⟨?_, ?_, ?_⟩
  · simp only [fix_collision, h, Bool.not_true, Bool.and_false, Bool.false_eq_true, if_false,
      coordinate_2d.translate_horizontally, coordinate_2d.translate_vertically]
  · simp only [fix_collision, h, Bool.not_true, Bool.and_false, Bool.false_eq_true, if_false,
      set_x_pos, set_y_pos, get_x_pos, get_y_pos, coordinate_2d.set_x_pos,
      coordinate_2d.set_y_pos, coordinate_2d.get_x_pos, coordinate_2d.get_y_pos]
  · simp only [fix_collision_locals]
    split_ifs
    all_goals
      first
      | exact Or.inl (by with_reducible rfl)
      | exact Or.inr (by with_reducible rfl)

/-- The statement of `new_negative_extent_stored` holds of the code with rounded operations:
when the halved width is negative the constructor stores the centre `x + width / 2`, rounded,
and the half-extent `-(width / 2)`, and the accessors compute the edges from these. -/
lemma new_negative_width_rounded (x y width height : double) (hw : width / 2 < 0) :
    (new x y width height).position.x_pos = x + width / 2
    ∧ (new x y width height).width_2 = -(width / 2)
    ∧ (new x y width height).get_right_x = x + width / 2 + -(width / 2)
    ∧ (new x y width height).get_left_x = x + width / 2 - -(width / 2) := by
  have hw2 : ¬ (width / 2 ≥ 0) := not_le_of_lt _ _ hw
  have h1 : (new x y width height).position.x_pos = x + width / 2 := by
    simp only [new, set_width, set_height, set_width_2, set_height_2, if_neg hw2]
    split_ifs <;>
      simp only [default, set_x_pos, set_y_pos, coordinate_2d.set_x_pos,
        coordinate_2d.set_y_pos, coordinate_2d.translate_horizontally,
        coordinate_2d.translate_vertically]
  have h2 : (new x y width height).width_2 = -(width / 2) := by
    simp only [new, set_width, set_height, set_width_2, set_height_2, if_neg hw2]
    split_ifs <;> simp only
  refine ⟨h1, h2, ?_, ?_⟩
  · rw [get_right_x, coordinate_2d.get_x_pos, h1, h2]
  · rw [get_left_x, coordinate_2d.get_x_pos, h1, h2]

end basic_collider_2d

end binary64

end bengine
